import Mathlib

set_option autoImplicit false

/-!
# simplivity-go: the OVC client (package `ovc`)

A shallow embedding of `ovc/ovc.go`, `ovc/tasks.go` and the accessors and operations of the
resource files (`ovc/virtual_machines.go`, `ovc/persistent_volumes.go`, `ovc/backups.go` and
the others).

* Go values of type `error` are `GoError`; a pair `([]byte, error)` is a pair of `Option`s,
  `none` standing for `nil`.
* The JSON texts that travel between client and server are kept as syntax trees (`JSON`);
  `encoding/json.Unmarshal` is written out for the three structs the client decodes into.
* The network is a function from the requests sent so far and the current request to the
  outcome of `http.Client.Do`; every send is appended to a log.
* A Go map is a list of its entries, in the order in which `range` visits them; for the map
  that `DoRequest` builds itself the environment chooses that order.
* A run-time panic is `Run.fault`; the poll loop of `WaitForTask` has no bound in the source
  and is given fuel here.
-/

namespace ovc

/-! ## Values -/

/-- Go values of type `error`, by origin. -/
inductive GoError where
  /-- returned by `http.Client.Do` -/
  | transport (msg : String)
  /-- returned by `ioutil.ReadAll` on the response body -/
  | bodyRead (msg : String)
  /-- `*json.SyntaxError`: the bytes are not one JSON text -/
  | jsonText (bytes : String)
  /-- `*json.UnmarshalTypeError`: a JSON value does not fit the Go field -/
  | jsonType (field : String)
  /-- returned by the JSON encoder -/
  | jsonEncode (msg : String)
  /-- `*url.Error` returned by `url.Parse` -/
  | urlParse (msg : String)
  /-- returned by `http.NewRequest` -/
  | newRequest (msg : String)
  /-- made by `fmt.Errorf` or `errors.New` -/
  | errorf (msg : String)
deriving DecidableEq, Repr

/-- JSON values. A number literal with neither fraction nor exponent is `int`, any other
number literal is `real`. -/
inductive JSON where
  | null
  | bool (b : Bool)
  | int (n : Int)
  | real (literal : String)
  | str (s : String)
  | arr (items : List JSON)
  | obj (members : List (String × JSON))

/-- A byte slice holding a body: either one JSON text, or bytes that are not a JSON text
(the empty and the `nil` slice are `text ""`). -/
inductive Bytes where
  | text (s : String)
  | json (v : JSON)

/-- Outcome of a call: it returned, it panicked, or the fuel given to an unbounded loop
ran out. -/
inductive Run (α : Type) where
  | ret (a : α)
  | fault (msg : String)
  | outOfFuel

/-! ## encoding/json: decoding into the client's structs -/

/-- Case folding of one rune as `encoding/json` matches object keys against field names:
ASCII letters fold to lower case, the Kelvin sign to `k` and the long s to `s`. -/
def foldRune (c : Char) : Nat :=
  if c.toNat = 0x212A then 107
  else if c.toNat = 0x17F then 115
  else if 65 ≤ c.toNat ∧ c.toNat ≤ 90 then c.toNat + 32
  else c.toNat

/-- Whether the object key `key` selects the struct field tagged `name`. -/
def equalFold (key name : String) : Bool :=
  key.toList.map foldRune == name.toList.map foldRune

/-- Decoding a JSON value into a Go `string` field holding `cur`. -/
def decodeString (field : String) (cur : String) : JSON → Except GoError String
  | .str s => .ok s
  | .null => .ok cur
  | _ => .error (.jsonType field)

/-- Decoding a JSON value into a Go `int` field (64 bits) holding `cur`. -/
def decodeInt (field : String) (cur : Int) : JSON → Except GoError Int
  | .int n =>
    if -9223372036854775808 ≤ n ∧ n ≤ 9223372036854775807 then .ok n
    else .error (.jsonType field)
  | .null => .ok cur
  | _ => .error (.jsonType field)

/-- List of affected resources in task response. -/
structure AffectedResource where
  ObjectType : String := ""
  ObjectId : String := ""
deriving DecidableEq, Repr

/-- Task fields. `AffectedResources` is the slice `[]*AffectedResource` up to its length
(`none` is a nil element); `spare` is what its backing array holds beyond the length, which
only a later `json.Unmarshal` into the same slice can see. -/
structure Task where
  State : String := ""
  Id : String := ""
  Progress : Int := 0
  AffectedResources : List (Option AffectedResource) := []
  ErrorCode : Int := 0
  spare : List (Option AffectedResource) := []
deriving DecidableEq, Repr

/-- Task endpoint response. -/
structure TaskResp where
  Task : Option Task := none
deriving DecidableEq, Repr

/-- One member `key: v` of a JSON object decoded into an `AffectedResource`. -/
def AffectedResource.setField (a : AffectedResource) (key : String) (v : JSON) :
    Except GoError AffectedResource :=
  if equalFold key "object_type" then
    match decodeString "object_type" a.ObjectType v with
    | .ok s => .ok { a with ObjectType := s }
    | .error e => .error e
  else if equalFold key "object_id" then
    match decodeString "object_id" a.ObjectId v with
    | .ok s => .ok { a with ObjectId := s }
    | .error e => .error e
  else .ok a

/-- The members of a JSON object decoded in order into an `AffectedResource`. -/
def AffectedResource.setFields (a : AffectedResource) :
    List (String × JSON) → Except GoError AffectedResource
  | [] => .ok a
  | (key, v) :: rest =>
    match a.setField key v with
    | .ok a1 => AffectedResource.setFields a1 rest
    | .error e => .error e

/-- Decoding a JSON value into a `*AffectedResource` holding `cur`: `null` makes it nil, an
object is decoded into the struct pointed at, a fresh one when the pointer is nil. -/
def decodeAffectedPtr (cur : Option AffectedResource) : JSON → Except GoError (Option AffectedResource)
  | .null => .ok none
  | .obj members =>
    match (cur.getD {}).setFields members with
    | .ok a => .ok (some a)
    | .error e => .error e
  | _ => .error (.jsonType "affected_objects")

/-- The elements of a JSON array decoded in order into the slots of a backing array; a slot
the array does not have is a nil pointer. -/
def decodeAffectedItems : List (Option AffectedResource) → List JSON →
    Except GoError (List (Option AffectedResource))
  | _, [] => .ok []
  | backing, item :: items =>
    match decodeAffectedPtr backing.head?.join item with
    | .error e => .error e
    | .ok a =>
      match decodeAffectedItems backing.tail items with
      | .error e => .error e
      | .ok rest => .ok (a :: rest)

/-- One member `key: v` of a JSON object decoded into a `Task`. -/
def Task.setField (t : Task) (key : String) (v : JSON) : Except GoError Task :=
  if equalFold key "state" then
    match decodeString "state" t.State v with
    | .ok s => .ok { t with State := s }
    | .error e => .error e
  else if equalFold key "id" then
    match decodeString "id" t.Id v with
    | .ok s => .ok { t with Id := s }
    | .error e => .error e
  else if equalFold key "percent_complete" then
    match decodeInt "percent_complete" t.Progress v with
    | .ok n => .ok { t with Progress := n }
    | .error e => .error e
  else if equalFold key "affected_objects" then
    match v with
    | .null => .ok { t with AffectedResources := [], spare := [] }
    | .arr [] => .ok { t with AffectedResources := [], spare := [] }
    | .arr items =>
      match decodeAffectedItems (t.AffectedResources ++ t.spare) items with
      | .ok rs =>
        .ok { t with AffectedResources := rs,
                     spare := (t.AffectedResources ++ t.spare).drop items.length }
      | .error e => .error e
    | _ => .error (.jsonType "affected_objects")
  else if equalFold key "error_code" then
    match decodeInt "error_code" t.ErrorCode v with
    | .ok n => .ok { t with ErrorCode := n }
    | .error e => .error e
  else .ok t

/-- The members of a JSON object decoded in order into a `Task`. -/
def Task.setFields (t : Task) : List (String × JSON) → Except GoError Task
  | [] => .ok t
  | (key, v) :: rest =>
    match t.setField key v with
    | .ok t1 => Task.setFields t1 rest
    | .error e => .error e

/-- One member `key: v` of a JSON object decoded into a `TaskResp`: under `task`, `null` makes
the pointer nil and an object is decoded into the `Task` pointed at, a fresh one when the
pointer is nil. -/
def TaskResp.setField (r : TaskResp) (key : String) (v : JSON) : Except GoError TaskResp :=
  if equalFold key "task" then
    match v with
    | .null => .ok { r with Task := none }
    | .obj members =>
      match (r.Task.getD {}).setFields members with
      | .ok t => .ok { r with Task := some t }
      | .error e => .error e
    | _ => .error (.jsonType "task")
  else .ok r

/-- The members of a JSON object decoded in order into a `TaskResp`. -/
def TaskResp.setFields (r : TaskResp) : List (String × JSON) → Except GoError TaskResp
  | [] => .ok r
  | (key, v) :: rest =>
    match r.setField key v with
    | .ok r1 => TaskResp.setFields r1 rest
    | .error e => .error e

/-- The call `json.Unmarshal(data, &taskResp)`, `taskResp` holding `r`: the value of `taskResp`
afterwards, or the error returned. Fields the text does not mention keep what they hold. -/
def TaskResp.Unmarshal (data : Bytes) (r : TaskResp) : Except GoError TaskResp :=
  match data with
  | .text s => .error (.jsonText s)
  | .json .null => .ok r
  | .json (.obj members) => r.setFields members
  | .json _ => .error (.jsonType "TaskResp")

/-- Error response from an API endpoint. -/
structure OVCRespError where
  Exception : String := ""
  Path : String := ""
  Error : String := ""
  Message : String := ""
  Status : String := ""
deriving DecidableEq, Repr

/-- One member `key: v` of a JSON object decoded into an `OVCRespError`. -/
def OVCRespError.setField (r : OVCRespError) (key : String) (v : JSON) :
    Except GoError OVCRespError :=
  if equalFold key "exception" then
    match decodeString "exception" r.Exception v with
    | .ok s => .ok { r with Exception := s }
    | .error e => .error e
  else if equalFold key "path" then
    match decodeString "path" r.Path v with
    | .ok s => .ok { r with Path := s }
    | .error e => .error e
  else if equalFold key "error" then
    match decodeString "error" r.Error v with
    | .ok s => .ok { r with Error := s }
    | .error e => .error e
  else if equalFold key "message" then
    match decodeString "message" r.Message v with
    | .ok s => .ok { r with Message := s }
    | .error e => .error e
  else if equalFold key "status" then
    match decodeString "status" r.Status v with
    | .ok s => .ok { r with Status := s }
    | .error e => .error e
  else .ok r

/-- The members of a JSON object decoded in order into an `OVCRespError`. -/
def OVCRespError.setFields (r : OVCRespError) :
    List (String × JSON) → Except GoError OVCRespError
  | [] => .ok r
  | (key, v) :: rest =>
    match r.setField key v with
    | .ok r1 => OVCRespError.setFields r1 rest
    | .error e => .error e

/-- The call `json.Unmarshal(data, &errResp)`, `errResp` holding `r`. -/
def OVCRespError.Unmarshal (data : Bytes) (r : OVCRespError) : Except GoError OVCRespError :=
  match data with
  | .text s => .error (.jsonText s)
  | .json .null => .ok r
  | .json (.obj members) => r.setFields members
  | .json _ => .error (.jsonType "OVCRespError")

/-- Auth token endpoint response. -/
structure auth where
  AccessToken : String := ""
deriving DecidableEq, Repr

/-- One member `key: v` of a JSON object decoded into an `auth`. -/
def auth.setField (r : auth) (key : String) (v : JSON) : Except GoError auth :=
  if equalFold key "access_token" then
    match decodeString "access_token" r.AccessToken v with
    | .ok s => .ok { r with AccessToken := s }
    | .error e => .error e
  else .ok r

/-- The members of a JSON object decoded in order into an `auth`. -/
def auth.setFields (r : auth) : List (String × JSON) → Except GoError auth
  | [] => .ok r
  | (key, v) :: rest =>
    match r.setField key v with
    | .ok r1 => auth.setFields r1 rest
    | .error e => .error e

/-- The call `json.Unmarshal(data, &authData)`, `authData` holding `r`. -/
def auth.Unmarshal (data : Bytes) (r : auth) : Except GoError auth :=
  match data with
  | .text s => .error (.jsonText s)
  | .json .null => .ok r
  | .json (.obj members) => r.setFields members
  | .json _ => .error (.jsonType "auth")

/-! ## net/url and net/http as the client uses them -/

/-- A Go `map[string]string`; the order of the list stands for the order in which `range`
visits the map. -/
abbrev StringMap := List (String × String)

/-- The assignment `m[key] = value`. -/
def StringMap.assign (m : StringMap) (key value : String) : StringMap :=
  if m.any (fun kv => kv.1 == key) then
    m.map (fun kv => if kv.1 == key then (key, value) else kv)
  else m ++ [(key, value)]

/-- The bytes `textproto` accepts in a header field name. -/
def validHeaderFieldByte (c : Char) : Bool :=
  (48 ≤ c.toNat && c.toNat ≤ 57) || (65 ≤ c.toNat && c.toNat ≤ 90) ||
  (97 ≤ c.toNat && c.toNat ≤ 122) ||
  [33, 35, 36, 37, 38, 39, 42, 43, 45, 46, 94, 95, 96, 124, 126].contains c.toNat

/-- Upper case for the first letter and any letter after a hyphen, lower case for the rest. -/
def canonicalCase : Bool → List Char → List Char
  | _, [] => []
  | upper, c :: cs =>
    let c1 := if upper then c.toUpper else c.toLower
    c1 :: canonicalCase (c1 == '-') cs

/-- The function `textproto.CanonicalMIMEHeaderKey`: a name with a byte that is not valid in
a field name is returned unchanged. -/
def CanonicalMIMEHeaderKey (s : String) : String :=
  if s.toList.all validHeaderFieldByte then String.mk (canonicalCase true s.toList) else s

/-- The header of a request: canonical field name and value. -/
abbrev Header := List (String × String)

/-- The method `http.Header.Set`. -/
def Header.Set (h : Header) (key value : String) : Header :=
  if h.any (fun kv => kv.1 == CanonicalMIMEHeaderKey key) then
    h.map (fun kv => if kv.1 == CanonicalMIMEHeaderKey key then (kv.1, value) else kv)
  else h ++ [(CanonicalMIMEHeaderKey key, value)]

/-- The method `http.Header.Get`; the empty string when the field is not set. -/
def Header.Get (h : Header) (key : String) : String :=
  (h.lookup (CanonicalMIMEHeaderKey key)).getD ""

/-- What the client touches of a `*url.URL`: the text it was parsed from and its raw query. -/
structure URL where
  Text : String
  RawQuery : String
deriving DecidableEq, Repr

/-- What the client touches of a `*http.Request`. -/
structure Request where
  Method : String
  URL : URL
  Header : Header := []
  Body : Option String := none
deriving DecidableEq, Repr

/-- What the client touches of a `*http.Response`: the status code, and what
`ioutil.ReadAll(resp.Body)` returns. -/
structure Response where
  StatusCode : Int
  Body : Except GoError Bytes

/-- The world outside the package: `url.Parse`, the checks of `http.NewRequest` on method and
URL, `http.Client.Do`, whose outcome may depend on the requests sent before, and the order in
which the runtime lets `range` visit the entries of a map, which it chooses anew for every
loop (here: by the requests sent before); where nothing else is said, the order of insertion. -/
structure Env where
  urlParse : String → Except GoError URL
  newRequestError : String → URL → Option GoError
  roundTrip : List Request → Request → Except GoError Response
  rangeOrder : List Request → StringMap → StringMap := fun _ m => m

/-- The UTF-8 bytes of a rune. -/
def utf8Bytes (c : Char) : List Nat :=
  if c.toNat < 0x80 then [c.toNat]
  else if c.toNat < 0x800 then [0xC0 + c.toNat / 64, 0x80 + c.toNat % 64]
  else if c.toNat < 0x10000 then
    [0xE0 + c.toNat / 4096, 0x80 + c.toNat / 64 % 64, 0x80 + c.toNat % 64]
  else [0xF0 + c.toNat / 262144, 0x80 + c.toNat / 4096 % 64, 0x80 + c.toNat / 64 % 64,
        0x80 + c.toNat % 64]

/-- Upper-case hexadecimal digit. -/
def upperhex (n : Nat) : Char :=
  if n < 10 then Char.ofNat (48 + n) else Char.ofNat (55 + n)

/-- One byte as `url.QueryEscape` writes it. -/
def escapeByte (b : Nat) : List Char :=
  if (48 ≤ b && b ≤ 57) || (65 ≤ b && b ≤ 90) || (97 ≤ b && b ≤ 122) ||
      [45, 95, 46, 126].contains b then [Char.ofNat b]
  else if b = 32 then ['+']
  else ['%', upperhex (b / 16), upperhex (b % 16)]

/-- The function `url.QueryEscape`. -/
def QueryEscape (s : String) : String :=
  String.mk ((s.toList.flatMap utf8Bytes).flatMap escapeByte)

/-- The function `http.NewRequest(method, url.String(), body)`; an empty method means GET. -/
def httpNewRequest (env : Env) (method : String) (url : URL) (body : Option String) :
    Except GoError Request :=
  match env.newRequestError method url with
  | some err => .error err
  | none => .ok { Method := if method = "" then "GET" else method, URL := url, Body := body }

/-- The function `strings.HasPrefix`. -/
def startsWith (s pre : String) : Bool :=
  pre.toList.isPrefixOf s.toList

/-! ## ovc.go -/

/-- Http status codes of the OVC API endpoints. -/
def httpStatusCodes : List (Int × Bool) :=
  [(200, true), (201, true), (202, true), (204, true), (400, false), (401, false),
   (404, false), (405, false), (413, false), (415, false), (500, false), (502, false),
   (504, false)]

/-- The map index expression `httpStatusCodes[code]`: `false` for a key the map lacks. -/
def httpStatusCodes.get (code : Int) : Bool :=
  (httpStatusCodes.lookup code).getD false

/-- Client handles communications with the OVC API. The field `client` is the `*http.Client`,
kept as the list of requests it has sent. -/
structure Client where
  client : List Request := []
  OVCIP : String
  Username : String
  Password : String
  AccessToken : String := ""
  SSLCertificatePath : String := ""
deriving DecidableEq, Repr

/-- A value handed to the JSON encoder as request body: the text the encoder writes for it,
or the error it returns. -/
inductive Payload where
  | encodes (text : String)
  | unsupported (err : GoError)
deriving DecidableEq, Repr

/-- CreateResourceURL creats the resource URL by appending the base URL with the resource
path. -/
def Client.CreateResourceURL (env : Env) (c : Client) (path query : String) :
    Except GoError URL :=
  let baseURL := if !startsWith c.OVCIP "http" then "https://" ++ c.OVCIP ++ "/api" else c.OVCIP
  match env.urlParse (baseURL ++ path) with
  | .error err => .error err
  | .ok resourceURL =>
    if query != "" then .ok { resourceURL with RawQuery := query } else .ok resourceURL

/-- Do makes calls to the OVC. Returns `(data, err, httpError)` and the client, whose
`http.Client` has sent `req`. -/
def Client.Do (env : Env) (c : Client) (req : Request) :
    (Option Bytes × Option GoError × Option OVCRespError) × Client :=
  let c1 := { c with client := c.client ++ [req] }
  match env.roundTrip c.client req with
  | .error err => ((none, some err, none), c1)
  | .ok resp =>
    match resp.Body with
    | .error err => ((none, some err, none), c1)
    | .ok data =>
      if !httpStatusCodes.get resp.StatusCode then
        match OVCRespError.Unmarshal data {} with
        | .error err => ((none, some err, none), c1)
        | .ok errResp => ((none, none, some errResp), c1)
      else ((some data, none, none), c1)

/-- SetAccessToken sets the access token which will be used by other endpoints. The form
`username, password, grant_type=password` is written by `url.Values.Encode`, keys sorted. -/
def Client.SetAccessToken (env : Env) (c : Client) : Option GoError × Client :=
  match c.CreateResourceURL env "/oauth/token" "" with
  | .error err => (some err, c)
  | .ok endpoint =>
    let reqData := "grant_type=password&password=" ++ QueryEscape c.Password ++
      "&username=" ++ QueryEscape c.Username
    match httpNewRequest env "POST" endpoint (some reqData) with
    | .error err => (some err, c)
    | .ok req =>
      let contentType := "application/x-www-form-urlencoded; param=value"
      let req1 := { req with Header := Header.Set req.Header "Content-Type" contentType }
      let req2 := { req1 with Header := Header.Set req1.Header "Authorization" "Basic c2ltcGxpdml0eTo=" }
      match c.Do env req2 with
      | ((_, some err, _), c1) => (some err, c1)
      | ((_, none, some httpError), c1) =>
        (some (.errorf ("Error: Status code:" ++ httpError.Status ++ " - " ++ httpError.Message)),
          c1)
      | ((data, none, none), c1) =>
        match auth.Unmarshal (data.getD (.text "")) {} with
        | .error err => (some err, c1)
        | .ok authData => (none, { c1 with AccessToken := authData.AccessToken })

/-- The loop `for name, value := range headers` with body `req.Header.Set(name, value)`. -/
def setAll (h : Header) : StringMap → Header
  | [] => h
  | (name, value) :: rest => setAll (h.Set name value) rest

/-- SetHeaders sets headers of the API requests. -/
def Client.SetHeaders (c : Client) (req : Request) (headers : StringMap) : Request :=
  { req with
    Header := setAll (Header.Set req.Header "Authorization" ("Bearer " ++ c.AccessToken)) headers }

/-- NewRequest creates a new http request by setting the URL, method and body. An error of
`CreateResourceURL` is logged only, and `resourceURL.String()` then dereferences nil. -/
def Client.NewRequest (env : Env) (c : Client) (method path query : String)
    (body : Option Payload) : Run (Except GoError Request) :=
  match body with
  | some (.unsupported err) => .ret (.error err)
  | some (.encodes text) =>
    match c.CreateResourceURL env path query with
    | .error _ => .fault "invalid memory address or nil pointer dereference"
    | .ok resourceURL => .ret (httpNewRequest env method resourceURL (some (text ++ "\n")))
  | none =>
    match c.CreateResourceURL env path query with
    | .error _ => .fault "invalid memory address or nil pointer dereference"
    | .ok resourceURL => .ret (httpNewRequest env method resourceURL none)

/-- The map `req_headers` of `DoRequest`: the default content type when there is a body,
then the caller's headers over it, listed in the order of insertion. -/
def requestHeaders (body : Option Payload) (headers : Option StringMap) : StringMap :=
  let req_headers : StringMap :=
    if body.isSome then StringMap.assign [] "Content-Type" "application/vnd.simplivity.v1+json"
    else []
  match headers with
  | none => req_headers
  | some hs => hs.foldl (fun m kv => StringMap.assign m kv.1 kv.2) req_headers

/-- DoRequest creates a new http request and make calls to the OVC. Tries to get another
token and makes a fresh request if the token expired. Returns `(data, err)` and the client.
Each of the two calls of `SetHeaders` ranges over `req_headers` in an order of the runtime's
choosing. -/
def Client.DoRequest (env : Env) (c : Client) (method path queryStr : String)
    (body : Option Payload) (headers : Option StringMap) :
    Run ((Option Bytes × Option GoError) × Client) :=
  match c.NewRequest env method path queryStr body with
  | .fault msg => .fault msg
  | .outOfFuel => .outOfFuel
  | .ret (.error err) => .ret ((none, some err), c)
  | .ret (.ok req) =>
    let req_headers := requestHeaders body headers
    let req1 := c.SetHeaders req (env.rangeOrder c.client req_headers)
    match c.Do env req1 with
    | ((data, err, none), c1) => .ret ((data, err), c1)
    | ((data, _, some httpError), c1) =>
      if httpError.Error = "invalid_token" then
        let c2 := (c1.SetAccessToken env).2
        let req2 := c2.SetHeaders req1 (env.rangeOrder c2.client req_headers)
        match c2.Do env req2 with
        | ((data2, _, some httpError2), c3) =>
          .ret ((data2, some (.errorf ("Error: Status code:" ++ httpError2.Status ++ " - " ++
            httpError2.Message))), c3)
        | ((data2, err2, none), c3) => .ret ((data2, err2), c3)
      else
        .ret ((data, some (.errorf ("Error: Status code:" ++ httpError.Status ++ " - " ++
          httpError.Message))), c1)

/-! ## tasks.go -/

/-- The arguments of one call of `DoRequest`. -/
structure Call where
  method : String
  path : String
  queryStr : String := ""
  body : Option Payload := none
  headers : Option StringMap := none
deriving DecidableEq, Repr

/-- What `DoRequest` returns: `(data, err)`. -/
abbrev Reply := Option Bytes × Option GoError

/-- The method `DoRequest` of the client a resource accessor holds, as a transition on the
state `σ` of that client and of the server behind it. -/
abbrev Requester (σ : Type) := σ → Call → Run (Reply × σ)

/-- The client of this package as a `Requester`. -/
def Client.requester (env : Env) : Requester Client :=
  fun c call => c.DoRequest env call.method call.path call.queryStr call.body call.headers

/-- CheckProgress makes call to the server for task status. -/
def TaskResource.CheckProgress {σ : Type} (client : Requester σ) (s : σ) (task : Task) :
    Run (Reply × σ) :=
  client s { method := "GET", path := "/tasks/" ++ task.Id }

/-- The loop of `WaitForTask`, `taskResp` being the variable declared before the loop and
`resp` the bytes to decode next. -/
def TaskResource.waitLoop {σ : Type} (client : Requester σ) :
    Nat → σ → TaskResp → Bytes → Run ((Option Task × Option GoError) × σ)
  | 0, _, _, _ => .outOfFuel
  | fuel + 1, s, taskResp, resp =>
    match TaskResp.Unmarshal resp taskResp with
    | .error err => .ret ((none, some err), s)
    | .ok taskResp1 =>
      match taskResp1.Task with
      | none => .fault "invalid memory address or nil pointer dereference"
      | some task =>
        if task.State != "IN_PROGRESS" then .ret ((some task, none), s)
        else
          match TaskResource.CheckProgress client s task with
          | .fault msg => .fault msg
          | .outOfFuel => .outOfFuel
          | .ret ((_, some err), s1) => .ret ((none, some err), s1)
          | .ret ((resp1, none), s1) =>
            TaskResource.waitLoop client fuel s1 taskResp1 (resp1.getD (.text ""))

/-- WaitForTask waits for the task to complete. Makes continous calls to the server using
CheckProgress method and checks the status of the task. -/
def TaskResource.WaitForTask {σ : Type} (client : Requester σ) (fuel : Nat) (s : σ)
    (resp : Bytes) : Run ((Option Task × Option GoError) × σ) :=
  TaskResource.waitLoop client fuel s {} resp

/-! ## Scripted responses -/

/-- A client standing in for `DoRequest` the way the mock server of the test suite does: it
answers each call with the next reply of a script and records the call. With the script used
up it answers like a server that is gone. -/
structure Scripted where
  pending : List Reply
  calls : List Call := []

/-- The `DoRequest` of a scripted client. -/
def Scripted.DoRequest : Requester Scripted :=
  fun s call =>
    match s.pending with
    | [] => .ret ((none, some (.transport "connection refused")),
        { s with calls := s.calls ++ [call] })
    | reply :: rest => .ret (reply, { pending := rest, calls := s.calls ++ [call] })

/-- A reply of `DoRequest` that carries the body `resp` and no error. -/
def replyOf (resp : Bytes) : Reply := (some resp, none)

/-- The body `resp` is a task-status response with state `state`: whatever the variable
decoded into holds, decoding `resp` succeeds and leaves a Task whose state is `state`. -/
def HasState (resp : Bytes) (state : String) : Prop :=
  ∀ r : TaskResp, ∃ r1 t, TaskResp.Unmarshal resp r = .ok r1 ∧ r1.Task = some t ∧ t.State = state

/-- The body `resp` fails to decode, with error `err`, whatever the variable decoded into
holds. -/
def FailsToDecode (resp : Bytes) (err : GoError) : Prop :=
  ∀ r : TaskResp, TaskResp.Unmarshal resp r = .error err

/-- The bodies decoded one after the other into the same variable, which holds `r` at first. -/
def decodeInTurn (r : TaskResp) : List Bytes → Except GoError TaskResp
  | [] => .ok r
  | resp :: rest =>
    match TaskResp.Unmarshal resp r with
    | .ok r1 => decodeInTurn r1 rest
    | .error e => .error e

/-- The id of the Task held after decoding the bodies in turn, starting from `r`. -/
def heldId (r : TaskResp) (bodies : List Bytes) : String :=
  match decodeInTurn r bodies with
  | .ok r1 => (r1.Task.getD {}).Id
  | .error _ => ""

/-- The status fetch for the task `id`: a GET to `/tasks/id` with no query, body or headers. -/
def statusFetch (id : String) : Call :=
  { method := "GET", path := "/tasks/" ++ id }

/-! ## Sample exchanges, after the test suite -/

/-- The response of the set_policy mock of the test suite. -/
def startedBody : Bytes :=
  .json (.obj [("task", .obj [("state", .str "IN_PROGRESS"), ("id", .str "1"),
    ("percent_complete", .int 1), ("affected_objects", .arr [])])])

/-- A task-status response of a task half way through, with the object it works on. -/
def halfWayBody : Bytes :=
  .json (.obj [("task", .obj [("state", .str "IN_PROGRESS"), ("id", .str "1"),
    ("percent_complete", .int 50),
    ("affected_objects", .arr [.obj [("object_type", .str "vm"), ("object_id", .str "7")]])])])

/-- The response of the task mock of the test suite. -/
def completeBody : Bytes :=
  .json (.obj [("task", .obj [("state", .str "COMPLETE"), ("id", .str "1"),
    ("percent_complete", .int 1),
    ("affected_objects", .arr [.obj [("object_type", .str ""), ("object_id", .str "1")]])])])

/-- A task-status response of a failed task: state, id and error code only. -/
def failedBody : Bytes :=
  .json (.obj [("task", .obj [("state", .str "FAILED"), ("id", .str "1"),
    ("error_code", .int 17)])])

/-- A client whose token the server no longer accepts. -/
def staleClient : Client :=
  { OVCIP := "ovc.test", Username := "user", Password := "pass", AccessToken := "stale" }

/-- The error envelope of the token-expiry test. -/
def invalidTokenBody : Bytes :=
  .json (.obj [("error", .str "invalid_token"),
    ("message", .str "Access token expired due to inactivity")])

/-- An error envelope for a resource that does not exist. -/
def notFoundBody : Bytes :=
  .json (.obj [("exception", .str "ObjectNotFoundException"), ("path", .str "/api/test/path"),
    ("error", .str "Not Found"), ("message", .str "No such resource"), ("status", .str "404")])

/-- The body of a successful answer, as in the request test. -/
def testBody : Bytes :=
  .json (.obj [("Test", .str "a")])

/-- The answer of the token endpoint of the test server. -/
def tokenAnswer : Response :=
  { StatusCode := 200, Body := .ok (.json (.obj [("access_token", .str "12345")])) }

/-- A server like the test server: the token endpoint hands out the token 12345, any other
path answers a request bearing that token with `testBody` and any other request with 401
and the invalid-token envelope. -/
def tokenServer : Env where
  urlParse := fun text => .ok { Text := text, RawQuery := "" }
  newRequestError := fun _ _ => none
  roundTrip := fun _ req =>
    if req.URL.Text = "https://ovc.test/api/oauth/token" then .ok tokenAnswer
    else if Header.Get req.Header "Authorization" = "Bearer 12345" then
      .ok { StatusCode := 200, Body := .ok testBody }
    else .ok { StatusCode := 401, Body := .ok invalidTokenBody }

/-- The server of the token-expiry test: the token endpoint works, any other path answers 401
with the invalid-token envelope whatever the token. -/
def expiredServer : Env where
  urlParse := fun text => .ok { Text := text, RawQuery := "" }
  newRequestError := fun _ _ => none
  roundTrip := fun _ req =>
    if req.URL.Text = "https://ovc.test/api/oauth/token" then .ok tokenAnswer
    else .ok { StatusCode := 401, Body := .ok invalidTokenBody }

/-- A server that answers every request with the given response. -/
def fixedServer (resp : Except GoError Response) : Env where
  urlParse := fun text => .ok { Text := text, RawQuery := "" }
  newRequestError := fun _ _ => none
  roundTrip := fun _ _ => resp

/-- The request `NewRequest` builds for a GET of `/test/path` on `ovc.test`. -/
def testRequest : Request :=
  { Method := "GET", URL := { Text := "https://ovc.test/api/test/path", RawQuery := "" } }

/-- The request `testRequest` with the bearer token `token`. -/
def bearing (token : String) : Request :=
  { testRequest with Header := [("Authorization", "Bearer " ++ token)] }

/-- The request `SetAccessToken` sends for the user of `staleClient`. -/
def tokenRequest : Request :=
  { Method := "POST", URL := { Text := "https://ovc.test/api/oauth/token", RawQuery := "" },
    Header := [("Content-Type", "application/x-www-form-urlencoded; param=value"),
      ("Authorization", "Basic c2ltcGxpdml0eTo=")],
    Body := some "grant_type=password&password=pass&username=user" }

/-! ## Query strings -/

/-- The function `strconv.Itoa`. -/
def Itoa (n : Int) : String :=
  if n < 0 then "-" ++ Nat.repr n.natAbs else Nat.repr n.toNat

/-- The function `strconv.FormatBool`. -/
def FormatBool (b : Bool) : String :=
  if b then "true" else "false"

/-- The bytes of a Go string: the UTF-8 encoding of its runes. -/
def utf8 (s : String) : List Nat :=
  s.toList.flatMap utf8Bytes

/-- Go's order on strings, byte by byte: whether `a` comes before `b` or equals it. -/
def bytesLE : List Nat → List Nat → Bool
  | [], _ => true
  | _ :: _, [] => false
  | a :: as, b :: bs => a < b || (a == b && bytesLE as bs)

/-- One step of sorting keys: `key` put in its place in a sorted list. -/
def insertKey (key : String) : List String → List String
  | [] => [key]
  | k :: ks => if bytesLE (utf8 key) (utf8 k) then key :: k :: ks else k :: insertKey key ks

/-- The function `sort.Strings`. -/
def sortStrings (keys : List String) : List String :=
  keys.foldr insertKey []

/-- The type `url.Values`, a `map[string][]string`: each key once, with its values. -/
abbrev Values := List (String × List String)

/-- The method `Values.Add`: the value is appended to the values of the key. -/
def Values.Add (v : Values) (key value : String) : Values :=
  if v.any (fun kv => kv.1 == key) then
    v.map (fun kv => if kv.1 == key then (kv.1, kv.2 ++ [value]) else kv)
  else v ++ [(key, [value])]

/-- The map index expression `v[key]`: no values for a key the map lacks. -/
def Values.values (v : Values) (key : String) : List String :=
  (v.lookup key).getD []

/-- The method `Values.Get`: the first value of the key, the empty string when there is
none. -/
def Values.Get (v : Values) (key : String) : String :=
  (v.values key).headD ""

/-- The pieces `key=value` that `Values.Encode` writes, keys sorted, both sides escaped. -/
def Values.pieces (v : Values) : List String :=
  (sortStrings (v.map (fun kv => kv.1))).flatMap
    (fun key => (v.values key).map (fun value => QueryEscape key ++ "=" ++ QueryEscape value))

/-- The pieces written one after the other with `&` between them. -/
def joinAmp : List String → String
  | [] => ""
  | [piece] => piece
  | piece :: rest => piece ++ "&" ++ joinAmp rest

/-- The method `Values.Encode`: the pieces joined by `&`. -/
def Values.Encode (v : Values) : String :=
  joinAmp v.pieces

/-- Query Parameters of the Get all endpoints. A nil map of filters is the empty list; the
field `Sort` of the source is `Sort_` here, `Sort` being a keyword. -/
structure GetAllParams where
  Limit : Int := 0
  Offset : Int := 0
  Sort_ : String := ""
  Order : String := ""
  Fields : String := ""
  Case : String := ""
  ShowOptionalFields : Bool := false
  Filters : StringMap := []
deriving DecidableEq, Repr

/-- The loop `for key, value := range p.Filters` with body `QueryStr.Add(key, value)`. -/
def addAll (q : Values) : StringMap → Values
  | [] => q
  | (key, value) :: rest => addAll (q.Add key value) rest

/-- The values `QueryString` collects before encoding them. -/
def GetAllParams.values (p : GetAllParams) : Values :=
  let limit := if p.Limit < 1 then 500 else p.Limit
  let q0 : Values := []
  let q1 := q0.Add "limit" (Itoa limit)
  let q2 := q1.Add "offset" (Itoa p.Offset)
  let q3 := q2.Add "sort" p.Sort_
  let q4 := q3.Add "order" p.Order
  let q5 := q4.Add "fields" p.Fields
  let q6 := q5.Add "case" p.Case
  let q7 := q6.Add "show_optional_fields" (FormatBool p.ShowOptionalFields)
  if p.Filters.length > 0 then addAll q7 p.Filters else q7

/-- QueryString creates query string from the GetAllParams parameters including filters. -/
def GetAllParams.QueryString (p : GetAllParams) : String :=
  p.values.Encode

/-! ### Decoding a query string (`url.ParseQuery`) -/

/-- The value of a hexadecimal digit. -/
def unhex (c : Char) : Option Nat :=
  if 48 ≤ c.toNat ∧ c.toNat ≤ 57 then some (c.toNat - 48)
  else if 97 ≤ c.toNat ∧ c.toNat ≤ 102 then some (c.toNat - 97 + 10)
  else if 65 ≤ c.toNat ∧ c.toNat ≤ 70 then some (c.toNat - 65 + 10)
  else none

/-- The function `url.QueryUnescape`, giving the bytes of the result: `%XY` is the byte with
that hexadecimal value, `+` is a space, anything else stands for itself; `none` is an
`EscapeError`. -/
def unescapeQuery : List Char → Option (List Nat)
  | [] => some []
  | c :: rest =>
    if c = '%' then
      match rest with
      | hi :: lo :: rest2 =>
        match unhex hi, unhex lo, unescapeQuery rest2 with
        | some h, some l, some bytes => some ((h * 16 + l) :: bytes)
        | _, _, _ => none
      | _ => none
    else if c = '+' then (unescapeQuery rest).map (fun bytes => 32 :: bytes)
    else (unescapeQuery rest).map (fun bytes => utf8Bytes c ++ bytes)

/-- The function `strings.Cut` on runes: what comes before the first `sep` and what comes
after it; without a `sep` everything comes before. -/
def cutAt (sep : Char) : List Char → List Char × List Char
  | [] => ([], [])
  | c :: rest =>
    if c = sep then ([], rest)
    else ((c :: (cutAt sep rest).1), (cutAt sep rest).2)

/-- The query cut at every `&`. -/
def splitAmp : List Char → List (List Char)
  | [] => [[]]
  | c :: rest =>
    if c = '&' then [] :: splitAmp rest
    else
      match splitAmp rest with
      | [] => [[c]]
      | piece :: pieces => (c :: piece) :: pieces

/-- One turn of the loop of `url.ParseQuery` (Go 1.17 and later) on the piece before the next
`&`: a piece with a semicolon sets the error, the empty piece is skipped, a bad escape sets
the error unless one is set, and otherwise the bytes of key and value are added. -/
def parsePiece (pairs : List (List Nat × List Nat)) (err : Option GoError) (piece : List Char) :
    List (List Nat × List Nat) × Option GoError :=
  if piece.contains ';' then (pairs, some (.errorf "invalid semicolon separator in query"))
  else if piece.isEmpty then (pairs, err)
  else
    match unescapeQuery (cutAt '=' piece).1, unescapeQuery (cutAt '=' piece).2 with
    | some key, some value => (pairs ++ [(key, value)], err)
    | _, _ => (pairs, if err.isNone then some (.errorf "invalid URL escape") else err)

/-- The loop of `url.ParseQuery` over the pieces. -/
def parsePieces (pairs : List (List Nat × List Nat)) (err : Option GoError) :
    List (List Char) → List (List Nat × List Nat) × Option GoError
  | [] => (pairs, err)
  | piece :: rest => parsePieces (parsePiece pairs err piece).1 (parsePiece pairs err piece).2 rest

/-- The function `url.ParseQuery`, before the pairs are gathered into a map: the pairs of key
and value in the order of the query, as bytes, and the error returned. -/
def ParseQuery (query : String) : List (List Nat × List Nat) × Option GoError :=
  parsePieces [] none (splitAmp query.toList)

/-! ## The resources -/

/-- Lower-case hexadecimal digit. -/
def lowerhex (n : Nat) : Char :=
  if n < 10 then Char.ofNat (48 + n) else Char.ofNat (87 + n)

/-- One rune of a string as the JSON encoder writes it, HTML escaping off. -/
def quoteRune (c : Char) : List Char :=
  if c.toNat = 34 then [Char.ofNat 92, Char.ofNat 34]
  else if c.toNat = 92 then [Char.ofNat 92, Char.ofNat 92]
  else if c.toNat = 8 then [Char.ofNat 92, 'b']
  else if c.toNat = 12 then [Char.ofNat 92, 'f']
  else if c.toNat = 10 then [Char.ofNat 92, 'n']
  else if c.toNat = 13 then [Char.ofNat 92, 'r']
  else if c.toNat = 9 then [Char.ofNat 92, 't']
  else if c.toNat < 32 then
    [Char.ofNat 92, 'u', '0', '0', lowerhex (c.toNat / 16), lowerhex (c.toNat % 16)]
  else if c.toNat = 0x2028 then [Char.ofNat 92, 'u', '2', '0', '2', '8']
  else if c.toNat = 0x2029 then [Char.ofNat 92, 'u', '2', '0', '2', '9']
  else [c]

/-- A Go string as the JSON encoder writes it. -/
def jsonQuote (s : String) : String :=
  String.mk (Char.ofNat 34 :: s.toList.flatMap quoteRune ++ [Char.ofNat 34])

/-- A JSON object written by the encoder from the members given, values already written. -/
def jsonObject (members : List (String × String)) : String :=
  "\x7b" ++ ",".intercalate (members.map (fun m => jsonQuote m.1 ++ ":" ++ m.2)) ++ "\x7d"

/-- A JSON array written by the encoder from the items given, already written. -/
def jsonArray (items : List String) : String :=
  "[" ++ ",".intercalate items ++ "]"

/-- The conversion `string(n)` of an integer: the UTF-8 text of the rune `n`, and of U+FFFD
when `n` is not a valid code point. -/
def runeString (n : Int) : String :=
  if 0 ≤ n ∧ n.toNat.isValidChar then String.singleton (Char.ofNat n.toNat)
  else String.singleton (Char.ofNat 0xFFFD)

/-- A `time.Time`, kept as the text it was decoded from. -/
structure Time where
  text : String := ""
deriving DecidableEq, Repr

/-- Element of the replica set of a VM. -/
structure ReplicaSetList where
  Role : String := ""
  Id : String := ""
deriving DecidableEq, Repr

/-- VirtualMachine represents a SimpliVity VM. -/
structure VirtualMachine where
  Name : String := ""
  Id : String := ""
  State : String := ""
  CreatedAt : String := ""
  DeletedAt : String := ""
  PolicyName : String := ""
  PolicyId : String := ""
  DatastoreName : String := ""
  DatastoreId : String := ""
  OmniStackClusterName : String := ""
  OmniStackClusterId : String := ""
  AppAwareVMStatus : String := ""
  HypervisorObjectId : String := ""
  HypervisorType : String := ""
  HypervisorManagementSystem : String := ""
  HypervisorManagementSystemName : String := ""
  HostId : String := ""
  ComputeClusterParentHypervisorObjectId : String := ""
  ComputeClusterName : String := ""
  ClusterGroupIds : List String := []
  ReplicaSet : List ReplicaSetList := []
deriving DecidableEq, Repr

/-- PersistentVolume represents a SimpliVity persistent volume. -/
structure PersistentVolume where
  Name : String := ""
  Id : String := ""
  State : String := ""
  CreatedAt : String := ""
  DeletedAt : String := ""
  PolicyName : String := ""
  PolicyId : String := ""
  DatastoreName : String := ""
  DatastoreId : String := ""
  OmniStackClusterName : String := ""
  OmniStackClusterId : String := ""
  AppAwareVMStatus : String := ""
  HypervisorObjectId : String := ""
  HypervisorType : String := ""
  HypervisorManagementSystem : String := ""
  HypervisorManagementSystemName : String := ""
  HostId : String := ""
  ComputeClusterParentHypervisorObjectId : String := ""
  ComputeClusterParentName : String := ""
  ClusterGroupIds : List String := []
  ReplicaSet : List ReplicaSetList := []
deriving DecidableEq, Repr

/-- Backup represents a backup of the VM resource in SimpliVity. The field `Type` of the source
is `Type_` here, `Type` being a keyword. -/
structure Backup where
  Name : String := ""
  Id : String := ""
  VirtualMachineName : String := ""
  CreatedAt : Time := {}
  ConsistencyType : String := ""
  Type_ : String := ""
  DatastoreName : String := ""
  VirtualMachineDeletionTime : Int := 0
  VirtualMachineID : String := ""
  ApplicationConsistent : Bool := false
  ComputeClusterParentHypervisorObjectID : String := ""
  State : String := ""
  OmnistackClusterID : String := ""
  VirtualMachineType : String := ""
  SentCompletionTime : String := ""
  UniqueSizeBytes : Int := 0
  ClusterGroupIds : List String := []
  UniqueSizeTimestamp : String := ""
  ExpirationTime : String := ""
  OmnistackClusterName : String := ""
  Sent : Int := 0
  Size : Int := 0
  VirtualMachineState : String := ""
  DatastoreID : String := ""
  ComputeClusterParentName : String := ""
  HypervisorType : String := ""
  SentDuration : Int := 0
deriving DecidableEq, Repr

/-- Share of a datastore. -/
structure Shares where
  Address : String := ""
  Host : String := ""
  Rw : Bool := false
deriving DecidableEq, Repr

/-- Datastore represents a SimpliVity datastore. -/
structure Datastore where
  Name : String := ""
  Id : String := ""
  ClusterGroupIds : List String := []
  PolicyID : String := ""
  MountDirectory : String := ""
  CreatedAt : Time := {}
  PolicyName : String := ""
  OmnistackClusterName : String := ""
  Deleted : Bool := false
  HypervisorObjectID : String := ""
  Size : Int := 0
  ComputeClusterParentHypervisorObjectID : String := ""
  ComputeClusterParentName : String := ""
  HypervisorType : String := ""
  OmnistackClusterID : String := ""
  HypervisorManagementSystem : String := ""
  HypervisorManagementSystemName : String := ""
  Shares : List Shares := []
deriving DecidableEq, Repr

/-- Host represents a SimpliVity host (`Type_` for the field `Type`). -/
structure Host where
  Name : String := ""
  Id : String := ""
  ClusterFeatureLevel : Int := 0
  PolicyEnabled : Bool := false
  ComputeClusterHypervisorObjectID : String := ""
  StorageMask : String := ""
  PotentialFeatureLevel : Int := 0
  Type_ : String := ""
  CurrentFeatureLevel : Int := 0
  HypervisorObjectID : String := ""
  ComputeClusterName : String := ""
  ManagementIP : String := ""
  FederationIP : String := ""
  VirtualControllerName : String := ""
  FederationMask : String := ""
  Model : String := ""
  ComputeClusterParentHypervisorObjectID : String := ""
  StorageMtu : String := ""
  OmnistackClusterID : String := ""
  State : String := ""
  UpgradeState : String := ""
  FederationMtu : String := ""
  CanRollback : Bool := false
  StorageIP : String := ""
  ClusterGroupIds : List String := []
  ManagementMtu : String := ""
  Version : String := ""
  ComputeClusterParentName : String := ""
  HypervisorManagementSystem : String := ""
  ManagementMask : String := ""
  HypervisorManagementSystemName : String := ""
deriving DecidableEq, Repr

/-- Infosight settings of a cluster. -/
structure InfosightConfiguration where
  InfosightRegistered : Bool := false
  InfosightEnabled : Bool := false
  InfosightProxyURL : String := ""
deriving DecidableEq, Repr

/-- OmniStackCluster represents a SimpliVity cluster (`Type_` for the field `Type`). -/
structure OmniStackCluster where
  Name : String := ""
  Id : String := ""
  HypervisorObjectParentName : String := ""
  ClusterFeatureLevel : Int := 0
  ClusterGroupIds : List String := []
  ArbiterConnected : Bool := false
  HypervisorObjectParentID : String := ""
  Type_ : String := ""
  Version : String := ""
  HypervisorObjectID : String := ""
  Members : List String := []
  ArbiterAddress : String := ""
  HypervisorType : String := ""
  HypervisorManagementSystem : String := ""
  HypervisorManagementSystemName : String := ""
  InfosightConfiguration : InfosightConfiguration := {}
  IwoEnabled : Bool := false
deriving DecidableEq, Repr

/-- Policy represents a SimpliVity backup policy; the untyped rules are kept as JSON. -/
structure Policy where
  Name : String := ""
  Id : String := ""
  ClusterGroupIds : List String := []
  Rules : List JSON := []

/-- What the seven resource accessors of the package differ in: the path of the collection,
the key of the members in its GetAll response, the headers sent with a GetAll, and the
decoding that `encoding/json` does of one member object into the entity struct (`zero` is the
struct's zero value). The decoding is left open: every function below is stated for any. -/
structure Kind (E : Type) where
  path : String
  membersKey : String
  header : Option StringMap
  zero : E
  decode : E → List (String × JSON) → Except GoError E

/-- The GetAll response of a resource (`VirtualMachineList`, `BackupList`, ...). `Members` is
the slice up to its length, `spare` what its backing array holds beyond. -/
structure ResourceList (E : Type) where
  Offset : Int := 0
  Count : Int := 0
  Limit : Int := 0
  Members : List (Option E) := []
  spare : List (Option E) := []

/-- Decoding a JSON value into a pointer to an entity holding `cur`. -/
def Kind.decodePtr {E : Type} (k : Kind E) (cur : Option E) : JSON → Except GoError (Option E)
  | .null => .ok none
  | .obj members =>
    match k.decode (cur.getD k.zero) members with
    | .ok e => .ok (some e)
    | .error err => .error err
  | _ => .error (.jsonType k.membersKey)

/-- The elements of a JSON array decoded in order into the slots of a backing array. -/
def Kind.decodeItems {E : Type} (k : Kind E) : List (Option E) → List JSON →
    Except GoError (List (Option E))
  | _, [] => .ok []
  | backing, item :: items =>
    match k.decodePtr backing.head?.join item with
    | .error e => .error e
    | .ok a =>
      match Kind.decodeItems k backing.tail items with
      | .error e => .error e
      | .ok rest => .ok (a :: rest)

/-- One member `key: v` of a JSON object decoded into a GetAll response. -/
def Kind.setField {E : Type} (k : Kind E) (l : ResourceList E) (key : String) (v : JSON) :
    Except GoError (ResourceList E) :=
  if equalFold key "offset" then
    match decodeInt "offset" l.Offset v with
    | .ok n => .ok { l with Offset := n }
    | .error e => .error e
  else if equalFold key "count" then
    match decodeInt "count" l.Count v with
    | .ok n => .ok { l with Count := n }
    | .error e => .error e
  else if equalFold key "limit" then
    match decodeInt "limit" l.Limit v with
    | .ok n => .ok { l with Limit := n }
    | .error e => .error e
  else if equalFold key k.membersKey then
    match v with
    | .null => .ok { l with Members := [], spare := [] }
    | .arr [] => .ok { l with Members := [], spare := [] }
    | .arr items =>
      match k.decodeItems (l.Members ++ l.spare) items with
      | .ok ms => .ok { l with Members := ms, spare := (l.Members ++ l.spare).drop items.length }
      | .error e => .error e
    | _ => .error (.jsonType k.membersKey)
  else .ok l

/-- The members of a JSON object decoded in order into a GetAll response. -/
def Kind.setFields {E : Type} (k : Kind E) (l : ResourceList E) :
    List (String × JSON) → Except GoError (ResourceList E)
  | [] => .ok l
  | (key, v) :: rest =>
    match k.setField l key v with
    | .ok l1 => Kind.setFields k l1 rest
    | .error e => .error e

/-- The call `json.Unmarshal(resp, &list)`, `list` holding `l`. -/
def Kind.Unmarshal {E : Type} (k : Kind E) (data : Bytes) (l : ResourceList E) :
    Except GoError (ResourceList E) :=
  match data with
  | .text s => .error (.jsonText s)
  | .json .null => .ok l
  | .json (.obj members) => k.setFields l members
  | .json _ => .error (.jsonType k.membersKey)

/-- The request `GetAll` sends. -/
def Kind.listRequest {E : Type} (k : Kind E) (params : GetAllParams) : Call :=
  { method := "GET", path := k.path, queryStr := params.QueryString, headers := k.header }

/-- GetAll returns all the resources of the kind filtered by the query parameters. On an error
the source also returns the list, which no caller in the package reads; it is left out. -/
def Kind.GetAll {E σ : Type} (k : Kind E) (client : Requester σ) (s : σ)
    (params : GetAllParams) : Run (Except GoError (ResourceList E) × σ) :=
  match client s (k.listRequest params) with
  | .fault msg => .fault msg
  | .outOfFuel => .outOfFuel
  | .ret ((_, some err), s1) => .ret (.error err, s1)
  | .ret ((resp, none), s1) => .ret (k.Unmarshal (resp.getD (.text "")) {}, s1)

/-- GetBy searches for resources of the kind with single filter. -/
def Kind.GetBy {E σ : Type} (k : Kind E) (client : Requester σ) (s : σ)
    (field value : String) : Run ((List (Option E) × Option GoError) × σ) :=
  match k.GetAll client s { Filters := StringMap.assign [] field value } with
  | .fault msg => .fault msg
  | .outOfFuel => .outOfFuel
  | .ret (.error err, s1) => .ret (([], some err), s1)
  | .ret (.ok list, s1) => .ret ((list.Members, none), s1)

/-- GetByName searches for a resource of the kind by its name. -/
def Kind.GetByName {E σ : Type} (k : Kind E) (client : Requester σ) (s : σ) (name : String) :
    Run ((Option E × Option GoError) × σ) :=
  match k.GetBy client s "name" name with
  | .fault msg => .fault msg
  | .outOfFuel => .outOfFuel
  | .ret ((_, some err), s1) => .ret ((none, some err), s1)
  | .ret ((first :: _, none), s1) => .ret ((first, none), s1)
  | .ret (([], none), s1) => .ret ((none, some (.errorf "Resource doesn't exist")), s1)

/-- GetById searches for a resource of the kind by its id. -/
def Kind.GetById {E σ : Type} (k : Kind E) (client : Requester σ) (s : σ) (id : String) :
    Run ((Option E × Option GoError) × σ) :=
  match k.GetBy client s "id" id with
  | .fault msg => .fault msg
  | .outOfFuel => .outOfFuel
  | .ret ((_, some err), s1) => .ret ((none, some err), s1)
  | .ret ((first :: _, none), s1) => .ret ((first, none), s1)
  | .ret (([], none), s1) => .ret ((none, some (.errorf "Resource doesn't exist")), s1)

/-- Support for persistent_volume is added in v1.16 in SimpliVity. -/
def header : StringMap :=
  [("Accept", "application/vnd.simplivity.v1.16+json"),
   ("Content-Type", "application/vnd.simplivity.v1.16+json")]

/-- The accessor `VirtualMachineResource`. -/
def VirtualMachineResource
    (decode : VirtualMachine → List (String × JSON) → Except GoError VirtualMachine) :
    Kind VirtualMachine :=
  { path := "/virtual_machines", membersKey := "virtual_machines", header := none, zero := {},
    decode := decode }

/-- The accessor `BackupResource`. -/
def BackupResource (decode : Backup → List (String × JSON) → Except GoError Backup) :
    Kind Backup :=
  { path := "/backups", membersKey := "backups", header := none, zero := {}, decode := decode }

/-- The accessor `DatastoreResource`. -/
def DatastoreResource (decode : Datastore → List (String × JSON) → Except GoError Datastore) :
    Kind Datastore :=
  { path := "/datastores", membersKey := "datastores", header := none, zero := {},
    decode := decode }

/-- The accessor `HostResource`. -/
def HostResource (decode : Host → List (String × JSON) → Except GoError Host) : Kind Host :=
  { path := "/hosts", membersKey := "hosts", header := none, zero := {}, decode := decode }

/-- The accessor `OmniStackClusterResource`. -/
def OmniStackClusterResource
    (decode : OmniStackCluster → List (String × JSON) → Except GoError OmniStackCluster) :
    Kind OmniStackCluster :=
  { path := "/omnistack_clusters", membersKey := "omnistack_clusters", header := none,
    zero := {}, decode := decode }

/-- The accessor `PolicyResource`. -/
def PolicyResource (decode : Policy → List (String × JSON) → Except GoError Policy) :
    Kind Policy :=
  { path := "/policies", membersKey := "policies", header := none, zero := {},
    decode := decode }

/-- The accessor `PersistentVolumeResource`. -/
def PersistentVolumeResource
    (decode : PersistentVolume → List (String × JSON) → Except GoError PersistentVolume) :
    Kind PersistentVolume :=
  { path := "/persistent_volumes", membersKey := "persistent_volumes", header := some header,
    zero := {}, decode := decode }

/-! ## The operations -/

/-- The message of the panic on a nil pointer. -/
def nilDereference : String := "invalid memory address or nil pointer dereference"

/-- The first two steps of an operation: the request goes out with `DoRequest` and its
response to `WaitForTask`; the error of either step is returned as it is, with a nil Task. -/
def submitAndWait {σ : Type} (client : Requester σ) (fuel : Nat) (s : σ) (call : Call) :
    Run ((Option Task × Option GoError) × σ) :=
  match client s call with
  | .fault msg => .fault msg
  | .outOfFuel => .outOfFuel
  | .ret ((_, some err), s1) => .ret ((none, some err), s1)
  | .ret ((resp, none), s1) => TaskResource.WaitForTask client fuel s1 (resp.getD (.text ""))

/-- The ids of the entities of a list, in order; `none` when an element is nil, where
`vm.Id` panics. -/
def idsOf {E : Type} (id : E → String) : List (Option E) → Option (List String)
  | [] => some []
  | none :: _ => none
  | some e :: rest =>
    match idsOf id rest with
    | some ids => some (id e :: ids)
    | none => none

/-- The request `SetPolicyForMultipleVMs` submits. -/
def VirtualMachineResource.setPolicyRequest (policy : Policy) (vm_ids : List String) : Call :=
  { method := "POST", path := "/virtual_machines/set_policy",
    body := some (.encodes (jsonObject [("policy_id", jsonQuote policy.Id),
      ("virtual_machine_id", jsonArray (vm_ids.map jsonQuote))])) }

/-- SetPolicyForMultipleVMs sets a policy for list of VM resources. -/
def VirtualMachineResource.SetPolicyForMultipleVMs {σ : Type} (client : Requester σ)
    (fuel : Nat) (s : σ) (policy : Option Policy) (vms : List (Option VirtualMachine)) :
    Run (Option GoError × σ) :=
  if vms.length < 1 then .ret (some (.errorf "Pass a list of VM resoures"), s)
  else
    match idsOf VirtualMachine.Id vms, policy with
    | none, _ => .fault nilDereference
    | some _, none => .fault nilDereference
    | some vm_ids, some policy =>
      match submitAndWait client fuel s
          (VirtualMachineResource.setPolicyRequest policy vm_ids) with
      | .fault msg => .fault msg
      | .outOfFuel => .outOfFuel
      | .ret ((_, some err), s1) => .ret (some err, s1)
      | .ret ((_, none), s1) => .ret (none, s1)

/-- The request `SetPolicyForMultiplePVs` submits. -/
def PersistentVolumeResource.setPolicyRequest (policy : Policy) (pv_ids : List String) : Call :=
  { method := "POST", path := "/persistent_volumes/set_policy",
    body := some (.encodes (jsonObject [("persistent_volume_id",
      jsonArray (pv_ids.map jsonQuote)), ("policy_id", jsonQuote policy.Id)])),
    headers := some header }

/-- SetPolicyForMultiplePVs sets a policy for list of PV resources. -/
def PersistentVolumeResource.SetPolicyForMultiplePVs {σ : Type} (client : Requester σ)
    (fuel : Nat) (s : σ) (policy : Option Policy) (pvs : List (Option PersistentVolume)) :
    Run (Option GoError × σ) :=
  if pvs.length < 1 then .ret (some (.errorf "Pass a list of PV resoures"), s)
  else
    match idsOf PersistentVolume.Id pvs, policy with
    | none, _ => .fault nilDereference
    | some _, none => .fault nilDereference
    | some pv_ids, some policy =>
      match submitAndWait client fuel s
          (PersistentVolumeResource.setPolicyRequest policy pv_ids) with
      | .fault msg => .fault msg
      | .outOfFuel => .outOfFuel
      | .ret ((_, some err), s1) => .ret (some err, s1)
      | .ret ((_, none), s1) => .ret (none, s1)

/-- The request `SetPolicy` submits. -/
def VirtualMachine.setPolicyRequest (v : VirtualMachine) (policy : Policy) : Call :=
  { method := "POST", path := "/virtual_machines/" ++ v.Id ++ "/set_policy",
    body := some (.encodes (jsonObject [("policy_id", jsonQuote policy.Id)])) }

/-- SetPolicy sets policy for single VM resource. -/
def VirtualMachine.SetPolicy {σ : Type} (client : Requester σ) (fuel : Nat) (s : σ)
    (v : VirtualMachine) (policy : Option Policy) : Run (Option GoError × σ) :=
  match policy with
  | none => .fault nilDereference
  | some policy =>
    match submitAndWait client fuel s (v.setPolicyRequest policy) with
    | .fault msg => .fault msg
    | .outOfFuel => .outOfFuel
    | .ret ((_, some err), s1) => .ret (some err, s1)
    | .ret ((none, none), _) => .fault nilDereference
    | .ret ((some task, none), s1) =>
      if task.AffectedResources.length < 1 then
        .ret (some (.errorf ("Set policy was not successful. Error code:" ++
          runeString task.ErrorCode)), s1)
      else .ret (none, s1)

/-- The request `Clone` submits. -/
def VirtualMachine.cloneRequest (v : VirtualMachine) (new_vm_name : String)
    (app_consistent : Bool) : Call :=
  { method := "POST", path := "/virtual_machines/" ++ v.Id ++ "/clone",
    body := some (.encodes (jsonObject [("app_consistent", FormatBool app_consistent),
      ("virtual_machine_name", jsonQuote new_vm_name)])) }

/-- Clone creates a clone of the VM. The error of the final `GetById` is assigned and not
looked at. -/
def VirtualMachine.Clone {σ : Type} (client : Requester σ) (vms : Kind VirtualMachine)
    (fuel : Nat) (s : σ) (v : VirtualMachine) (new_vm_name : String) (app_consistent : Bool) :
    Run ((Option VirtualMachine × Option GoError) × σ) :=
  match submitAndWait client fuel s (v.cloneRequest new_vm_name app_consistent) with
  | .fault msg => .fault msg
  | .outOfFuel => .outOfFuel
  | .ret ((_, some err), s1) => .ret ((none, some err), s1)
  | .ret ((none, none), _) => .fault nilDereference
  | .ret ((some task, none), s1) =>
    match task.AffectedResources with
    | [] => .ret ((none, some (.errorf ("Clone was not successful. Error code:" ++
        runeString task.ErrorCode))), s1)
    | none :: _ => .fault nilDereference
    | some resource :: _ =>
      match vms.GetById client s1 resource.ObjectId with
      | .fault msg => .fault msg
      | .outOfFuel => .outOfFuel
      | .ret ((clonedVM, _), s2) => .ret ((clonedVM, none), s2)

/-- The request `Move` submits. -/
def VirtualMachine.moveRequest (v : VirtualMachine) (vm_name : String) (datastore : Datastore) :
    Call :=
  { method := "POST", path := "/virtual_machines/" ++ v.Id ++ "/move",
    body := some (.encodes (jsonObject [("destination_datastore_id", jsonQuote datastore.Id),
      ("virtual_machine_name", jsonQuote vm_name)])) }

/-- Move moves a VM from one datastore to another. -/
def VirtualMachine.Move {σ : Type} (client : Requester σ) (vms : Kind VirtualMachine)
    (fuel : Nat) (s : σ) (v : VirtualMachine) (vm_name : String) (datastore : Option Datastore) :
    Run ((Option VirtualMachine × Option GoError) × σ) :=
  match datastore with
  | none => .fault nilDereference
  | some datastore =>
    match submitAndWait client fuel s (v.moveRequest vm_name datastore) with
    | .fault msg => .fault msg
    | .outOfFuel => .outOfFuel
    | .ret ((_, some err), s1) => .ret ((none, some err), s1)
    | .ret ((none, none), _) => .fault nilDereference
    | .ret ((some task, none), s1) =>
      match task.AffectedResources with
      | [] => .ret ((none, some (.errorf ("Move was not successful. Error code:" ++
          runeString task.ErrorCode))), s1)
      | none :: _ => .fault nilDereference
      | some resource :: _ =>
        match vms.GetById client s1 resource.ObjectId with
        | .fault msg => .fault msg
        | .outOfFuel => .outOfFuel
        | .ret ((clonedVM, _), s2) => .ret ((clonedVM, none), s2)

/-- CreateBackup request body. -/
structure CreateBackupRequest where
  Name : String := ""
  ConsistencyType : String := ""
  AppConsistent : Bool := false
  Retention : Int := 0
  Destination : String := ""
deriving DecidableEq, Repr

/-- The JSON the encoder writes for a `*CreateBackupRequest`: `null` for nil, else the
members that are not empty. -/
def CreateBackupRequest.encode : Option CreateBackupRequest → String
  | none => "null"
  | some req =>
    jsonObject
      ((if req.Name = "" then [] else [("backup_name", jsonQuote req.Name)]) ++
       (if req.ConsistencyType = "" then []
        else [("consistency_type", jsonQuote req.ConsistencyType)]) ++
       (if req.AppConsistent then [("app_consistent", "true")] else []) ++
       (if req.Retention = 0 then [] else [("retention", Itoa req.Retention)]) ++
       (if req.Destination = "" then [] else [("destination_id", jsonQuote req.Destination)]))

/-- The statement `if dest != nil { req.Destination = dest.Id }`: the request afterwards, or
`none` when `req` is nil and the assignment panics. -/
def withDestination (req : Option CreateBackupRequest) (dest : Option OmniStackCluster) :
    Option (Option CreateBackupRequest) :=
  match dest, req with
  | none, req => some req
  | some _, none => none
  | some dest, some req => some (some { req with Destination := dest.Id })

/-- The request `CreateBackup` of a VM submits. -/
def VirtualMachine.backupRequest (v : VirtualMachine) (req : Option CreateBackupRequest) : Call :=
  { method := "POST", path := "/virtual_machines/" ++ v.Id ++ "/backup",
    body := some (.encodes (CreateBackupRequest.encode req)) }

/-- CreateBackup creates a back of the VM. -/
def VirtualMachine.CreateBackup {σ : Type} (client : Requester σ) (backups : Kind Backup)
    (fuel : Nat) (s : σ) (v : VirtualMachine) (req : Option CreateBackupRequest)
    (dest : Option OmniStackCluster) : Run ((Option Backup × Option GoError) × σ) :=
  match withDestination req dest with
  | none => .fault nilDereference
  | some req1 =>
    match submitAndWait client fuel s (v.backupRequest req1) with
    | .fault msg => .fault msg
    | .outOfFuel => .outOfFuel
    | .ret ((_, some err), s1) => .ret ((none, some err), s1)
    | .ret ((none, none), _) => .fault nilDereference
    | .ret ((some task, none), s1) =>
      match task.AffectedResources with
      | [] => .ret ((none, some (.errorf ("Backup was not successful. Error code:" ++
          runeString task.ErrorCode))), s1)
      | none :: _ => .fault nilDereference
      | some resource :: _ =>
        match backups.GetById client s1 resource.ObjectId with
        | .fault msg => .fault msg
        | .outOfFuel => .outOfFuel
        | .ret ((backup, _), s2) => .ret ((backup, none), s2)

/-- The request `CreateBackup` of a PV submits. -/
def PersistentVolume.backupRequest (p : PersistentVolume) (req : Option CreateBackupRequest) :
    Call :=
  { method := "POST", path := "/persistent_volumes/" ++ p.Id ++ "/backup",
    body := some (.encodes (CreateBackupRequest.encode req)), headers := some header }

/-- CreateBackup creates a backup of the PV. -/
def PersistentVolume.CreateBackup {σ : Type} (client : Requester σ) (backups : Kind Backup)
    (fuel : Nat) (s : σ) (p : PersistentVolume) (req : Option CreateBackupRequest)
    (dest : Option OmniStackCluster) : Run ((Option Backup × Option GoError) × σ) :=
  match withDestination req dest with
  | none => .fault nilDereference
  | some req1 =>
    match submitAndWait client fuel s (p.backupRequest req1) with
    | .fault msg => .fault msg
    | .outOfFuel => .outOfFuel
    | .ret ((_, some err), s1) => .ret ((none, some err), s1)
    | .ret ((none, none), _) => .fault nilDereference
    | .ret ((some task, none), s1) =>
      match task.AffectedResources with
      | [] => .ret ((none, some (.errorf ("Backup was not successful. Error code:" ++
          runeString task.ErrorCode))), s1)
      | none :: _ => .fault nilDereference
      | some resource :: _ =>
        match backups.GetById client s1 resource.ObjectId with
        | .fault msg => .fault msg
        | .outOfFuel => .outOfFuel
        | .ret ((backup, _), s2) => .ret ((backup, none), s2)

/-- SetBackupParameters request body. -/
structure SetBackupParametersRequest where
  Username : String := ""
  Password : String := ""
  OverrideValidation : Bool := false
  AppAwareType : String := ""
deriving DecidableEq, Repr

/-- The JSON the encoder writes for a `*SetBackupParametersRequest`. -/
def SetBackupParametersRequest.encode : Option SetBackupParametersRequest → String
  | none => "null"
  | some req =>
    jsonObject
      ((if req.Username = "" then [] else [("guest_username", jsonQuote req.Username)]) ++
       (if req.Password = "" then [] else [("guest_password", jsonQuote req.Password)]) ++
       (if req.OverrideValidation then [("override_validation", "true")] else []) ++
       (if req.AppAwareType = "" then [] else [("app_aware_type", jsonQuote req.AppAwareType)]))

/-- The request `SetBackupParameters` submits. -/
def VirtualMachine.backupParametersRequest (v : VirtualMachine)
    (req : Option SetBackupParametersRequest) : Call :=
  { method := "POST", path := "/virtual_machines/" ++ v.Id ++ "/backup_parameters",
    body := some (.encodes (SetBackupParametersRequest.encode req)),
    headers := some [("Content-Type", "application/vnd.simplivity.v1.11+json")] }

/-- SetBackupParameters sets the virtual machine backup parameters used for application
consistent backups. -/
def VirtualMachine.SetBackupParameters {σ : Type} (client : Requester σ) (fuel : Nat) (s : σ)
    (v : VirtualMachine) (req : Option SetBackupParametersRequest) : Run (Option GoError × σ) :=
  match submitAndWait client fuel s (v.backupParametersRequest req) with
  | .fault msg => .fault msg
  | .outOfFuel => .outOfFuel
  | .ret ((_, some err), s1) => .ret (some err, s1)
  | .ret ((none, none), _) => .fault nilDereference
  | .ret ((some task, none), s1) =>
    if task.AffectedResources.length < 1 then
      .ret (some (.errorf ("Set backup parameters operation was not successful. Error code:" ++
        runeString task.ErrorCode)), s1)
    else .ret (none, s1)

/-- The path `UpdatePowerState` posts to, for the two states it accepts. -/
def powerPath (v : VirtualMachine) (state : String) : Option String :=
  if state = "off" then some ("/virtual_machines/" ++ v.Id ++ "/power_off")
  else if state = "on" then some ("/virtual_machines/" ++ v.Id ++ "/power_on")
  else none

/-- The request `UpdatePowerState` submits to `path`. -/
def powerRequest (path : String) : Call :=
  { method := "POST", path := path, body := some (.encodes (jsonQuote "")),
    headers := some [("Content-Type", "application/vnd.simplivity.v1.11+json")] }

/-- UpdatePowerState sets power state of the VM. -/
def VirtualMachine.UpdatePowerState {σ : Type} (client : Requester σ) (fuel : Nat) (s : σ)
    (v : VirtualMachine) (state : String) : Run (Option GoError × σ) :=
  match powerPath v state with
  | none => .ret (some (.errorf "Pass a valid power state"), s)
  | some path =>
    match submitAndWait client fuel s (powerRequest path) with
    | .fault msg => .fault msg
    | .outOfFuel => .outOfFuel
    | .ret ((_, some err), s1) => .ret (some err, s1)
    | .ret ((none, none), _) => .fault nilDereference
    | .ret ((some task, none), s1) =>
      if task.AffectedResources.length < 1 then
        .ret (some (.errorf ("Setting power state operation was not successful. Error code:" ++
          runeString task.ErrorCode)), s1)
      else .ret (none, s1)

/-- The request `call` is submitted and its task polled with success: `DoRequest` returns a
response and no error, and `WaitForTask` on that response returns the Task `task` and no error,
the client being in state `s2` afterwards. -/
def Submitted {σ : Type} (client : Requester σ) (fuel : Nat) (s : σ) (call : Call) (task : Task)
    (s2 : σ) : Prop :=
  ∃ (resp : Option Bytes) (s1 : σ), client s call = .ret ((resp, none), s1) ∧
    TaskResource.WaitForTask client fuel s1 (resp.getD (.text "")) = .ret ((some task, none), s2)

/-! ## Sample resources, after the test suite -/

/-- The request `SetAccessToken` sends to `endpoint` for the user of `c`. -/
def Client.tokenRequest (c : Client) (endpoint : URL) : Request :=
  { Method := "POST", URL := endpoint,
    Header := [("Content-Type", "application/x-www-form-urlencoded; param=value"),
      ("Authorization", "Basic c2ltcGxpdml0eTo=")],
    Body := some ("grant_type=password&password=" ++ QueryEscape c.Password ++
      "&username=" ++ QueryEscape c.Username) }

/-- Decoding of the members `name` and `id` of a virtual machine; other members are passed
over. -/
def VirtualMachine.decodeNameId (v : VirtualMachine) :
    List (String × JSON) → Except GoError VirtualMachine
  | [] => .ok v
  | (key, j) :: rest =>
    if equalFold key "name" then
      match decodeString "name" v.Name j with
      | .ok s => VirtualMachine.decodeNameId { v with Name := s } rest
      | .error e => .error e
    else if equalFold key "id" then
      match decodeString "id" v.Id j with
      | .ok s => VirtualMachine.decodeNameId { v with Id := s } rest
      | .error e => .error e
    else VirtualMachine.decodeNameId v rest

/-- Decoding of the members `name` and `id` of a backup; other members are passed over. -/
def Backup.decodeNameId (b : Backup) : List (String × JSON) → Except GoError Backup
  | [] => .ok b
  | (key, j) :: rest =>
    if equalFold key "name" then
      match decodeString "name" b.Name j with
      | .ok s => Backup.decodeNameId { b with Name := s } rest
      | .error e => .error e
    else if equalFold key "id" then
      match decodeString "id" b.Id j with
      | .ok s => Backup.decodeNameId { b with Id := s } rest
      | .error e => .error e
    else Backup.decodeNameId b rest

/-- The VM accessor of the samples. -/
def sampleVMs : Kind VirtualMachine := VirtualMachineResource VirtualMachine.decodeNameId

/-- The backup accessor of the samples. -/
def sampleBackups : Kind Backup := BackupResource Backup.decodeNameId

/-- The list response of the VM mock of the test suite. -/
def vmListBody : Bytes :=
  .json (.obj [("offset", .int 1), ("limit", .int 500), ("count", .int 1),
    ("virtual_machines", .arr [.obj [("name", .str "testvm"), ("id", .str "1")]])])

/-- A list response without members. -/
def emptyListBody : Bytes :=
  .json (.obj [("offset", .int 0), ("limit", .int 500), ("count", .int 0),
    ("virtual_machines", .arr [])])

/-- The list response of the backup mock of the test suite. -/
def backupListBody : Bytes :=
  .json (.obj [("offset", .int 1), ("limit", .int 500), ("count", .int 1),
    ("backups", .arr [.obj [("name", .str "backup_name"), ("id", .str "1")]])])

/-- The VM the tests work on. -/
def testVM : VirtualMachine := { Name := "testvm", Id := "1" }

/-- The policy the tests set. -/
def testPolicy : Policy := { Id := "1" }

/-- A terminal task-status response with no affected object and error code 17. -/
def failedEmptyBody : Bytes :=
  .json (.obj [("task", .obj [("state", .str "FAILED"), ("id", .str "1"),
    ("affected_objects", .arr []), ("error_code", .int 17)])])

/-- The Task decoded from `failedEmptyBody`. -/
def failedTask : Task := { State := "FAILED", Id := "1", ErrorCode := 17 }

/-- The Task decoded from `completeBody`. -/
def completeTask : Task :=
  { State := "COMPLETE", Id := "1", Progress := 1,
    AffectedResources := [some { ObjectType := "", ObjectId := "1" }] }

/-- The pairs of key and value of `v` in the order `Values.Encode` writes them: keys sorted,
the values of a key in the order they were added. -/
def Values.flat (v : Values) : List (String × String) :=
  (sortStrings (v.map (fun kv => kv.1))).flatMap
    (fun key => (v.values key).map (fun value => (key, value)))

/-- The parameters `QueryString` sets before the filters, with their values. -/
def GetAllParams.standard (p : GetAllParams) : List (String × String) :=
  [("limit", Itoa (if p.Limit < 1 then 500 else p.Limit)), ("offset", Itoa p.Offset),
   ("sort", p.Sort_), ("order", p.Order), ("fields", p.Fields), ("case", p.Case),
   ("show_optional_fields", FormatBool p.ShowOptionalFields)]

/-- The names of the seven standard parameters. -/
def standardNames : List String :=
  ["limit", "offset", "sort", "order", "fields", "case", "show_optional_fields"]

/-- Key and value as the bytes of their text. -/
def bytesOf (kv : String × String) : List Nat × List Nat :=
  (utf8 kv.1, utf8 kv.2)

/-- The first value of `key` among pairs of key and value, as `Values.Get` reads a decoded
query; `none` when the key is not there. -/
def firstOf {α β : Type} [DecidableEq α] (key : α) : List (α × β) → Option β
  | [] => none
  | kv :: rest => if kv.1 = key then some kv.2 else firstOf key rest

/-- The parameters of the test `TestVMGetAllWithFilter`: a single filter on the name. -/
def nameFilter : GetAllParams :=
  { Filters := [("name", "testname")] }

/-! ## Requests sent by DoRequest -/

/-- The order in which `env` lets `range` visit a map is an order of the entries of that map,
whatever was sent before. -/
def Env.Ranges (env : Env) : Prop :=
  ∀ (history : List Request) (m : StringMap), (env.rangeOrder history m).Perm m

/-- The client `c` after its `http.Client` has sent `req`. -/
def Client.sent (c : Client) (req : Request) : Client :=
  { c with client := c.client ++ [req] }

/-- The client `c` after it has sent `req` and then called `SetAccessToken`. -/
def Client.refreshed (env : Env) (c : Client) (req : Request) : Client :=
  ((c.sent req).SetAccessToken env).2

/-- What a call of `DoRequest` that took the client from `c` to `c2` has sent, as the log of
`c2` shows it: nothing; or one request `first`; or `first`, then what `SetAccessToken` sent,
then `second`. Every such request, together with the client as it was when `SetHeaders`
prepared the request, has the property `P`. -/
def SentWith (env : Env) (c c2 : Client) (P : Client → Request → Prop) : Prop :=
  c2 = c ∨
  (∃ first, c2 = c.sent first ∧ P c first) ∨
  (∃ first second, c2 = (c.refreshed env first).sent second ∧
    P c first ∧ P (c.refreshed env first) second)

/-- The content type a request is to carry: the one of the caller's headers when they have
one, else the default of the API when there is a body, else none. -/
def expectedContentType (body : Option Payload) (headers : Option StringMap) : Option String :=
  match (headers.getD []).lookup "Content-Type" with
  | some value => some value
  | none => if body.isSome then some "application/vnd.simplivity.v1+json" else none

/-- The loop of `getScheme` of `net/url` over the bytes of a text: a scheme is a letter, then
letters, digits, `+`, `-` and `.`, up to a colon; `seen` is what was read so far. -/
def schemeLoop (first : Bool) (seen : List Char) : List Char → String
  | [] => ""
  | c :: rest =>
    if c.isAlpha then schemeLoop false (seen ++ [c]) rest
    else if c.isDigit || c = '+' || c = '-' || c = '.' then
      if first then "" else schemeLoop false (seen ++ [c]) rest
    else if c = ':' then (if first then "" else String.mk seen)
    else ""

/-- The scheme `url.Parse` finds at the start of a text, the empty text when it has none. -/
def getScheme (rawURL : String) : String :=
  schemeLoop true [] rawURL.toList

/-- A client for the host `host`. -/
def clientFor (host : String) : Client :=
  { OVCIP := host, Username := "user", Password := "pass", AccessToken := "12345" }

/-- A server like `fixedServer` whose runtime visits every map in the reverse of the order of
insertion. -/
def reversingServer (resp : Except GoError Response) : Env where
  urlParse := fun text => .ok { Text := text, RawQuery := "" }
  newRequestError := fun _ _ => none
  roundTrip := fun _ _ => resp
  rangeOrder := fun _ m => m.reverse

/-- A server whose token endpoint cannot be reached: the first request to any other path is
answered with 401 and the invalid-token envelope, every later one with `testBody`. -/
def tokenlessServer : Env where
  urlParse := fun text => .ok { Text := text, RawQuery := "" }
  newRequestError := fun _ _ => none
  roundTrip := fun history req =>
    if req.URL.Text = "https://ovc.test/api/oauth/token" then
      .error (.transport "connection refused")
    else if history.isEmpty then .ok { StatusCode := 401, Body := .ok invalidTokenBody }
    else .ok { StatusCode := 200, Body := .ok testBody }

/-- A server whose `url.Parse` rejects a text with a space in it, as it does for a space in
the host name. -/
def strictServer : Env where
  urlParse := fun text =>
    if text.toList.contains ' ' then .error (.urlParse "invalid character \" \" in host name")
    else .ok { Text := text, RawQuery := "" }
  newRequestError := fun _ _ => none
  roundTrip := fun _ _ => .ok { StatusCode := 200, Body := .ok testBody }

/-- A server whose `url.Parse` keeps what follows the first question mark as the raw query. -/
def splittingServer : Env where
  urlParse := fun text => .ok { Text := text, RawQuery := String.mk (cutAt '?' text.toList).2 }
  newRequestError := fun _ _ => none
  roundTrip := fun _ _ => .ok { StatusCode := 200, Body := .ok testBody }

/-- A response whose task is null. -/
def nullTaskBody : Bytes :=
  .json (.obj [("task", .null)])

/-- A failed task that names an object: state, id, error code and the object. -/
def failedNamingBody : Bytes :=
  .json (.obj [("task", .obj [("state", .str "FAILED"), ("id", .str "1"),
    ("percent_complete", .int 40), ("error_code", .int 17),
    ("affected_objects", .arr [.obj [("object_type", .str ""), ("object_id", .str "1")]])])])

/-- The Task of `failedNamingBody`. -/
def failedNamingTask : Task :=
  { State := "FAILED", Id := "1", Progress := 40, ErrorCode := 17,
    AffectedResources := [some { ObjectType := "", ObjectId := "1" }] }

/-- Go's order on strings, as a relation on keys: `a` comes before `b` or equals it. -/
def keyLE (a b : String) : Prop :=
  bytesLE (utf8 a) (utf8 b) = true

/-- The parameters of `nameFilter` with a second filter, the two in either order. -/
def twoFilters (swapped : Bool) : GetAllParams :=
  { Limit := 20, Sort_ := "name",
    Filters := if swapped then [("state", "ALIVE"), ("name", "testname")]
               else [("name", "testname"), ("state", "ALIVE")] }

/-! ## Lists -/

theorem eq_nil_or_snoc {α : Type} (l : List α) :
    l = [] ∨ ∃ (mid : List α) (last : α), l = mid ++ [last] := by
  rcases List.eq_nil_or_concat l with h | ⟨mid, last, h⟩
  · exact Or.inl h
  · exact Or.inr ⟨mid, last, by simpa [List.concat_eq_append] using h⟩

theorem dropLast_cons_concat {α : Type} (a : α) (l : List α) (b : α) :
    (a :: (l ++ [b])).dropLast = a :: l := by
  rw [← List.cons_append, List.dropLast_concat]

theorem getLast_cons_concat {α : Type} (a : α) (l : List α) (b : α)
    (h : a :: (l ++ [b]) ≠ []) : (a :: (l ++ [b])).getLast h = b := by
  simp

theorem take_cons_concat {α : Type} (a : α) (l : List α) (b : α) (k : Nat)
    (hk : k < l.length + 1) :
    (a :: (l ++ [b])).take (k + 1) = (a :: l).take (k + 1) := by
  rw [← List.cons_append]
  exact List.take_append_of_le_length (by simp only [List.length_cons]; omega)

/-! ## The poll loop of WaitForTask -/

theorem waitLoop_terminal {σ : Type} (client : Requester σ) (fuel : Nat) (s : σ)
    (r r1 : TaskResp) (resp : Bytes) (t : Task)
    (hdec : TaskResp.Unmarshal resp r = .ok r1) (ht : r1.Task = some t)
    (hstate : t.State ≠ "IN_PROGRESS") :
    TaskResource.waitLoop client (fuel + 1) s r resp = .ret ((some t, none), s) := by
  simp [TaskResource.waitLoop, hdec, ht, hstate]

theorem waitLoop_decode_error {σ : Type} (client : Requester σ) (fuel : Nat) (s : σ)
    (r : TaskResp) (resp : Bytes) (err : GoError)
    (hdec : TaskResp.Unmarshal resp r = .error err) :
    TaskResource.waitLoop client (fuel + 1) s r resp = .ret ((none, some err), s) := by
  simp [TaskResource.waitLoop, hdec]

theorem waitLoop_fetch {σ : Type} (client : Requester σ) (fuel : Nat) (s s1 : σ)
    (r r1 : TaskResp) (resp : Bytes) (t : Task) (data : Option Bytes)
    (hdec : TaskResp.Unmarshal resp r = .ok r1) (ht : r1.Task = some t)
    (hstate : t.State = "IN_PROGRESS")
    (hfetch : client s (statusFetch t.Id) = .ret ((data, none), s1)) :
    TaskResource.waitLoop client (fuel + 1) s r resp =
      TaskResource.waitLoop client fuel s1 r1 (data.getD (.text "")) := by
  simp [TaskResource.waitLoop, hdec, ht, hstate, TaskResource.CheckProgress]
  rw [statusFetch] at hfetch
  rw [hfetch]

theorem waitLoop_fetch_error {σ : Type} (client : Requester σ) (fuel : Nat) (s s1 : σ)
    (r r1 : TaskResp) (resp : Bytes) (t : Task) (data : Option Bytes) (err : GoError)
    (hdec : TaskResp.Unmarshal resp r = .ok r1) (ht : r1.Task = some t)
    (hstate : t.State = "IN_PROGRESS")
    (hfetch : client s (statusFetch t.Id) = .ret ((data, some err), s1)) :
    TaskResource.waitLoop client (fuel + 1) s r resp = .ret ((none, some err), s1) := by
  simp [TaskResource.waitLoop, hdec, ht, hstate, TaskResource.CheckProgress]
  rw [statusFetch] at hfetch
  rw [hfetch]

theorem Scripted.DoRequest_cons (reply : Reply) (rest : List Reply) (calls : List Call)
    (call : Call) :
    Scripted.DoRequest { pending := reply :: rest, calls := calls } call =
      .ret (reply, { pending := rest, calls := calls ++ [call] }) := rfl

theorem heldId_cons (r r1 : TaskResp) (resp : Bytes) (rest : List Bytes)
    (hdec : TaskResp.Unmarshal resp r = .ok r1) :
    heldId r (resp :: rest) = heldId r1 rest := by
  simp [heldId, decodeInTurn, hdec]

theorem heldId_single (r r1 : TaskResp) (resp : Bytes) (t : Task)
    (hdec : TaskResp.Unmarshal resp r = .ok r1) (ht : r1.Task = some t) :
    heldId r [resp] = t.Id := by
  simp [heldId, decodeInTurn, hdec, ht]

/-- The run of the loop over in-progress responses, up to the response `last` that ends it:
after one fetch per in-progress response the loop is at `last`, nothing of what follows in the
script has been asked for. -/
theorem waitLoop_in_progress (fetched : List Bytes) :
    ∀ (initial last : Bytes) (more : List Reply) (r : TaskResp) (calls0 : List Call) (fuel : Nat),
      (∀ resp ∈ initial :: fetched, HasState resp "IN_PROGRESS") →
      ∃ (r1 : TaskResp) (calls : List Call),
        decodeInTurn r (initial :: fetched) = .ok r1 ∧
        calls.length = fetched.length + 1 ∧
        (∀ k, k < fetched.length + 1 →
          calls.get? k = some (statusFetch (heldId r ((initial :: fetched).take (k + 1))))) ∧
        TaskResource.waitLoop Scripted.DoRequest (fuel + (fetched.length + 1))
            { pending := fetched.map replyOf ++ replyOf last :: more, calls := calls0 } r initial =
          TaskResource.waitLoop Scripted.DoRequest fuel
            { pending := more, calls := calls0 ++ calls } r1 last := by
  induction fetched with
  | nil =>
    intro initial last more r calls0 fuel hprog
    obtain ⟨r1, t, hdec, ht, hstate⟩ := hprog initial (by simp) r
    refine ⟨r1, [statusFetch t.Id], ?_, rfl, ?_, ?_⟩
    · simp [decodeInTurn, hdec]
    · intro k hk
      have hk0 : k = 0 := by simpa using hk
      subst hk0
      simp [heldId_single r r1 initial t hdec ht]
    · have h := waitLoop_fetch Scripted.DoRequest fuel
        { pending := replyOf last :: more, calls := calls0 }
        { pending := more, calls := calls0 ++ [statusFetch t.Id] } r r1 initial t (some last)
        hdec ht hstate (Scripted.DoRequest_cons _ _ _ _)
      simpa using h
  | cons next rest ih =>
    intro initial last more r calls0 fuel hprog
    obtain ⟨r1, t, hdec, ht, hstate⟩ := hprog initial (by simp) r
    obtain ⟨r2, calls, hall, hlen, hcalls, hrun⟩ :=
      ih next last more r1 (calls0 ++ [statusFetch t.Id]) fuel
        (fun resp hmem => hprog resp (List.mem_cons_of_mem _ hmem))
    refine ⟨r2, statusFetch t.Id :: calls, ?_, ?_, ?_, ?_⟩
    · simpa [decodeInTurn, hdec] using hall
    · simp [hlen]
    · intro k hk
      cases k with
      | zero => simp [heldId_single r r1 initial t hdec ht]
      | succ j =>
        have hj : j < rest.length + 1 := by simpa using hk
        have := hcalls j hj
        simpa [heldId_cons r r1 initial _ hdec] using this
    · have h := waitLoop_fetch Scripted.DoRequest (fuel + (rest.length + 1))
        { pending := replyOf next :: (rest.map replyOf ++ replyOf last :: more), calls := calls0 }
        { pending := rest.map replyOf ++ replyOf last :: more,
          calls := calls0 ++ [statusFetch t.Id] } r r1 initial t (some next)
        hdec ht hstate (Scripted.DoRequest_cons _ _ _ _)
      have e : fuel + ((next :: rest).length + 1) = fuel + (rest.length + 1) + 1 := by
        simp; omega
      rw [e]
      simp only [List.map_cons, List.cons_append]
      rw [h]
      simpa using hrun

theorem startedBody_in_progress : HasState startedBody "IN_PROGRESS" :=
  fun _ => ⟨_, _, rfl, rfl, rfl⟩

theorem halfWayBody_in_progress : HasState halfWayBody "IN_PROGRESS" :=
  fun _ => ⟨_, _, rfl, rfl, rfl⟩

theorem completeBody_complete : HasState completeBody "COMPLETE" :=
  fun _ => ⟨_, _, rfl, rfl, rfl⟩

theorem failedBody_failed : HasState failedBody "FAILED" :=
  fun _ => ⟨_, _, rfl, rfl, rfl⟩

/-- C1, on the code: the first response is in progress, the fetched one has state FAILED and
mentions neither percent_complete nor affected_objects. The Task returned has the progress 50
and the affected object of the in-progress response; decoded alone, the last response gives
progress 0 and no affected object. -/
theorem WaitForTask_returns_stale_fields :
    HasState halfWayBody "IN_PROGRESS" ∧ HasState failedBody "FAILED" ∧
    TaskResource.WaitForTask Scripted.DoRequest 2 { pending := [replyOf failedBody] } halfWayBody =
      .ret ((some { State := "FAILED", Id := "1", Progress := 50,
                    AffectedResources := [some { ObjectType := "vm", ObjectId := "7" }],
                    ErrorCode := 17 }, none),
            { pending := [], calls := [statusFetch "1"] }) ∧
    TaskResp.Unmarshal failedBody {} =
      .ok { Task := some { State := "FAILED", Id := "1", Progress := 0, AffectedResources := [],
                           ErrorCode := 17 } } :=
  ⟨halfWayBody_in_progress, failedBody_failed, rfl, rfl⟩

/-- C2: for an initial response and fetched responses of which all but the last have state
IN_PROGRESS and the last has another state, WaitForTask (given fuel for the iterations) returns
after exactly one fetch per in-progress response, the k-th fetch being a GET to "/tasks/"
followed by the id of the Task held after decoding the responses up to the k-th; what follows
in the script is not asked for. -/
theorem WaitForTask_fetches_once_per_in_progress
    (initial : Bytes) (fetched : List Bytes) (more : List Reply) (state : String) (fuel : Nat)
    (hprog : ∀ resp ∈ (initial :: fetched).dropLast, HasState resp "IN_PROGRESS")
    (hlast : HasState ((initial :: fetched).getLast (List.cons_ne_nil initial fetched)) state)
    (hterm : state ≠ "IN_PROGRESS")
    (hfuel : fetched.length < fuel) :
    ∃ (task : Task) (calls : List Call),
      TaskResource.WaitForTask Scripted.DoRequest fuel
          { pending := fetched.map replyOf ++ more } initial =
        .ret ((some task, none), { pending := more, calls := calls }) ∧
      task.State = state ∧
      calls.length = fetched.length ∧
      ∀ k, k < fetched.length →
        calls.get? k = some (statusFetch (heldId {} ((initial :: fetched).take (k + 1)))) := by
  rcases eq_nil_or_snoc fetched with rfl | ⟨mid, last, rfl⟩
  · obtain ⟨f, rfl⟩ : ∃ f, fuel = f + 1 := ⟨fuel - 1, by simp at hfuel; omega⟩
    obtain ⟨r1, t, hdec, ht, hst⟩ := hlast {}
    simp only [List.getLast_singleton] at hdec
    refine ⟨t, [], ?_, hst, rfl, ?_⟩
    · simpa [TaskResource.WaitForTask] using
        waitLoop_terminal Scripted.DoRequest f { pending := more } {} r1 initial t hdec ht
          (hst ▸ hterm)
    · intro k hk
      simp at hk
  · obtain ⟨f, rfl⟩ : ∃ f, fuel = f + 1 + (mid.length + 1) :=
      ⟨fuel - (mid.length + 2), by simp at hfuel; omega⟩
    rw [dropLast_cons_concat] at hprog
    obtain ⟨r1, calls, -, hlen, hcalls, hrun⟩ :=
      waitLoop_in_progress mid initial last more {} [] (f + 1) hprog
    obtain ⟨r2, t, hdec, ht, hst⟩ := hlast r1
    rw [getLast_cons_concat] at hdec
    refine ⟨t, calls, ?_, hst, by simpa using hlen, ?_⟩
    · have hend := waitLoop_terminal Scripted.DoRequest f { pending := more, calls := [] ++ calls }
        r1 r2 last t hdec ht (hst ▸ hterm)
      unfold TaskResource.WaitForTask
      simp only [List.map_append, List.map_cons, List.map_nil, List.append_assoc,
        List.singleton_append]
      rw [hrun, hend]
      simp
    · intro k hk
      have hk1 : k < mid.length + 1 := by simpa using hk
      rw [take_cons_concat initial mid last k hk1]
      exact hcalls k hk1

/-- The responses of the test suite: set_policy answers IN_PROGRESS, a first fetch too, the second
fetch COMPLETE; two fetches, and the reply scripted after them is left alone. -/
theorem WaitForTask_fetches_once_per_in_progress_witness :
    (∀ resp ∈ [startedBody, halfWayBody], HasState resp "IN_PROGRESS") ∧
    HasState completeBody "COMPLETE" ∧
    ∃ (task : Task) (calls : List Call),
      TaskResource.WaitForTask Scripted.DoRequest 3
          { pending := [halfWayBody, completeBody].map replyOf ++ [replyOf failedBody] }
          startedBody =
        .ret ((some task, none), { pending := [replyOf failedBody], calls := calls }) ∧
      task.State = "COMPLETE" ∧
      calls.length = 2 ∧
      ∀ k, k < 2 →
        calls.get? k =
          some (statusFetch (heldId {} ([startedBody, halfWayBody, completeBody].take (k + 1)))) :=
  have hprog : ∀ resp ∈ [startedBody, halfWayBody], HasState resp "IN_PROGRESS" := by
    intro resp hmem
    simp only [List.mem_cons, List.mem_singleton, List.not_mem_nil, or_false] at hmem
    rcases hmem with h | h
    · exact h ▸ startedBody_in_progress
    · exact h ▸ halfWayBody_in_progress
  ⟨hprog, completeBody_complete,
    WaitForTask_fetches_once_per_in_progress startedBody [halfWayBody, completeBody]
      [replyOf failedBody] "COMPLETE" 3 hprog completeBody_complete (by decide) (by decide)⟩

/-- C3: when a response of the poll loop fails to decode, be it the initial one or one fetched
after any number of in-progress responses, WaitForTask returns that decode error and a nil
Task, having fetched once per in-progress response and nothing after the failure. -/
theorem WaitForTask_decode_error_aborts
    (initial : Bytes) (fetched : List Bytes) (more : List Reply) (err : GoError) (fuel : Nat)
    (hprog : ∀ resp ∈ (initial :: fetched).dropLast, HasState resp "IN_PROGRESS")
    (hlast : FailsToDecode ((initial :: fetched).getLast (List.cons_ne_nil initial fetched)) err)
    (hfuel : fetched.length < fuel) :
    ∃ calls : List Call,
      TaskResource.WaitForTask Scripted.DoRequest fuel
          { pending := fetched.map replyOf ++ more } initial =
        .ret ((none, some err), { pending := more, calls := calls }) ∧
      calls.length = fetched.length := by
  rcases eq_nil_or_snoc fetched with rfl | ⟨mid, last, rfl⟩
  · obtain ⟨f, rfl⟩ : ∃ f, fuel = f + 1 := ⟨fuel - 1, by simp at hfuel; omega⟩
    have hdec := hlast {}
    simp only [List.getLast_singleton] at hdec
    refine ⟨[], ?_, rfl⟩
    simpa [TaskResource.WaitForTask] using
      waitLoop_decode_error Scripted.DoRequest f { pending := more } {} initial err hdec
  · obtain ⟨f, rfl⟩ : ∃ f, fuel = f + 1 + (mid.length + 1) :=
      ⟨fuel - (mid.length + 2), by simp at hfuel; omega⟩
    rw [dropLast_cons_concat] at hprog
    obtain ⟨r1, calls, -, hlen, -, hrun⟩ :=
      waitLoop_in_progress mid initial last more {} [] (f + 1) hprog
    have hdec := hlast r1
    rw [getLast_cons_concat] at hdec
    refine ⟨calls, ?_, by simpa using hlen⟩
    have hend := waitLoop_decode_error Scripted.DoRequest f
      { pending := more, calls := [] ++ calls } r1 last err hdec
    unfold TaskResource.WaitForTask
    simp only [List.map_append, List.map_cons, List.map_nil, List.append_assoc,
      List.singleton_append]
    rw [hrun, hend]
    simp

/-- Two in-progress responses, then a fetched body that is not JSON: two fetches, the syntax error
is returned and the reply scripted after it is left alone. -/
theorem WaitForTask_decode_error_aborts_witness :
    ∃ calls : List Call,
      TaskResource.WaitForTask Scripted.DoRequest 3
          { pending := [halfWayBody, Bytes.text "Bad Gateway"].map replyOf ++
              [replyOf completeBody] } startedBody =
        .ret ((none, some (.jsonText "Bad Gateway")),
          { pending := [replyOf completeBody], calls := calls }) ∧
      calls.length = 2 :=
  WaitForTask_decode_error_aborts startedBody [halfWayBody, .text "Bad Gateway"]
    [replyOf completeBody] (.jsonText "Bad Gateway") 3
    (by
      intro resp hmem
      simp only [List.dropLast, List.mem_cons, List.mem_singleton, List.not_mem_nil,
        or_false] at hmem
      rcases hmem with h | h
      · exact h ▸ startedBody_in_progress
      · exact h ▸ halfWayBody_in_progress)
    (fun _ => rfl) (by decide)

/-- C4: when, after an initial response and fetched responses that all have state IN_PROGRESS,
the next status fetch returns an error, WaitForTask returns exactly that error and a nil Task;
the failed fetch is its last one. -/
theorem WaitForTask_fetch_error_aborts
    (initial : Bytes) (fetched : List Bytes) (data : Option Bytes) (err : GoError)
    (more : List Reply) (fuel : Nat)
    (hprog : ∀ resp ∈ initial :: fetched, HasState resp "IN_PROGRESS")
    (hfuel : fetched.length < fuel) :
    ∃ calls : List Call,
      TaskResource.WaitForTask Scripted.DoRequest fuel
          { pending := fetched.map replyOf ++ (data, some err) :: more } initial =
        .ret ((none, some err), { pending := more, calls := calls }) ∧
      calls.length = fetched.length + 1 := by
  rcases eq_nil_or_snoc fetched with rfl | ⟨mid, last, rfl⟩
  · obtain ⟨f, rfl⟩ : ∃ f, fuel = f + 1 := ⟨fuel - 1, by simp at hfuel; omega⟩
    obtain ⟨r1, t, hdec, ht, hst⟩ := hprog initial (by simp) {}
    refine ⟨[statusFetch t.Id], ?_, rfl⟩
    have h := waitLoop_fetch_error Scripted.DoRequest f
      { pending := (data, some err) :: more, calls := [] }
      { pending := more, calls := [] ++ [statusFetch t.Id] } {} r1 initial t data err
      hdec ht hst (Scripted.DoRequest_cons _ _ _ _)
    simpa [TaskResource.WaitForTask] using h
  · obtain ⟨f, rfl⟩ : ∃ f, fuel = f + 1 + (mid.length + 1) :=
      ⟨fuel - (mid.length + 2), by simp at hfuel; omega⟩
    obtain ⟨r1, calls, -, hlen, -, hrun⟩ :=
      waitLoop_in_progress mid initial last ((data, some err) :: more) {} [] (f + 1)
        (fun resp hmem => hprog resp (by
          rcases List.mem_cons.mp hmem with h | h
          · exact h ▸ List.mem_cons_self _ _
          · exact List.mem_cons_of_mem _ (List.mem_append_left _ h)))
    obtain ⟨r2, t, hdec, ht, hst⟩ := hprog last (by simp) r1
    refine ⟨calls ++ [statusFetch t.Id], ?_, by simp [hlen]⟩
    have hend := waitLoop_fetch_error Scripted.DoRequest f
      { pending := (data, some err) :: more, calls := [] ++ calls }
      { pending := more, calls := [] ++ calls ++ [statusFetch t.Id] } r1 r2 last t data err
      hdec ht hst (Scripted.DoRequest_cons _ _ _ _)
    unfold TaskResource.WaitForTask
    simp only [List.map_append, List.map_cons, List.map_nil, List.append_assoc,
      List.singleton_append]
    have hrun1 : TaskResource.waitLoop Scripted.DoRequest (f + 1 + (mid.length + 1))
        { pending := mid.map replyOf ++ replyOf last :: (data, some err) :: more } {} initial =
        TaskResource.waitLoop Scripted.DoRequest (f + 1)
          { pending := (data, some err) :: more, calls := [] ++ calls } r1 last := hrun
    rw [hrun1, hend]
    simp

/-- Two in-progress responses, then a fetch that fails with a connection reset. -/
theorem WaitForTask_fetch_error_aborts_witness :
    ∃ calls : List Call,
      TaskResource.WaitForTask Scripted.DoRequest 3
          { pending := [halfWayBody].map replyOf ++
              (none, some (.transport "connection reset")) :: [replyOf completeBody] }
          startedBody =
        .ret ((none, some (.transport "connection reset")),
          { pending := [replyOf completeBody], calls := calls }) ∧
      calls.length = 1 + 1 :=
  WaitForTask_fetch_error_aborts startedBody [halfWayBody] none (.transport "connection reset")
    [replyOf completeBody] 3
    (by
      intro resp hmem
      simp only [List.mem_cons, List.mem_singleton, List.not_mem_nil, or_false] at hmem
      rcases hmem with h | h
      · exact h ▸ startedBody_in_progress
      · exact h ▸ halfWayBody_in_progress)
    (by decide)

/-! ## Do and DoRequest -/

theorem httpStatusCodes_get_iff (code : Int) :
    httpStatusCodes.get code = true ↔ code = 200 ∨ code = 201 ∨ code = 202 ∨ code = 204 := by
  unfold httpStatusCodes.get httpStatusCodes
  simp only [List.lookup]
  repeat' split
  all_goals simp_all

theorem Do_client (env : Env) (c : Client) (req : Request) :
    (c.Do env req).2 = { c with client := c.client ++ [req] } := by
  simp only [Client.Do]
  repeat' split
  all_goals rfl

theorem Do_httpError (env : Env) (c c1 : Client) (req : Request) (data : Option Bytes)
    (err : Option GoError) (e : OVCRespError)
    (h : c.Do env req = ((data, err, some e), c1)) :
    data = none ∧ err = none ∧ c1 = { c with client := c.client ++ [req] } := by
  have hc := Do_client env c req
  rw [h] at hc
  refine ⟨?_, ?_, hc⟩
  all_goals
    simp only [Client.Do] at h
    repeat' split at h
    all_goals simp_all

theorem Do_transport_error (env : Env) (c : Client) (req : Request) (err : GoError)
    (hsend : env.roundTrip c.client req = .error err ∨
      ∃ resp, env.roundTrip c.client req = .ok resp ∧ resp.Body = .error err) :
    c.Do env req = ((none, some err, none), { c with client := c.client ++ [req] }) := by
  rcases hsend with h | ⟨resp, h, hb⟩
  · simp [Client.Do, h]
  · simp [Client.Do, h, hb]

theorem Do_success (env : Env) (c : Client) (req : Request) (resp : Response) (data : Bytes)
    (hsend : env.roundTrip c.client req = .ok resp) (hbody : resp.Body = .ok data)
    (hstatus : httpStatusCodes.get resp.StatusCode = true) :
    c.Do env req = ((some data, none, none), { c with client := c.client ++ [req] }) := by
  simp [Client.Do, hsend, hbody, hstatus]

/-- C5: when the first send yields a structured error whose error field is "invalid_token",
re-authentication succeeds, and the second send of the request (headers set again with the
refreshed token) is answered with a success status and body b, DoRequest returns b and a nil
error. -/
theorem DoRequest_retry_after_refresh_succeeds
    (env : Env) (c c1 c2 : Client) (method path queryStr : String) (body : Option Payload)
    (headers : Option StringMap) (req : Request) (data : Option Bytes) (err : Option GoError)
    (e : OVCRespError) (resp : Response) (b : Bytes)
    (hreq : c.NewRequest env method path queryStr body = .ret (.ok req))
    (hfirst : c.Do env
      (c.SetHeaders req (env.rangeOrder c.client (requestHeaders body headers))) =
        ((data, err, some e), c1))
    (htoken : e.Error = "invalid_token")
    (hauth : c1.SetAccessToken env = (none, c2))
    (hretry : env.roundTrip c2.client
      (c2.SetHeaders (c.SetHeaders req (env.rangeOrder c.client (requestHeaders body headers)))
        (env.rangeOrder c2.client (requestHeaders body headers))) = .ok resp)
    (hbody : resp.Body = .ok b)
    (hstatus : resp.StatusCode = 200 ∨ resp.StatusCode = 201 ∨ resp.StatusCode = 202 ∨
      resp.StatusCode = 204) :
    c.DoRequest env method path queryStr body headers =
      .ret ((some b, none), { c2 with client := c2.client ++
        [c2.SetHeaders (c.SetHeaders req (env.rangeOrder c.client (requestHeaders body headers)))
          (env.rangeOrder c2.client (requestHeaders body headers))] }) := by
  have hdo := Do_success env c2 _ resp b hretry hbody ((httpStatusCodes_get_iff _).mpr hstatus)
  simp only [Client.DoRequest, hreq, hfirst, htoken, if_true, hauth, hdo]

/-- On the test server a client with a stale token sends the request, asks for a token, and
sends the request again bearing the token 12345; the body of the second answer is returned. -/
theorem DoRequest_retry_after_refresh_succeeds_witness :
    Client.DoRequest tokenServer staleClient "GET" "/test/path" "" none none =
      .ret ((some testBody, none),
        { staleClient with
          client := [bearing "stale", tokenRequest, bearing "12345"], AccessToken := "12345" }) :=
  DoRequest_retry_after_refresh_succeeds tokenServer staleClient
    { staleClient with client := [bearing "stale"] }
    { staleClient with client := [bearing "stale", tokenRequest], AccessToken := "12345" }
    "GET" "/test/path" "" none none testRequest none none
    { Error := "invalid_token", Message := "Access token expired due to inactivity" }
    { StatusCode := 200, Body := .ok testBody } testBody
    rfl rfl rfl rfl rfl rfl (Or.inl rfl)

/-- C6: when the first send and the retry after the refresh both yield a structured error with
error field "invalid_token", DoRequest returns no data and the error whose message is
"Error: Status code:" + status + " - " + message of the second envelope. -/
theorem DoRequest_invalid_token_twice
    (env : Env) (c c1 c2 c3 : Client) (method path queryStr : String) (body : Option Payload)
    (headers : Option StringMap) (req : Request) (data data2 : Option Bytes)
    (err err2 authErr : Option GoError) (e e2 : OVCRespError)
    (hreq : c.NewRequest env method path queryStr body = .ret (.ok req))
    (hfirst : c.Do env
      (c.SetHeaders req (env.rangeOrder c.client (requestHeaders body headers))) =
        ((data, err, some e), c1))
    (htoken : e.Error = "invalid_token")
    (hauth : c1.SetAccessToken env = (authErr, c2))
    (hretry : c2.Do env
      (c2.SetHeaders (c.SetHeaders req (env.rangeOrder c.client (requestHeaders body headers)))
        (env.rangeOrder c2.client (requestHeaders body headers))) =
          ((data2, err2, some e2), c3)) :
    c.DoRequest env method path queryStr body headers =
      .ret ((none, some (.errorf ("Error: Status code:" ++ e2.Status ++ " - " ++ e2.Message))),
        c3) := by
  obtain ⟨hd, -, -⟩ := Do_httpError env c2 c3 _ data2 err2 e2 hretry
  subst hd
  simp only [Client.DoRequest, hreq, hfirst, htoken, if_true, hauth, hretry]

/-- The token-expiry test: both sends are answered with the invalid-token envelope, and the error
returned has the message the test expects. -/
theorem DoRequest_invalid_token_twice_witness :
    Client.DoRequest expiredServer staleClient "GET" "/test/path" "" none none =
      .ret ((none, some (.errorf
          "Error: Status code: - Access token expired due to inactivity")),
        { staleClient with
          client := [bearing "stale", tokenRequest, bearing "12345"], AccessToken := "12345" }) :=
  DoRequest_invalid_token_twice expiredServer staleClient
    { staleClient with client := [bearing "stale"] }
    { staleClient with client := [bearing "stale", tokenRequest], AccessToken := "12345" }
    { staleClient with
      client := [bearing "stale", tokenRequest, bearing "12345"], AccessToken := "12345" }
    "GET" "/test/path" "" none none testRequest none none none none none
    { Error := "invalid_token", Message := "Access token expired due to inactivity" }
    { Error := "invalid_token", Message := "Access token expired due to inactivity" }
    rfl rfl rfl rfl rfl

/-- C7: when the first send yields a structured error whose error field is not
"invalid_token", DoRequest returns nil data and the error whose message is
"Error: Status code:" + status + " - " + message of that envelope; the client is as before but
for this one send: no second send and no request for a token. -/
theorem DoRequest_other_error_no_retry
    (env : Env) (c c1 : Client) (method path queryStr : String) (body : Option Payload)
    (headers : Option StringMap) (req : Request) (data : Option Bytes) (err : Option GoError)
    (e : OVCRespError)
    (hreq : c.NewRequest env method path queryStr body = .ret (.ok req))
    (hfirst : c.Do env
      (c.SetHeaders req (env.rangeOrder c.client (requestHeaders body headers))) =
        ((data, err, some e), c1))
    (hother : e.Error ≠ "invalid_token") :
    c.DoRequest env method path queryStr body headers =
      .ret ((none, some (.errorf ("Error: Status code:" ++ e.Status ++ " - " ++ e.Message))),
        { c with client := c.client ++
          [c.SetHeaders req (env.rangeOrder c.client (requestHeaders body headers))] }) := by
  obtain ⟨hd, -, hc⟩ := Do_httpError env c c1 _ data err e hfirst
  subst hd hc
  simp only [Client.DoRequest, hreq, hfirst, hother, if_false]

/-- A 404 with its envelope: one send, the formatted error, the token untouched. -/
theorem DoRequest_other_error_no_retry_witness :
    Client.DoRequest (fixedServer (.ok { StatusCode := 404, Body := .ok notFoundBody }))
        staleClient "GET" "/test/path" "" none none =
      .ret ((none, some (.errorf "Error: Status code:404 - No such resource")),
        { staleClient with client := [bearing "stale"] }) :=
  DoRequest_other_error_no_retry (fixedServer (.ok { StatusCode := 404, Body := .ok notFoundBody }))
    staleClient { staleClient with client := [bearing "stale"] }
    "GET" "/test/path" "" none none testRequest none none
    { Exception := "ObjectNotFoundException", Path := "/api/test/path", Error := "Not Found",
      Message := "No such resource", Status := "404" }
    rfl rfl (by decide)

/-- C8: when the first send fails at transport level (`http.Client.Do` returns an error, or
reading the body does), DoRequest returns exactly that error and nil data; the client is as
before but for this one send: no second send and no request for a token. -/
theorem DoRequest_transport_error
    (env : Env) (c : Client) (method path queryStr : String) (body : Option Payload)
    (headers : Option StringMap) (req : Request) (err : GoError)
    (hreq : c.NewRequest env method path queryStr body = .ret (.ok req))
    (hsend :
      env.roundTrip c.client
        (c.SetHeaders req (env.rangeOrder c.client (requestHeaders body headers))) = .error err ∨
      ∃ resp, env.roundTrip c.client
        (c.SetHeaders req (env.rangeOrder c.client (requestHeaders body headers))) = .ok resp ∧
        resp.Body = .error err) :
    c.DoRequest env method path queryStr body headers =
      .ret ((none, some err),
        { c with client := c.client ++
          [c.SetHeaders req (env.rangeOrder c.client (requestHeaders body headers))] }) := by
  have hdo := Do_transport_error env c _ err hsend
  simp only [Client.DoRequest, hreq, hdo]

/-- A refused connection, and a body that cannot be read: one send each, the error returned as
it is. -/
theorem DoRequest_transport_error_witness :
    Client.DoRequest (fixedServer (.error (.transport "connection refused")))
        staleClient "GET" "/test/path" "" none none =
      .ret ((none, some (.transport "connection refused")),
        { staleClient with client := [bearing "stale"] }) ∧
    Client.DoRequest (fixedServer (.ok { StatusCode := 200, Body := .error (.bodyRead "EOF") }))
        staleClient "GET" "/test/path" "" none none =
      .ret ((none, some (.bodyRead "EOF")),
        { staleClient with client := [bearing "stale"] }) :=
  ⟨DoRequest_transport_error (fixedServer (.error (.transport "connection refused")))
      staleClient "GET" "/test/path" "" none none testRequest (.transport "connection refused")
      rfl (Or.inl rfl),
   DoRequest_transport_error
      (fixedServer (.ok { StatusCode := 200, Body := .error (.bodyRead "EOF") }))
      staleClient "GET" "/test/path" "" none none testRequest (.bodyRead "EOF")
      rfl (Or.inr ⟨_, rfl, rfl⟩)⟩

/-- C9: for a response that has arrived with its body read, Do returns the body bytes
unchanged, a nil error and a nil error envelope exactly when the status is one of 200, 201,
202, 204; for every other status it returns nil data. -/
theorem Do_success_iff_status
    (env : Env) (c : Client) (req : Request) (resp : Response) (data : Bytes)
    (hsend : env.roundTrip c.client req = .ok resp) (hbody : resp.Body = .ok data) :
    ((c.Do env req).1 = (some data, none, none) ↔
        (resp.StatusCode = 200 ∨ resp.StatusCode = 201 ∨ resp.StatusCode = 202 ∨
          resp.StatusCode = 204)) ∧
      (¬(resp.StatusCode = 200 ∨ resp.StatusCode = 201 ∨ resp.StatusCode = 202 ∨
          resp.StatusCode = 204) → (c.Do env req).1.1 = none) := by
  rw [← httpStatusCodes_get_iff]
  cases hs : httpStatusCodes.get resp.StatusCode with
  | true => simp [Client.Do, hsend, hbody, hs]
  | false =>
    cases hu : OVCRespError.Unmarshal data {} with
    | error e0 => simp [Client.Do, hsend, hbody, hs, hu]
    | ok e0 => simp [Client.Do, hsend, hbody, hs, hu]

/-- Status 203, which the status table lacks: not a success, no data. -/
theorem Do_success_iff_status_witness :
    ((Client.Do (fixedServer (.ok { StatusCode := 203, Body := .ok testBody })) staleClient
        testRequest).1 = (some testBody, none, none) ↔
      ((203 : Int) = 200 ∨ (203 : Int) = 201 ∨ (203 : Int) = 202 ∨ (203 : Int) = 204)) ∧
    (¬((203 : Int) = 200 ∨ (203 : Int) = 201 ∨ (203 : Int) = 202 ∨ (203 : Int) = 204) →
      (Client.Do (fixedServer (.ok { StatusCode := 203, Body := .ok testBody })) staleClient
        testRequest).1.1 = none) :=
  Do_success_iff_status (fixedServer (.ok { StatusCode := 203, Body := .ok testBody }))
    staleClient testRequest { StatusCode := 203, Body := .ok testBody } testBody rfl rfl

/-- C10, as stated, fails: a 502 whose body is not JSON (the page of a gateway) is outside the
success set, and Do returns no error envelope but the decode error. -/
theorem Do_failure_status_undecodable_body :
    httpStatusCodes.get 502 = false ∧
    (Client.Do (fixedServer (.ok { StatusCode := 502, Body := .ok (.text "Bad Gateway") }))
      staleClient testRequest).1 = (none, some (.jsonText "Bad Gateway"), none) :=
  ⟨rfl, rfl⟩

/-- C10, as amended: for a response whose status is outside the success set, Do decodes the
body into the error envelope; when that succeeds it returns the envelope with nil data and a
nil error, and when it fails it returns the decode error with nil data and no envelope. -/
theorem Do_failure_status_envelope_or_decode_error
    (env : Env) (c : Client) (req : Request) (resp : Response) (data : Bytes)
    (hsend : env.roundTrip c.client req = .ok resp) (hbody : resp.Body = .ok data)
    (hstatus : ¬(resp.StatusCode = 200 ∨ resp.StatusCode = 201 ∨ resp.StatusCode = 202 ∨
      resp.StatusCode = 204)) :
    (∀ e, OVCRespError.Unmarshal data {} = .ok e → (c.Do env req).1 = (none, none, some e)) ∧
    (∀ err, OVCRespError.Unmarshal data {} = .error err →
      (c.Do env req).1 = (none, some err, none)) := by
  rw [← httpStatusCodes_get_iff] at hstatus
  have hs : httpStatusCodes.get resp.StatusCode = false := by simpa using hstatus
  constructor
  · intro e hu
    simp [Client.Do, hsend, hbody, hs, hu]
  · intro err hu
    simp [Client.Do, hsend, hbody, hs, hu]

/-- A 404 with an envelope, returned as such, and a 502 with a body that is not JSON, returned as
the decode error. -/
theorem Do_failure_status_envelope_or_decode_error_witness :
    (Client.Do (fixedServer (.ok { StatusCode := 404, Body := .ok notFoundBody }))
      staleClient testRequest).1 =
      (none, none,
        some { Exception := "ObjectNotFoundException", Path := "/api/test/path",
               Error := "Not Found", Message := "No such resource", Status := "404" }) ∧
    (Client.Do (fixedServer (.ok { StatusCode := 502, Body := .ok (.text "Bad Gateway") }))
      staleClient testRequest).1 = (none, some (.jsonText "Bad Gateway"), none) :=
  ⟨(Do_failure_status_envelope_or_decode_error
      (fixedServer (.ok { StatusCode := 404, Body := .ok notFoundBody }))
      staleClient testRequest { StatusCode := 404, Body := .ok notFoundBody } notFoundBody
      rfl rfl (by decide)).1 _ rfl,
   (Do_failure_status_envelope_or_decode_error
      (fixedServer (.ok { StatusCode := 502, Body := .ok (.text "Bad Gateway") }))
      staleClient testRequest { StatusCode := 502, Body := .ok (.text "Bad Gateway") }
      (.text "Bad Gateway") rfl rfl (by decide)).2 _ rfl⟩

/-! ## SetAccessToken -/

theorem SetAccessToken_request (env : Env) (c : Client) (endpoint : URL)
    (hurl : c.CreateResourceURL env "/oauth/token" "" = .ok endpoint)
    (hnew : env.newRequestError "POST" endpoint = none) :
    c.SetAccessToken env =
      match c.Do env (c.tokenRequest endpoint) with
      | ((_, some err, _), c1) => (some err, c1)
      | ((_, none, some httpError), c1) =>
        (some (.errorf ("Error: Status code:" ++ httpError.Status ++ " - " ++ httpError.Message)),
          c1)
      | ((data, none, none), c1) =>
        match auth.Unmarshal (data.getD (.text "")) {} with
        | .error err => (some err, c1)
        | .ok authData => (none, { c1 with AccessToken := authData.AccessToken }) := by
  simp only [Client.SetAccessToken, hurl, httpNewRequest, hnew]
  rfl

/-- C11: when the token endpoint answers the token request with a success status and a JSON
body from which access_token t is decoded, SetAccessToken returns nil and the client's
AccessToken is t afterwards; when the exchange fails at transport level (the send or the
reading of the body), SetAccessToken returns that error unchanged. -/
theorem SetAccessToken_stores_token_or_returns_transport_error
    (env : Env) (c : Client) (endpoint : URL)
    (hurl : c.CreateResourceURL env "/oauth/token" "" = .ok endpoint)
    (hnew : env.newRequestError "POST" endpoint = none) :
    (∀ (resp : Response) (data : Bytes) (t : String),
      env.roundTrip c.client (c.tokenRequest endpoint) = .ok resp →
      resp.Body = .ok data →
      (resp.StatusCode = 200 ∨ resp.StatusCode = 201 ∨ resp.StatusCode = 202 ∨
        resp.StatusCode = 204) →
      auth.Unmarshal data {} = .ok { AccessToken := t } →
      c.SetAccessToken env =
        (none, { c with client := c.client ++ [c.tokenRequest endpoint], AccessToken := t })) ∧
    (∀ err : GoError,
      (env.roundTrip c.client (c.tokenRequest endpoint) = .error err ∨
        ∃ resp, env.roundTrip c.client (c.tokenRequest endpoint) = .ok resp ∧
          resp.Body = .error err) →
      c.SetAccessToken env =
        (some err, { c with client := c.client ++ [c.tokenRequest endpoint] })) := by
  constructor
  · intro resp data t hsend hbody hstatus hdec
    rw [SetAccessToken_request env c endpoint hurl hnew,
      Do_success env c _ resp data hsend hbody ((httpStatusCodes_get_iff _).mpr hstatus)]
    simp [hdec]
  · intro err hsend
    rw [SetAccessToken_request env c endpoint hurl hnew, Do_transport_error env c _ err hsend]

/-! ## Lookups -/

theorem GetBy_decoded {E σ : Type} (k : Kind E) (client : Requester σ) (s s1 : σ)
    (field value : String) (resp : Option Bytes) (list : ResourceList E)
    (hsend : client s (k.listRequest { Filters := [(field, value)] }) = .ret ((resp, none), s1))
    (hdec : k.Unmarshal (resp.getD (.text "")) {} = .ok list) :
    k.GetBy client s field value = .ret ((list.Members, none), s1) := by
  have h : StringMap.assign [] field value = [(field, value)] := rfl
  simp only [Kind.GetBy, Kind.GetAll, h, hsend, hdec]

/-- C14: for every resource kind, when the single-filter query (filter "name" for GetByName,
"id" for GetById) is answered with a response that decodes to a list, GetByName and GetById
return the first member of that list with a nil error when there is one, whatever its name
or id, and no entity with the error "Resource doesn't exist" when the list is empty. -/
theorem GetByName_GetById_first_member {E σ : Type} (k : Kind E) (client : Requester σ)
    (s s1 : σ) (value : String) (resp : Option Bytes) (list : ResourceList E)
    (hdec : k.Unmarshal (resp.getD (.text "")) {} = .ok list) :
    (client s (k.listRequest { Filters := [("name", value)] }) = .ret ((resp, none), s1) →
      (∀ first rest, list.Members = first :: rest →
        k.GetByName client s value = .ret ((first, none), s1)) ∧
      (list.Members = [] →
        k.GetByName client s value =
          .ret ((none, some (.errorf "Resource doesn't exist")), s1))) ∧
    (client s (k.listRequest { Filters := [("id", value)] }) = .ret ((resp, none), s1) →
      (∀ first rest, list.Members = first :: rest →
        k.GetById client s value = .ret ((first, none), s1)) ∧
      (list.Members = [] →
        k.GetById client s value =
          .ret ((none, some (.errorf "Resource doesn't exist")), s1))) := by
  constructor
  · intro hsend
    have h := GetBy_decoded k client s s1 "name" value resp list hsend hdec
    constructor
    · intro first rest hm
      simp only [Kind.GetByName, h, hm]
    · intro hm
      simp only [Kind.GetByName, h, hm]
  · intro hsend
    have h := GetBy_decoded k client s s1 "id" value resp list hsend hdec
    constructor
    · intro first rest hm
      simp only [Kind.GetById, h, hm]
    · intro hm
      simp only [Kind.GetById, h, hm]

/-! ## The operations -/

theorem submitAndWait_of_submitted {σ : Type} (client : Requester σ) (fuel : Nat) (s s2 : σ)
    (call : Call) (task : Task) (h : Submitted client fuel s call task s2) :
    submitAndWait client fuel s call = .ret ((some task, none), s2) := by
  obtain ⟨resp, s1, hsend, hwait⟩ := h
  simp only [submitAndWait, hsend, hwait]

/-- C15: given an empty (or nil) list, SetPolicyForMultipleVMs and SetPolicyForMultiplePVs
return the errors "Pass a list of VM resoures" and "Pass a list of PV resoures" and leave the
client as it was: no call of DoRequest, hence no submit, no task fetch, no request for a
token. -/
theorem batch_set_policy_empty_list_fails_fast {σ : Type} (client : Requester σ) (fuel : Nat)
    (s : σ) (policy : Option Policy) :
    VirtualMachineResource.SetPolicyForMultipleVMs client fuel s policy [] =
      .ret (some (.errorf "Pass a list of VM resoures"), s) ∧
    PersistentVolumeResource.SetPolicyForMultiplePVs client fuel s policy [] =
      .ret (some (.errorf "Pass a list of PV resoures"), s) :=
  ⟨rfl, rfl⟩

/-- C16: when an operation's request is submitted and polled with success and the terminal
Task has no affected resource, each of SetPolicy, Clone, Move, CreateBackup (of a VM and of a
persistent volume), SetBackupParameters and UpdatePowerState returns a non-nil error and no
entity, and the client is as polling left it: no lookup follows. -/
theorem operations_fail_without_affected_resource {σ : Type} (client : Requester σ)
    (fuel : Nat) (s s2 : σ) (task : Task) (hempty : task.AffectedResources = []) :
    (∀ (v : VirtualMachine) (policy : Policy),
      Submitted client fuel s (v.setPolicyRequest policy) task s2 →
      v.SetPolicy client fuel s (some policy) =
        .ret (some (.errorf ("Set policy was not successful. Error code:" ++
          runeString task.ErrorCode)), s2)) ∧
    (∀ (vms : Kind VirtualMachine) (v : VirtualMachine) (name : String) (consistent : Bool),
      Submitted client fuel s (v.cloneRequest name consistent) task s2 →
      v.Clone client vms fuel s name consistent =
        .ret ((none, some (.errorf ("Clone was not successful. Error code:" ++
          runeString task.ErrorCode))), s2)) ∧
    (∀ (vms : Kind VirtualMachine) (v : VirtualMachine) (name : String) (datastore : Datastore),
      Submitted client fuel s (v.moveRequest name datastore) task s2 →
      v.Move client vms fuel s name (some datastore) =
        .ret ((none, some (.errorf ("Move was not successful. Error code:" ++
          runeString task.ErrorCode))), s2)) ∧
    (∀ (backups : Kind Backup) (v : VirtualMachine) (req req1 : Option CreateBackupRequest)
        (dest : Option OmniStackCluster),
      withDestination req dest = some req1 →
      Submitted client fuel s (v.backupRequest req1) task s2 →
      v.CreateBackup client backups fuel s req dest =
        .ret ((none, some (.errorf ("Backup was not successful. Error code:" ++
          runeString task.ErrorCode))), s2)) ∧
    (∀ (backups : Kind Backup) (p : PersistentVolume) (req req1 : Option CreateBackupRequest)
        (dest : Option OmniStackCluster),
      withDestination req dest = some req1 →
      Submitted client fuel s (p.backupRequest req1) task s2 →
      p.CreateBackup client backups fuel s req dest =
        .ret ((none, some (.errorf ("Backup was not successful. Error code:" ++
          runeString task.ErrorCode))), s2)) ∧
    (∀ (v : VirtualMachine) (req : Option SetBackupParametersRequest),
      Submitted client fuel s (v.backupParametersRequest req) task s2 →
      v.SetBackupParameters client fuel s req =
        .ret (some (.errorf ("Set backup parameters operation was not successful. Error code:" ++
          runeString task.ErrorCode)), s2)) ∧
    (∀ (v : VirtualMachine) (state path : String),
      powerPath v state = some path →
      Submitted client fuel s (powerRequest path) task s2 →
      v.UpdatePowerState client fuel s state =
        .ret (some (.errorf ("Setting power state operation was not successful. Error code:" ++
          runeString task.ErrorCode)), s2)) := by
  refine ⟨?_, ?_, ?_, ?_, ?_, ?_, ?_⟩
  · intro v policy h
    simp [VirtualMachine.SetPolicy, submitAndWait_of_submitted client fuel s s2 _ task h, hempty]
  · intro vms v name consistent h
    simp [VirtualMachine.Clone, submitAndWait_of_submitted client fuel s s2 _ task h, hempty]
  · intro vms v name datastore h
    simp [VirtualMachine.Move, submitAndWait_of_submitted client fuel s s2 _ task h, hempty]
  · intro backups v req req1 dest hd h
    simp [VirtualMachine.CreateBackup, hd, submitAndWait_of_submitted client fuel s s2 _ task h,
      hempty]
  · intro backups p req req1 dest hd h
    simp [PersistentVolume.CreateBackup, hd, submitAndWait_of_submitted client fuel s s2 _ task h,
      hempty]
  · intro v req h
    simp [VirtualMachine.SetBackupParameters,
      submitAndWait_of_submitted client fuel s s2 _ task h, hempty]
  · intro v state path hp h
    simp [VirtualMachine.UpdatePowerState, hp,
      submitAndWait_of_submitted client fuel s s2 _ task h, hempty]

/-- C19: when the request is submitted and polled with success, the terminal Task has a first
affected resource, and GetById with the object_id of that first resource (whatever its
object_type and whatever follows it in the list) finds an entity, then Clone and Move (on the
VM accessor) and CreateBackup of a VM and of a persistent volume (on the backup accessor)
return that entity and a nil error. -/
theorem operations_return_looked_up_entity {σ : Type} (client : Requester σ)
    (fuel : Nat) (s s2 s3 : σ) (task : Task) (resource : AffectedResource)
    (later : List (Option AffectedResource))
    (haff : task.AffectedResources = some resource :: later) :
    (∀ (vms : Kind VirtualMachine) (v : VirtualMachine) (name : String) (consistent : Bool)
        (entity : VirtualMachine),
      Submitted client fuel s (v.cloneRequest name consistent) task s2 →
      vms.GetById client s2 resource.ObjectId = .ret ((some entity, none), s3) →
      v.Clone client vms fuel s name consistent = .ret ((some entity, none), s3)) ∧
    (∀ (vms : Kind VirtualMachine) (v : VirtualMachine) (name : String) (datastore : Datastore)
        (entity : VirtualMachine),
      Submitted client fuel s (v.moveRequest name datastore) task s2 →
      vms.GetById client s2 resource.ObjectId = .ret ((some entity, none), s3) →
      v.Move client vms fuel s name (some datastore) = .ret ((some entity, none), s3)) ∧
    (∀ (backups : Kind Backup) (v : VirtualMachine) (req req1 : Option CreateBackupRequest)
        (dest : Option OmniStackCluster) (entity : Backup),
      withDestination req dest = some req1 →
      Submitted client fuel s (v.backupRequest req1) task s2 →
      backups.GetById client s2 resource.ObjectId = .ret ((some entity, none), s3) →
      v.CreateBackup client backups fuel s req dest = .ret ((some entity, none), s3)) ∧
    (∀ (backups : Kind Backup) (p : PersistentVolume) (req req1 : Option CreateBackupRequest)
        (dest : Option OmniStackCluster) (entity : Backup),
      withDestination req dest = some req1 →
      Submitted client fuel s (p.backupRequest req1) task s2 →
      backups.GetById client s2 resource.ObjectId = .ret ((some entity, none), s3) →
      p.CreateBackup client backups fuel s req dest = .ret ((some entity, none), s3)) := by
  refine ⟨?_, ?_, ?_, ?_⟩
  · intro vms v name consistent entity h hget
    simp [VirtualMachine.Clone, submitAndWait_of_submitted client fuel s s2 _ task h, haff, hget]
  · intro vms v name datastore entity h hget
    simp [VirtualMachine.Move, submitAndWait_of_submitted client fuel s s2 _ task h, haff, hget]
  · intro backups v req req1 dest entity hd h hget
    simp [VirtualMachine.CreateBackup, hd, submitAndWait_of_submitted client fuel s s2 _ task h,
      haff, hget]
  · intro backups p req req1 dest entity hd h hget
    simp [PersistentVolume.CreateBackup, hd, submitAndWait_of_submitted client fuel s s2 _ task h,
      haff, hget]

/-- On the test server: the token endpoint answers 200 with access_token 12345, which the
client holds afterwards; with the connection refused, that error comes back. -/
theorem SetAccessToken_stores_token_or_returns_transport_error_witness :
    Client.SetAccessToken tokenServer staleClient =
      (none, { staleClient with client := [tokenRequest], AccessToken := "12345" }) ∧
    Client.SetAccessToken (fixedServer (.error (.transport "connection refused"))) staleClient =
      (some (.transport "connection refused"), { staleClient with client := [tokenRequest] }) :=
  ⟨(SetAccessToken_stores_token_or_returns_transport_error tokenServer staleClient
      { Text := "https://ovc.test/api/oauth/token", RawQuery := "" } rfl rfl).1
      tokenAnswer (.json (.obj [("access_token", .str "12345")])) "12345" rfl rfl (Or.inl rfl) rfl,
   (SetAccessToken_stores_token_or_returns_transport_error
      (fixedServer (.error (.transport "connection refused"))) staleClient
      { Text := "https://ovc.test/api/oauth/token", RawQuery := "" } rfl rfl).2
      (.transport "connection refused") (Or.inl rfl)⟩

/-- The VM mock of the test suite answers every query with the VM named testvm with id 1:
GetByName for another name and GetById for another id return it all the same; on a list
without members both return the error. -/
theorem GetByName_GetById_first_member_witness :
    sampleVMs.GetByName Scripted.DoRequest { pending := [replyOf vmListBody] } "othervm" =
      .ret ((some testVM, none),
        { pending := [],
          calls := [sampleVMs.listRequest { Filters := [("name", "othervm")] }] }) ∧
    sampleVMs.GetById Scripted.DoRequest { pending := [replyOf vmListBody] } "123" =
      .ret ((some testVM, none),
        { pending := [], calls := [sampleVMs.listRequest { Filters := [("id", "123")] }] }) ∧
    sampleVMs.GetById Scripted.DoRequest { pending := [replyOf emptyListBody] } "123" =
      .ret ((none, some (.errorf "Resource doesn't exist")),
        { pending := [], calls := [sampleVMs.listRequest { Filters := [("id", "123")] }] }) :=
  ⟨((GetByName_GetById_first_member sampleVMs Scripted.DoRequest
      { pending := [replyOf vmListBody] }
      { pending := [], calls := [sampleVMs.listRequest { Filters := [("name", "othervm")] }] }
      "othervm" (some vmListBody)
      { Offset := 1, Count := 1, Limit := 500, Members := [some testVM] } rfl).1 rfl).1
      (some testVM) [] rfl,
   ((GetByName_GetById_first_member sampleVMs Scripted.DoRequest
      { pending := [replyOf vmListBody] }
      { pending := [], calls := [sampleVMs.listRequest { Filters := [("id", "123")] }] }
      "123" (some vmListBody)
      { Offset := 1, Count := 1, Limit := 500, Members := [some testVM] } rfl).2 rfl).1
      (some testVM) [] rfl,
   ((GetByName_GetById_first_member sampleVMs Scripted.DoRequest
      { pending := [replyOf emptyListBody] }
      { pending := [], calls := [sampleVMs.listRequest { Filters := [("id", "123")] }] }
      "123" (some emptyListBody)
      { Offset := 0, Count := 0, Limit := 500, Members := [] } rfl).2 rfl).2 rfl⟩

/-- The request `call`, answered at once with the failed task without affected object, is
submitted and polled with success. -/
theorem submitted_failed (call : Call) :
    Submitted Scripted.DoRequest 1 { pending := [replyOf failedEmptyBody] } call failedTask
      { pending := [], calls := [call] } :=
  ⟨some failedEmptyBody, { pending := [], calls := [call] }, rfl, rfl⟩

/-- The request `call`, answered at once with the complete task of the test suite and followed
by `more` in the script, is submitted and polled with success. -/
theorem submitted_complete (call : Call) (more : List Reply) :
    Submitted Scripted.DoRequest 1 { pending := replyOf completeBody :: more } call completeTask
      { pending := more, calls := [call] } :=
  ⟨some completeBody, { pending := more, calls := [call] }, rfl, rfl⟩

/-- Each of the seven operations on a server that answers with a failed task without affected
object: an error, and the one call that submitted the request. -/
theorem operations_fail_without_affected_resource_witness :
    testVM.SetPolicy Scripted.DoRequest 1 { pending := [replyOf failedEmptyBody] }
        (some testPolicy) =
      .ret (some (.errorf ("Set policy was not successful. Error code:" ++ runeString 17)),
        { pending := [], calls := [testVM.setPolicyRequest testPolicy] }) ∧
    testVM.Clone Scripted.DoRequest sampleVMs 1 { pending := [replyOf failedEmptyBody] }
        "clone1" false =
      .ret ((none, some (.errorf ("Clone was not successful. Error code:" ++ runeString 17))),
        { pending := [], calls := [testVM.cloneRequest "clone1" false] }) ∧
    testVM.Move Scripted.DoRequest sampleVMs 1 { pending := [replyOf failedEmptyBody] }
        "testvm" (some { Id := "1" }) =
      .ret ((none, some (.errorf ("Move was not successful. Error code:" ++ runeString 17))),
        { pending := [], calls := [testVM.moveRequest "testvm" { Id := "1" }] }) ∧
    testVM.CreateBackup Scripted.DoRequest sampleBackups 1
        { pending := [replyOf failedEmptyBody] } (some { Name := "backup_name" })
        (some { Id := "1" }) =
      .ret ((none, some (.errorf ("Backup was not successful. Error code:" ++ runeString 17))),
        { pending := [],
          calls := [testVM.backupRequest (some { Name := "backup_name", Destination := "1" })] }) ∧
    PersistentVolume.CreateBackup Scripted.DoRequest sampleBackups 1
        { pending := [replyOf failedEmptyBody] } { Id := "1" } (some { Name := "backup_name" })
        none =
      .ret ((none, some (.errorf ("Backup was not successful. Error code:" ++ runeString 17))),
        { pending := [],
          calls := [PersistentVolume.backupRequest { Id := "1" }
            (some { Name := "backup_name" })] }) ∧
    testVM.SetBackupParameters Scripted.DoRequest 1 { pending := [replyOf failedEmptyBody] }
        (some { AppAwareType := "VSS" }) =
      .ret (some (.errorf
          ("Set backup parameters operation was not successful. Error code:" ++ runeString 17)),
        { pending := [],
          calls := [testVM.backupParametersRequest (some { AppAwareType := "VSS" })] }) ∧
    testVM.UpdatePowerState Scripted.DoRequest 1 { pending := [replyOf failedEmptyBody] } "on" =
      .ret (some (.errorf
          ("Setting power state operation was not successful. Error code:" ++ runeString 17)),
        { pending := [], calls := [powerRequest "/virtual_machines/1/power_on"] }) :=
  have h := operations_fail_without_affected_resource Scripted.DoRequest 1
    { pending := [replyOf failedEmptyBody] }
  ⟨(h _ failedTask rfl).1 testVM testPolicy (submitted_failed _),
   (h _ failedTask rfl).2.1 sampleVMs testVM "clone1" false (submitted_failed _),
   (h _ failedTask rfl).2.2.1 sampleVMs testVM "testvm" { Id := "1" } (submitted_failed _),
   (h _ failedTask rfl).2.2.2.1 sampleBackups testVM (some { Name := "backup_name" })
     (some { Name := "backup_name", Destination := "1" }) (some { Id := "1" }) rfl
     (submitted_failed _),
   (h _ failedTask rfl).2.2.2.2.1 sampleBackups { Id := "1" } (some { Name := "backup_name" })
     (some { Name := "backup_name" }) none rfl (submitted_failed _),
   (h _ failedTask rfl).2.2.2.2.2.1 testVM (some { AppAwareType := "VSS" }) (submitted_failed _),
   (h _ failedTask rfl).2.2.2.2.2.2 testVM "on" "/virtual_machines/1/power_on" rfl
     (submitted_failed _)⟩

/-- The clone and backup tests: the task completes with the object id 1, the lookup by that
id finds the entity, and the operation returns it. -/
theorem operations_return_looked_up_entity_witness :
    testVM.Clone Scripted.DoRequest sampleVMs 1
        { pending := [replyOf completeBody, replyOf vmListBody] } "clone1" false =
      .ret ((some testVM, none),
        { pending := [],
          calls := [testVM.cloneRequest "clone1" false,
            sampleVMs.listRequest { Filters := [("id", "1")] }] }) ∧
    testVM.CreateBackup Scripted.DoRequest sampleBackups 1
        { pending := [replyOf completeBody, replyOf backupListBody] }
        (some { Name := "backup_name" }) (some { Id := "1" }) =
      .ret ((some { Name := "backup_name", Id := "1" }, none),
        { pending := [],
          calls := [testVM.backupRequest (some { Name := "backup_name", Destination := "1" }),
            sampleBackups.listRequest { Filters := [("id", "1")] }] }) :=
  have h := operations_return_looked_up_entity Scripted.DoRequest 1
    { pending := [replyOf completeBody, replyOf vmListBody] }
    { pending := [replyOf vmListBody], calls := [testVM.cloneRequest "clone1" false] }
    { pending := [],
      calls := [testVM.cloneRequest "clone1" false,
        sampleVMs.listRequest { Filters := [("id", "1")] }] }
    completeTask { ObjectType := "", ObjectId := "1" } [] rfl
  have hb := operations_return_looked_up_entity Scripted.DoRequest 1
    { pending := [replyOf completeBody, replyOf backupListBody] }
    { pending := [replyOf backupListBody],
      calls := [testVM.backupRequest (some { Name := "backup_name", Destination := "1" })] }
    { pending := [],
      calls := [testVM.backupRequest (some { Name := "backup_name", Destination := "1" }),
        sampleBackups.listRequest { Filters := [("id", "1")] }] }
    completeTask { ObjectType := "", ObjectId := "1" } [] rfl
  ⟨h.1 sampleVMs testVM "clone1" false testVM (submitted_complete _ _) rfl,
   hb.2.2.1 sampleBackups testVM (some { Name := "backup_name" })
     (some { Name := "backup_name", Destination := "1" }) (some { Id := "1" })
     { Name := "backup_name", Id := "1" } rfl (submitted_complete _ _) rfl⟩

/-- C17, on the code: the task fails with error code 17 and no affected resource. The message
ends with `string(task.ErrorCode)`, the one rune U+0011, and the decimal 17 is nowhere in
it; so for Clone, so for SetPolicy. -/
theorem error_message_has_rune_for_code :
    testVM.Clone Scripted.DoRequest sampleVMs 1 { pending := [replyOf failedEmptyBody] }
        "clone1" false =
      .ret ((none, some (.errorf
          ("Clone was not successful. Error code:" ++ String.singleton (Char.ofNat 17)))),
        { pending := [], calls := [testVM.cloneRequest "clone1" false] }) ∧
    testVM.SetPolicy Scripted.DoRequest 1 { pending := [replyOf failedEmptyBody] }
        (some testPolicy) =
      .ret (some (.errorf
          ("Set policy was not successful. Error code:" ++ String.singleton (Char.ofNat 17))),
        { pending := [], calls := [testVM.setPolicyRequest testPolicy] }) ∧
    Itoa 17 = "17" ∧
    ¬ (Itoa 17).toList <:+:
      ("Clone was not successful. Error code:" ++ String.singleton (Char.ofNat 17)).toList ∧
    ¬ (Itoa 17).toList <:+:
      ("Set policy was not successful. Error code:" ++ String.singleton (Char.ofNat 17)).toList :=
  ⟨rfl, rfl, rfl, by decide, by decide⟩

/-- C18, on the code: the list is not empty and the task ends FAILED with no affected
resource. Both batch operations return a nil error, where SetPolicy of the single VM returns
an error on the same answer. -/
theorem batch_set_policy_ignores_task :
    VirtualMachineResource.SetPolicyForMultipleVMs Scripted.DoRequest 1
        { pending := [replyOf failedEmptyBody] } (some testPolicy) [some testVM] =
      .ret (none, { pending := [],
                    calls := [VirtualMachineResource.setPolicyRequest testPolicy ["1"]] }) ∧
    PersistentVolumeResource.SetPolicyForMultiplePVs Scripted.DoRequest 1
        { pending := [replyOf failedEmptyBody] } (some testPolicy) [some { Id := "1" }] =
      .ret (none, { pending := [],
                    calls := [PersistentVolumeResource.setPolicyRequest testPolicy ["1"]] }) ∧
    testVM.SetPolicy Scripted.DoRequest 1 { pending := [replyOf failedEmptyBody] }
        (some testPolicy) =
      .ret (some (.errorf ("Set policy was not successful. Error code:" ++ runeString 17)),
        { pending := [], calls := [testVM.setPolicyRequest testPolicy] }) :=
  ⟨rfl, rfl, rfl⟩

/-- C20, on the code: the task completes with the object id 1 and the lookup by that id fails,
once because the list is empty, once because the request fails, once because the response
is not JSON. Clone returns a nil entity and a nil error each time, and so does CreateBackup
of a persistent volume on the empty list. -/
theorem lookup_error_is_dropped :
    testVM.Clone Scripted.DoRequest sampleVMs 1
        { pending := [replyOf completeBody, replyOf emptyListBody] } "clone1" false =
      .ret ((none, none),
        { pending := [],
          calls := [testVM.cloneRequest "clone1" false,
            sampleVMs.listRequest { Filters := [("id", "1")] }] }) ∧
    sampleVMs.GetById Scripted.DoRequest
        { pending := [replyOf emptyListBody], calls := [testVM.cloneRequest "clone1" false] }
        "1" =
      .ret ((none, some (.errorf "Resource doesn't exist")),
        { pending := [],
          calls := [testVM.cloneRequest "clone1" false,
            sampleVMs.listRequest { Filters := [("id", "1")] }] }) ∧
    testVM.Clone Scripted.DoRequest sampleVMs 1
        { pending := [replyOf completeBody, (none, some (.transport "connection refused"))] }
        "clone1" false =
      .ret ((none, none),
        { pending := [],
          calls := [testVM.cloneRequest "clone1" false,
            sampleVMs.listRequest { Filters := [("id", "1")] }] }) ∧
    testVM.Clone Scripted.DoRequest sampleVMs 1
        { pending := [replyOf completeBody, replyOf (.text "Bad Gateway")] } "clone1" false =
      .ret ((none, none),
        { pending := [],
          calls := [testVM.cloneRequest "clone1" false,
            sampleVMs.listRequest { Filters := [("id", "1")] }] }) ∧
    PersistentVolume.CreateBackup Scripted.DoRequest sampleBackups 1
        { pending := [replyOf completeBody, replyOf emptyListBody] } { Id := "1" }
        (some { Name := "backup_name" }) none =
      .ret ((none, none),
        { pending := [],
          calls := [PersistentVolume.backupRequest { Id := "1" } (some { Name := "backup_name" }),
            sampleBackups.listRequest { Filters := [("id", "1")] }] }) :=
  ⟨rfl, rfl, rfl, rfl, rfl⟩

/-! ## Query strings: escaping and its inverse -/

theorem char_toNat_lt (c : Char) : c.toNat < 0x110000 := by
  have h := c.valid
  simp only [UInt32.isValidChar, Nat.isValidChar] at h
  simp only [Char.toNat]
  omega

theorem toNat_ofNat_ascii (b : Nat) (hb : b < 128) : (Char.ofNat b).toNat = b := by
  have hv : b.isValidChar := Or.inl (by omega)
  simp [Char.ofNat, hv, Char.toNat, Char.ofNatAux, UInt32.toNat]

theorem utf8Bytes_lt (c : Char) : ∀ b ∈ utf8Bytes c, b < 256 := by
  have h := char_toNat_lt c
  intro b hb
  unfold utf8Bytes at hb
  split_ifs at hb <;> simp at hb <;> omega

theorem utf8_lt (s : String) : ∀ b ∈ utf8 s, b < 256 := by
  intro b hb
  simp only [utf8, List.mem_flatMap] at hb
  obtain ⟨c, -, hc⟩ := hb
  exact utf8Bytes_lt c b hc

theorem char_eq_of_toNat_eq (c d : Char) (h : c.toNat = d.toNat) : c = d := by
  apply Char.ext
  apply UInt32.ext
  simpa [Char.toNat] using h

theorem utf8Bytes_append_inj (c d : Char) (xs ys : List Nat)
    (h : utf8Bytes c ++ xs = utf8Bytes d ++ ys) : c = d ∧ xs = ys := by
  have hc := char_toNat_lt c
  have hd := char_toNat_lt d
  unfold utf8Bytes at h
  split_ifs at h <;> simp at h <;>
    first
      | (exfalso; omega)
      | (refine ⟨char_eq_of_toNat_eq c d ?_, ?_⟩
         · omega
         · simp_all)

theorem utf8Bytes_ne_nil (c : Char) : utf8Bytes c ≠ [] := by
  unfold utf8Bytes
  split_ifs <;> simp

theorem utf8_toList_inj : ∀ (s t : List Char),
    s.flatMap utf8Bytes = t.flatMap utf8Bytes → s = t
  | [], [] => fun _ => rfl
  | [], d :: t => fun h => by
    exfalso
    simp only [List.flatMap_nil, List.flatMap_cons] at h
    have := utf8Bytes_ne_nil d
    cases hd : utf8Bytes d with
    | nil => exact this hd
    | cons a as => rw [hd] at h; simp at h
  | c :: s, [] => fun h => by
    exfalso
    simp only [List.flatMap_nil, List.flatMap_cons] at h
    have := utf8Bytes_ne_nil c
    cases hc : utf8Bytes c with
    | nil => exact this hc
    | cons a as => rw [hc] at h; simp at h
  | c :: s, d :: t => fun h => by
    simp only [List.flatMap_cons] at h
    obtain ⟨hcd, hst⟩ := utf8Bytes_append_inj c d _ _ h
    rw [hcd, utf8_toList_inj s t hst]

theorem utf8_inj (s t : String) (h : utf8 s = utf8 t) : s = t := by
  have := utf8_toList_inj s.toList t.toList h
  cases s; cases t
  simp_all [String.toList]

theorem unhex_upperhex (n : Nat) (h : n < 16) : unhex (upperhex n) = some n := by
  interval_cases n <;> rfl

theorem upperhex_safe (n : Nat) (h : n < 16) :
    upperhex n ≠ '&' ∧ upperhex n ≠ '=' ∧ upperhex n ≠ ';' := by
  interval_cases n <;> decide

theorem unreserved_bounds (b : Nat)
    (h : ((48 ≤ b && b ≤ 57) || (65 ≤ b && b ≤ 90) || (97 ≤ b && b ≤ 122) ||
      [45, 95, 46, 126].contains b) = true) :
    b < 128 ∧ b ≠ 37 ∧ b ≠ 43 ∧ b ≠ 38 ∧ b ≠ 61 ∧ b ≠ 59 := by
  simp at h
  omega

theorem ne_of_toNat_ne (c d : Char) (h : c.toNat ≠ d.toNat) : c ≠ d :=
  fun e => h (congrArg Char.toNat e)

theorem escapeByte_safe (b : Nat) (hb : b < 256) :
    ∀ c ∈ escapeByte b, c ≠ '&' ∧ c ≠ '=' ∧ c ≠ ';' := by
  intro c hc
  unfold escapeByte at hc
  split_ifs at hc with h1 h2
  · obtain ⟨hlt, -, -, h38, h61, h59⟩ := unreserved_bounds b h1
    simp only [List.mem_singleton] at hc
    subst hc
    have ht := toNat_ofNat_ascii b hlt
    refine ⟨ne_of_toNat_ne _ _ ?_, ne_of_toNat_ne _ _ ?_, ne_of_toNat_ne _ _ ?_⟩ <;>
      rw [ht] <;> simpa using (by assumption)
  · simp only [List.mem_singleton] at hc
    subst hc
    decide
  · simp only [List.mem_cons, List.mem_singleton, List.not_mem_nil, or_false] at hc
    rcases hc with rfl | rfl | rfl
    · decide
    · exact upperhex_safe _ (by omega)
    · exact upperhex_safe _ (by omega)

theorem unescapeQuery_plain (c : Char) (rest : List Char) (hp : c ≠ '%') (hq : c ≠ '+') :
    unescapeQuery (c :: rest) =
      (unescapeQuery rest).map (fun bytes => utf8Bytes c ++ bytes) := by
  conv_lhs => unfold unescapeQuery
  simp [hp, hq]

theorem unescapeQuery_plus (rest : List Char) :
    unescapeQuery ('+' :: rest) = (unescapeQuery rest).map (fun bytes => 32 :: bytes) := by
  conv_lhs => unfold unescapeQuery
  simp

theorem unescapeQuery_percent (hi lo : Char) (rest : List Char) :
    unescapeQuery ('%' :: hi :: lo :: rest) =
      match unhex hi, unhex lo, unescapeQuery rest with
      | some h, some l, some bytes => some ((h * 16 + l) :: bytes)
      | _, _, _ => none := by
  conv_lhs => unfold unescapeQuery
  simp

theorem unescapeQuery_escapeByte (b : Nat) (hb : b < 256) (rest : List Char) :
    unescapeQuery (escapeByte b ++ rest) =
      (unescapeQuery rest).map (fun bytes => b :: bytes) := by
  unfold escapeByte
  split_ifs with h1 h2
  · obtain ⟨hlt, h37, h43, -, -, -⟩ := unreserved_bounds b h1
    have ht := toNat_ofNat_ascii b hlt
    have hp : Char.ofNat b ≠ '%' := ne_of_toNat_ne _ _ (by rw [ht]; simpa using h37)
    have hq : Char.ofNat b ≠ '+' := ne_of_toNat_ne _ _ (by rw [ht]; simpa using h43)
    have hu : utf8Bytes (Char.ofNat b) = [b] := by
      simp [utf8Bytes, ht, hlt]
    simp [unescapeQuery_plain _ _ hp hq, hu]
  · subst h2
    simp [unescapeQuery_plus]
  · have e1 := unhex_upperhex (b / 16) (by omega)
    have e2 := unhex_upperhex (b % 16) (by omega)
    have e3 : b / 16 * 16 + b % 16 = b := by omega
    simp only [List.cons_append, List.nil_append, unescapeQuery_percent, e1, e2]
    cases hr : unescapeQuery rest <;> simp [e3]

theorem escaped_safe (bytes : List Nat) (hb : ∀ b ∈ bytes, b < 256) :
    ∀ c ∈ bytes.flatMap escapeByte, c ≠ '&' ∧ c ≠ '=' ∧ c ≠ ';' := by
  intro c hc
  simp only [List.mem_flatMap] at hc
  obtain ⟨b, hmem, hcb⟩ := hc
  exact escapeByte_safe b (hb b hmem) c hcb

theorem unescapeQuery_escaped (bytes : List Nat) (hb : ∀ b ∈ bytes, b < 256) :
    unescapeQuery (bytes.flatMap escapeByte) = some bytes := by
  induction bytes with
  | nil => rfl
  | cons b bs ih =>
    have h1 : b < 256 := hb b (by simp)
    have h2 : ∀ x ∈ bs, x < 256 := fun x hx => hb x (by simp [hx])
    simp only [List.flatMap_cons]
    rw [unescapeQuery_escapeByte b h1, ih h2]
    rfl

theorem QueryEscape_toList (s : String) :
    (QueryEscape s).toList = (utf8 s).flatMap escapeByte := rfl

theorem QueryEscape_safe (s : String) :
    ∀ c ∈ (QueryEscape s).toList, c ≠ '&' ∧ c ≠ '=' ∧ c ≠ ';' :=
  escaped_safe (utf8 s) (utf8_lt s)

theorem unescapeQuery_QueryEscape (s : String) :
    unescapeQuery (QueryEscape s).toList = some (utf8 s) :=
  unescapeQuery_escaped (utf8 s) (utf8_lt s)

/-! ## Query strings: encoding and decoding -/

theorem cutAt_append (sep : Char) (xs ys : List Char) (h : ∀ c ∈ xs, c ≠ sep) :
    cutAt sep (xs ++ sep :: ys) = (xs, ys) := by
  induction xs with
  | nil => simp [cutAt]
  | cons x xs ih =>
    have hx : x ≠ sep := h x (by simp)
    have ih' := ih (fun c hc => h c (by simp [hc]))
    simp [cutAt, hx, ih']

theorem splitAmp_plain (xs : List Char) (h : ∀ c ∈ xs, c ≠ '&') : splitAmp xs = [xs] := by
  induction xs with
  | nil => rfl
  | cons x xs ih =>
    have hx : x ≠ '&' := h x (by simp)
    have ih' := ih (fun c hc => h c (by simp [hc]))
    simp [splitAmp, hx, ih']

theorem splitAmp_append (xs ys : List Char) (h : ∀ c ∈ xs, c ≠ '&') :
    splitAmp (xs ++ '&' :: ys) = xs :: splitAmp ys := by
  induction xs with
  | nil => simp [splitAmp]
  | cons x xs ih =>
    have hx : x ≠ '&' := h x (by simp)
    have ih' := ih (fun c hc => h c (by simp [hc]))
    simp [splitAmp, hx, ih']

theorem piece_toList (kv : String × String) :
    (QueryEscape kv.1 ++ "=" ++ QueryEscape kv.2).toList =
      (QueryEscape kv.1).toList ++ '=' :: (QueryEscape kv.2).toList := by
  simp [String.toList, String.data_append]

theorem piece_safe (kv : String × String) :
    ∀ c ∈ (QueryEscape kv.1 ++ "=" ++ QueryEscape kv.2).toList, c ≠ '&' ∧ c ≠ ';' := by
  intro c hc
  rw [piece_toList] at hc
  simp only [List.mem_append, List.mem_cons] at hc
  rcases hc with h | h | h
  · exact ⟨(QueryEscape_safe kv.1 c h).1, (QueryEscape_safe kv.1 c h).2.2⟩
  · subst h
    decide
  · exact ⟨(QueryEscape_safe kv.2 c h).1, (QueryEscape_safe kv.2 c h).2.2⟩

theorem parsePiece_piece (pairs : List (List Nat × List Nat)) (err : Option GoError)
    (kv : String × String) :
    parsePiece pairs err (QueryEscape kv.1 ++ "=" ++ QueryEscape kv.2).toList =
      (pairs ++ [bytesOf kv], err) := by
  have hsemi : (QueryEscape kv.1 ++ "=" ++ QueryEscape kv.2).toList.contains ';' = false := by
    rw [Bool.eq_false_iff]
    intro hc
    have hm : ';' ∈ (QueryEscape kv.1 ++ "=" ++ QueryEscape kv.2).toList := by
      simpa using hc
    exact (piece_safe kv ';' hm).2 rfl
  have hne : (QueryEscape kv.1 ++ "=" ++ QueryEscape kv.2).toList.isEmpty = false := by
    rw [piece_toList]
    cases (QueryEscape kv.1).toList <;> rfl
  have hcut : cutAt '=' (QueryEscape kv.1 ++ "=" ++ QueryEscape kv.2).toList =
      ((QueryEscape kv.1).toList, (QueryEscape kv.2).toList) := by
    rw [piece_toList]
    exact cutAt_append '=' _ _ (fun c hc => (QueryEscape_safe kv.1 c hc).2.1)
  simp only [parsePiece, hsemi, hne, hcut, unescapeQuery_QueryEscape, bytesOf]
  simp

theorem joinAmp_cons_cons (p q : String) (rest : List String) :
    (joinAmp (p :: q :: rest)).toList = p.toList ++ '&' :: (joinAmp (q :: rest)).toList := by
  simp [joinAmp, String.toList, String.data_append]

/-- Decoding what `Encode` writes for a list of pairs gives back the pairs, as bytes, in
order and without error. -/
theorem parsePieces_joinAmp (flat : List (String × String)) :
    ∀ pairs : List (List Nat × List Nat),
      parsePieces pairs none
          (splitAmp (joinAmp (flat.map
            (fun kv => QueryEscape kv.1 ++ "=" ++ QueryEscape kv.2))).toList) =
        (pairs ++ flat.map bytesOf, none) := by
  induction flat with
  | nil =>
    intro pairs
    simp [joinAmp, splitAmp, parsePieces, parsePiece]
  | cons kv rest ih =>
    intro pairs
    cases rest with
    | nil =>
      simp only [List.map_cons, List.map_nil, joinAmp]
      rw [splitAmp_plain _ (fun c hc => (piece_safe kv c hc).1)]
      simp only [parsePieces, parsePiece_piece]
    | cons kv2 rest2 =>
      simp only [List.map_cons] at ih ⊢
      rw [joinAmp_cons_cons, splitAmp_append _ _ (fun c hc => (piece_safe kv c hc).1)]
      simp only [parsePieces, parsePiece_piece]
      rw [ih]
      simp

theorem pieces_eq_flat (v : Values) :
    v.pieces = v.flat.map (fun kv => QueryEscape kv.1 ++ "=" ++ QueryEscape kv.2) := by
  simp [Values.pieces, Values.flat, List.map_flatMap, Function.comp_def]

theorem ParseQuery_Encode (v : Values) :
    ParseQuery v.Encode = (v.flat.map bytesOf, none) := by
  simp only [ParseQuery, Values.Encode, pieces_eq_flat]
  simpa using parsePieces_joinAmp v.flat []

/-! ## Query strings: the value of limit -/

theorem firstOf_append {α β : Type} [DecidableEq α] (key : α) (l1 l2 : List (α × β)) :
    firstOf key (l1 ++ l2) = (firstOf key l1).orElse (fun _ => firstOf key l2) := by
  induction l1 with
  | nil => rfl
  | cons kv rest ih =>
    by_cases h : kv.1 = key <;> simp [firstOf, h, ih]

theorem firstOf_map_bytesOf (key : String) (flat : List (String × String)) :
    firstOf (utf8 key) (flat.map bytesOf) = (firstOf key flat).map utf8 := by
  induction flat with
  | nil => rfl
  | cons kv rest ih =>
    by_cases h : kv.1 = key
    · simp [firstOf, bytesOf, h]
    · have h' : utf8 kv.1 ≠ utf8 key := fun e => h (utf8_inj _ _ e)
      simp only [List.map_cons, firstOf, bytesOf, h, h', if_false]
      exact ih

theorem firstOf_values_ne (key k : String) (values : List String) (h : k ≠ key) :
    firstOf key (values.map (fun value => (k, value))) = none := by
  induction values with
  | nil => rfl
  | cons x xs ih => simp [firstOf, h, ih]

theorem firstOf_flatMap (v : Values) (key : String) (keys : List String) (hk : key ∈ keys) :
    firstOf key (keys.flatMap (fun k => (v.values k).map (fun value => (k, value)))) =
      (v.values key).head? := by
  induction keys with
  | nil => simp at hk
  | cons k ks ih =>
    simp only [List.flatMap_cons, firstOf_append]
    by_cases h : k = key
    · subst h
      cases hv : v.values k with
      | nil =>
        simp only [List.map_nil, firstOf, Option.orElse, List.head?_nil]
        by_cases hks : k ∈ ks
        · rw [ih hks, hv]; rfl
        · clear ih hk
          induction ks with
          | nil => rfl
          | cons k2 ks2 ih2 =>
            have hne : k2 ≠ k := fun e => hks (by simp [e])
            have hks2 : k ∉ ks2 := fun hm => hks (by simp [hm])
            simp only [List.flatMap_cons, firstOf_append, firstOf_values_ne k k2 _ hne,
              Option.orElse]
            exact ih2 hks2
      | cons x xs => simp [firstOf]
    · have hks : key ∈ ks := by
        rcases List.mem_cons.mp hk with e | e
        · exact absurd e.symm h
        · exact e
      rw [firstOf_values_ne key k _ h]
      simpa [Option.orElse] using ih hks

theorem insertKey_perm (key : String) (keys : List String) :
    (insertKey key keys).Perm (key :: keys) := by
  induction keys with
  | nil => exact List.Perm.refl _
  | cons k ks ih =>
    unfold insertKey
    split
    · exact List.Perm.refl _
    · exact (List.Perm.cons k ih).trans (List.Perm.swap key k ks)

theorem sortStrings_perm (keys : List String) : (sortStrings keys).Perm keys := by
  induction keys with
  | nil => exact List.Perm.refl _
  | cons k ks ih =>
    exact (insertKey_perm k (sortStrings ks)).trans (List.Perm.cons k ih)

theorem values_ne_nil_mem (v : Values) (key : String) (h : v.values key ≠ []) :
    key ∈ v.map (fun kv => kv.1) := by
  induction v with
  | nil => simp [Values.values, List.lookup] at h
  | cons kv rest ih =>
    by_cases hk : key = kv.1
    · simp [hk]
    · have hb : (key == kv.1) = false := by simpa using hk
      obtain ⟨a, b⟩ := kv
      simp only [Values.values, List.lookup, hb] at h
      simp only [List.map_cons, List.mem_cons]
      exact Or.inr (ih h)

theorem head_lookup_map (g : String × List String → String × List String)
    (hg1 : ∀ kv, (g kv).1 = kv.1)
    (hg2 : ∀ kv x, kv.2.head? = some x → (g kv).2.head? = some x)
    (key x : String) (v : Values)
    (h : ((v.lookup key).getD []).head? = some x) :
    (((v.map g).lookup key).getD []).head? = some x := by
  induction v with
  | nil => simp [List.lookup] at h
  | cons kv rest ih =>
    have e : g kv = ((g kv).1, (g kv).2) := rfl
    obtain ⟨a, bs⟩ := kv
    rw [List.map_cons, e, hg1]
    cases hk : (key == a) with
    | true =>
      simp only [List.lookup, hk, Option.getD_some] at h ⊢
      exact hg2 (a, bs) x h
    | false =>
      simp only [List.lookup, hk] at h ⊢
      exact ih h

theorem head_lookup_append (key x : String) (v w : Values)
    (h : ((v.lookup key).getD []).head? = some x) :
    ((((v ++ w).lookup key)).getD []).head? = some x := by
  induction v with
  | nil => simp [List.lookup] at h
  | cons kv rest ih =>
    obtain ⟨a, bs⟩ := kv
    cases hk : (key == a) with
    | true =>
      simp only [List.cons_append, List.lookup, hk, Option.getD_some] at h ⊢
      exact h
    | false =>
      simp only [List.cons_append, List.lookup, hk] at h ⊢
      exact ih h

theorem head_values_Add (v : Values) (key k value x : String)
    (h : (v.values key).head? = some x) : ((v.Add k value).values key).head? = some x := by
  unfold Values.Add
  split
  · apply head_lookup_map _ _ _ key x v h
    · intro kv
      split <;> rfl
    · intro kv y hy
      split
      · cases hb : kv.2 with
        | nil => rw [hb] at hy; simp at hy
        | cons b bs => rw [hb] at hy; simpa using hy
      · exact hy
  · exact head_lookup_append key x v _ h

theorem head_values_addAll (filters : StringMap) :
    ∀ (v : Values) (key x : String), (v.values key).head? = some x →
      ((addAll v filters).values key).head? = some x := by
  induction filters with
  | nil => intro v key x h; exact h
  | cons kv rest ih =>
    intro v key x h
    obtain ⟨k, value⟩ := kv
    exact ih _ key x (head_values_Add v key k value x h)

theorem limit_head (p : GetAllParams) :
    (p.values.values "limit").head? = some (Itoa (if p.Limit < 1 then 500 else p.Limit)) := by
  have h0 : (Values.values (Values.Add [] "limit" (Itoa (if p.Limit < 1 then 500 else p.Limit)))
      "limit").head? = some (Itoa (if p.Limit < 1 then 500 else p.Limit)) := rfl
  have h7 := head_values_Add _ "limit" "show_optional_fields" (FormatBool p.ShowOptionalFields) _
    (head_values_Add _ "limit" "case" p.Case _
    (head_values_Add _ "limit" "fields" p.Fields _
    (head_values_Add _ "limit" "order" p.Order _
    (head_values_Add _ "limit" "sort" p.Sort_ _
    (head_values_Add _ "limit" "offset" (Itoa p.Offset) _ h0)))))
  unfold GetAllParams.values
  simp only
  split
  · exact head_values_addAll p.Filters _ _ _ h7
  · exact h7

/-- C12: for every GetAllParams, the query that QueryString produces, decoded as a URL query,
has for the key limit the value "500" when Limit is below 1 and the decimal of Limit
otherwise (the first value, should a filter be named limit as well). -/
theorem QueryString_limit (p : GetAllParams) :
    (ParseQuery p.QueryString).2 = none ∧
    firstOf (utf8 "limit") (ParseQuery p.QueryString).1 =
      some (utf8 (if p.Limit < 1 then "500" else Itoa p.Limit)) := by
  have hhead := limit_head p
  have hmem : "limit" ∈ sortStrings (p.values.map (fun kv => kv.1)) := by
    apply (sortStrings_perm _).mem_iff.mpr
    apply values_ne_nil_mem
    intro hnil
    rw [hnil] at hhead
    simp at hhead
  have hflat : firstOf "limit" p.values.flat = (p.values.values "limit").head? :=
    firstOf_flatMap p.values "limit" _ hmem
  have hlimit : Itoa (if p.Limit < 1 then 500 else p.Limit) =
      if p.Limit < 1 then "500" else Itoa p.Limit := by
    split <;> rfl
  simp only [GetAllParams.QueryString, ParseQuery_Encode, firstOf_map_bytesOf, hflat, hhead,
    hlimit, Option.map_some', and_self]

/-! ## Query strings: all parameters -/

theorem Add_absent (v : Values) (key value : String) (h : key ∉ v.map (fun kv => kv.1)) :
    v.Add key value = v ++ [(key, [value])] := by
  have hany : v.any (fun kv => kv.1 == key) = false := by
    rw [Bool.eq_false_iff]
    intro ht
    simp only [List.any_eq_true, beq_iff_eq] at ht
    obtain ⟨kv, hmem, hk⟩ := ht
    exact h (List.mem_map.mpr ⟨kv, hmem, hk⟩)
  simp [Values.Add, hany]

theorem addAll_fresh (filters : StringMap) :
    ∀ v : Values, (filters.map (fun kv => kv.1)).Nodup →
      (∀ kv ∈ filters, kv.1 ∉ v.map (fun kv => kv.1)) →
      addAll v filters = v ++ filters.map (fun kv => (kv.1, [kv.2])) := by
  induction filters with
  | nil => intro v _ _; simp [addAll]
  | cons kv rest ih =>
    intro v hnd hfresh
    obtain ⟨key, value⟩ := kv
    simp only [List.map_cons, List.nodup_cons] at hnd
    have h1 : key ∉ v.map (fun kv => kv.1) := hfresh (key, value) (by simp)
    simp only [addAll, Add_absent v key value h1]
    rw [ih _ hnd.2]
    · simp
    · intro kv2 hmem hin
      simp only [List.map_append, List.map_cons, List.map_nil, List.mem_append,
        List.mem_singleton] at hin
      rcases hin with hin | hin
      · exact hfresh kv2 (by simp [hmem]) hin
      · exact hnd.1 (hin ▸ List.mem_map.mpr ⟨kv2, hmem, rfl⟩)

theorem values_eq_entries (p : GetAllParams)
    (hmap : (p.Filters.map (fun kv => kv.1)).Nodup)
    (hstd : ∀ kv ∈ p.Filters, kv.1 ∉ standardNames) :
    p.values = (p.standard ++ p.Filters).map (fun kv => (kv.1, [kv.2])) := by
  have h7 : ∀ q : Values, q = p.standard.map (fun kv => (kv.1, [kv.2])) →
      (if p.Filters.length > 0 then addAll q p.Filters else q) =
        (p.standard ++ p.Filters).map (fun kv => (kv.1, [kv.2])) := by
    intro q hq
    have hall : addAll q p.Filters = q ++ p.Filters.map (fun kv => (kv.1, [kv.2])) := by
      apply addAll_fresh p.Filters q hmap
      intro kv hmem
      rw [hq]
      exact hstd kv hmem
    split
    · rw [hall, hq, List.map_append]
    · have hnil : p.Filters = [] := by
        cases hf : p.Filters with
        | nil => rfl
        | cons a b => simp_all
      rw [hnil, hq]
      simp
  exact h7 _ rfl

theorem lookup_entry (entries : List (String × String)) (kv : String × String)
    (hnd : (entries.map (fun kv => kv.1)).Nodup) (hmem : kv ∈ entries) :
    (entries.map (fun kv => (kv.1, [kv.2]))).lookup kv.1 = some [kv.2] := by
  induction entries with
  | nil => simp at hmem
  | cons e rest ih =>
    simp only [List.map_cons, List.nodup_cons] at hnd
    rcases List.mem_cons.mp hmem with h | h
    · subst h
      simp [List.lookup]
    · have hne : kv.1 ≠ e.1 := fun heq =>
        hnd.1 (heq ▸ List.mem_map.mpr ⟨kv, h, rfl⟩)
      have hb : (kv.1 == e.1) = false := by simpa using hne
      simp only [List.map_cons, List.lookup, hb]
      exact ih hnd.2 h

theorem flatMap_entries (entries part : List (String × String))
    (hnd : (entries.map (fun kv => kv.1)).Nodup) (hsub : ∀ kv ∈ part, kv ∈ entries) :
    (part.map (fun kv => kv.1)).flatMap
        (fun key => (Values.values (entries.map (fun kv => (kv.1, [kv.2]))) key).map
          (fun value => (key, value))) = part := by
  induction part with
  | nil => rfl
  | cons kv rest ih =>
    have h1 := lookup_entry entries kv hnd (hsub kv (by simp))
    simp only [List.map_cons, List.flatMap_cons, Values.values, h1, Option.getD_some,
      List.map_nil]
    have ih' := ih (fun x hx => hsub x (by simp [hx]))
    simp only [Values.values] at ih'
    rw [ih']
    rfl

theorem flat_perm_entries (entries : List (String × String))
    (hnd : (entries.map (fun kv => kv.1)).Nodup) :
    (Values.flat (entries.map (fun kv => (kv.1, [kv.2])))).Perm entries := by
  have hkeys : (entries.map (fun kv => (kv.1, [kv.2]))).map (fun kv => kv.1) =
      entries.map (fun kv => kv.1) := by
    simp [List.map_map, Function.comp_def]
  unfold Values.flat
  rw [hkeys]
  have hp := (sortStrings_perm (entries.map (fun kv => kv.1))).flatMap_right
    (fun key => (Values.values (entries.map (fun kv => (kv.1, [kv.2]))) key).map
      (fun value => (key, value)))
  rw [flatMap_entries entries entries hnd (fun _ h => h)] at hp
  exact hp

theorem standard_keys (p : GetAllParams) : p.standard.map (fun kv => kv.1) = standardNames :=
  rfl

theorem parameters_nodup (p : GetAllParams)
    (hmap : (p.Filters.map (fun kv => kv.1)).Nodup)
    (hstd : ∀ kv ∈ p.Filters, kv.1 ∉ standardNames) :
    ((p.standard ++ p.Filters).map (fun kv => kv.1)).Nodup := by
  rw [List.map_append, standard_keys]
  apply List.Nodup.append (by decide) hmap
  intro key h1 h2
  obtain ⟨kv, hmem, hk⟩ := List.mem_map.mp h2
  exact hstd kv hmem (hk ▸ h1)

/-- C13: for every GetAllParams whose filters form a map (each key once) with no key among
the seven standard names, the query that QueryString produces decodes without error to
exactly the seven standard parameters and the filters, each key once with its one value:
limit as in C12, offset in decimal, sort, order, fields and case verbatim (also when empty),
show_optional_fields as true or false, and every filter key with its filter value. -/
theorem QueryString_decodes_to_parameters (p : GetAllParams)
    (hmap : (p.Filters.map (fun kv => kv.1)).Nodup)
    (hstd : ∀ kv ∈ p.Filters, kv.1 ∉ standardNames) :
    (ParseQuery p.QueryString).2 = none ∧
    (ParseQuery p.QueryString).1.Perm
      (([("limit", if p.Limit < 1 then "500" else Itoa p.Limit), ("offset", Itoa p.Offset),
         ("sort", p.Sort_), ("order", p.Order), ("fields", p.Fields), ("case", p.Case),
         ("show_optional_fields", if p.ShowOptionalFields then "true" else "false")] ++
        p.Filters).map bytesOf) ∧
    ((ParseQuery p.QueryString).1.map (fun kv => kv.1)).Nodup := by
  have hnd := parameters_nodup p hmap hstd
  have hperm := flat_perm_entries (p.standard ++ p.Filters) hnd
  rw [← values_eq_entries p hmap hstd] at hperm
  have hstandard : p.standard =
      [("limit", if p.Limit < 1 then "500" else Itoa p.Limit), ("offset", Itoa p.Offset),
       ("sort", p.Sort_), ("order", p.Order), ("fields", p.Fields), ("case", p.Case),
       ("show_optional_fields", if p.ShowOptionalFields then "true" else "false")] := by
    unfold GetAllParams.standard FormatBool
    congr 2
    split <;> rfl
  rw [← hstandard]
  simp only [GetAllParams.QueryString, ParseQuery_Encode, true_and]
  refine ⟨hperm.map bytesOf, ?_⟩
  have hkeys : (p.values.flat.map bytesOf).map (fun kv => kv.1) =
      (p.values.flat.map (fun kv => kv.1)).map utf8 := by
    simp [List.map_map, Function.comp_def, bytesOf]
  rw [hkeys]
  apply List.Nodup.map (fun a b => utf8_inj a b)
  exact (hperm.map (fun kv => kv.1)).nodup_iff.mpr hnd

theorem QueryString_decodes_to_parameters_witness :
    (nameFilter.Filters.map (fun kv => kv.1)).Nodup ∧
    (∀ kv ∈ nameFilter.Filters, kv.1 ∉ standardNames) ∧
    (ParseQuery nameFilter.QueryString).2 = none ∧
    (ParseQuery nameFilter.QueryString).1.Perm
      (([("limit", if nameFilter.Limit < 1 then "500" else Itoa nameFilter.Limit),
         ("offset", Itoa nameFilter.Offset), ("sort", nameFilter.Sort_),
         ("order", nameFilter.Order), ("fields", nameFilter.Fields), ("case", nameFilter.Case),
         ("show_optional_fields", if nameFilter.ShowOptionalFields then "true" else "false")] ++
        nameFilter.Filters).map bytesOf) ∧
    ((ParseQuery nameFilter.QueryString).1.map (fun kv => kv.1)).Nodup :=
  ⟨by decide, by decide, QueryString_decodes_to_parameters nameFilter (by decide) (by decide)⟩

/-- The query `QueryString` produces for the parameters of `TestVMGetAllWithFilter`. -/
theorem QueryString_nameFilter :
    nameFilter.QueryString =
      "case=&fields=&limit=500&name=testname&offset=0&order=&show_optional_fields=false&sort=" := by
  decide

/-! ## Headers -/

theorem lookup_map_value (g : String × String → String × String) (K v : String)
    (hg1 : ∀ kv, (g kv).1 = kv.1) (hg2 : ∀ kv, kv.1 = K → (g kv).2 = v) (h : Header) :
    (h.map g).lookup K = (h.lookup K).map (fun _ => v) := by
  induction h with
  | nil => rfl
  | cons kv rest ih =>
    have e : g kv = ((g kv).1, (g kv).2) := rfl
    have h2 := hg2 kv
    obtain ⟨a, b⟩ := kv
    rw [List.map_cons, e, hg1]
    cases hk : (K == a) with
    | true =>
      simp only [List.lookup, hk, Option.map_some']
      rw [h2 (by simpa using (beq_iff_eq.mp hk).symm)]
    | false =>
      simp only [List.lookup, hk]
      exact ih

theorem lookup_map_other (g : String × String → String × String) (K : String)
    (hg1 : ∀ kv, (g kv).1 = kv.1) (hg2 : ∀ kv, kv.1 = K → g kv = kv) (h : Header) :
    (h.map g).lookup K = h.lookup K := by
  induction h with
  | nil => rfl
  | cons kv rest ih =>
    have e : g kv = ((g kv).1, (g kv).2) := rfl
    have h2 := hg2 kv
    obtain ⟨a, b⟩ := kv
    rw [List.map_cons, e, hg1]
    cases hk : (K == a) with
    | true =>
      simp only [List.lookup, hk]
      rw [h2 (by simpa using (beq_iff_eq.mp hk).symm)]
    | false =>
      simp only [List.lookup, hk]
      exact ih

theorem lookup_append_single (K key v : String) (h : Header) :
    (h ++ [(key, v)]).lookup K =
      match h.lookup K with
      | some x => some x
      | none => if K = key then some v else none := by
  induction h with
  | nil =>
    by_cases hk : K = key
    · simp [List.lookup, hk]
    · have hb : (K == key) = false := by simpa using hk
      simp [List.lookup, hk, hb]
  | cons kv rest ih =>
    cases hb : K == kv.1
    · simp only [List.cons_append, List.lookup, hb]
      exact ih
    · simp [List.lookup, hb]

theorem lookup_none_of_not_any (K : String) (h : Header)
    (hany : h.any (fun kv => kv.1 == K) = false) : h.lookup K = none := by
  induction h with
  | nil => rfl
  | cons kv rest ih =>
    simp only [List.any_cons, Bool.or_eq_false_iff] at hany
    have hb : (K == kv.1) = false := by
      have := hany.1
      simp only [beq_eq_false_iff_ne, ne_eq] at this ⊢
      exact fun h => this h.symm
    simp only [List.lookup, hb]
    exact ih hany.2

theorem lookup_some_of_any (K : String) (h : Header)
    (hany : h.any (fun kv => kv.1 == K) = true) : ∃ x, h.lookup K = some x := by
  induction h with
  | nil => simp at hany
  | cons kv rest ih =>
    cases hb : K == kv.1
    · simp only [List.any_cons, Bool.or_eq_true] at hany
      rcases hany with h1 | h1
      · simp only [beq_iff_eq] at h1
        simp [h1] at hb
      · simp only [List.lookup, hb]
        exact ih h1
    · exact ⟨kv.2, by simp [List.lookup, hb]⟩

/-- After `Set(key, value)` the field `key` holds `value`. -/
theorem lookup_Set_same (h : Header) (key value : String) :
    (Header.Set h key value).lookup (CanonicalMIMEHeaderKey key) = some value := by
  unfold Header.Set
  split
  · rename_i hany
    obtain ⟨x, hx⟩ := lookup_some_of_any _ h hany
    rw [lookup_map_value _ _ value (fun kv => by split <;> rfl)
      (fun kv hk => by simp [hk]), hx]
    rfl
  · rename_i hany
    have hnone := lookup_none_of_not_any _ h (Bool.eq_false_iff.mpr hany)
    rw [lookup_append_single, hnone]
    simp

/-- The call `Set(key, value)` leaves every other field as it is. -/
theorem lookup_Set_other (h : Header) (key value K : String)
    (hne : CanonicalMIMEHeaderKey key ≠ K) :
    (Header.Set h key value).lookup K = h.lookup K := by
  unfold Header.Set
  split
  · refine lookup_map_other _ K (fun kv => by split <;> rfl) (fun kv hk => ?_) h
    have hb : (kv.1 == CanonicalMIMEHeaderKey key) = false := by
      rw [hk]
      simpa using fun e : K = CanonicalMIMEHeaderKey key => hne e.symm
    simp [hb]
  · rw [lookup_append_single]
    cases h.lookup K with
    | some x => rfl
    | none =>
      have hk : ¬K = CanonicalMIMEHeaderKey key := fun e => hne e.symm
      simp [hk]

/-- A loop of `Set` over entries none of which names the field `K` leaves `K` as it is. -/
theorem lookup_setAll_other (K : String) (visit : StringMap) :
    ∀ h : Header, (∀ kv ∈ visit, CanonicalMIMEHeaderKey kv.1 ≠ K) →
      (setAll h visit).lookup K = h.lookup K := by
  induction visit with
  | nil => intro h _; rfl
  | cons kv rest ih =>
    intro h hno
    obtain ⟨name, value⟩ := kv
    simp only [setAll]
    rw [ih _ (fun x hx => hno x (List.mem_cons_of_mem _ hx))]
    exact lookup_Set_other h name value K (hno (name, value) (List.mem_cons_self _ _))

/-- A loop of `Set` over entries of which one at least names the field `K`, and all that do
carry the value `v`, leaves `v` in `K`. -/
theorem lookup_setAll_value (K v : String) (visit : StringMap) :
    ∀ h : Header, (∃ kv ∈ visit, CanonicalMIMEHeaderKey kv.1 = K) →
      (∀ kv ∈ visit, CanonicalMIMEHeaderKey kv.1 = K → kv.2 = v) →
      (setAll h visit).lookup K = some v := by
  induction visit with
  | nil => intro h hex; obtain ⟨kv, hmem, -⟩ := hex; simp at hmem
  | cons kv rest ih =>
    intro h hex hall
    obtain ⟨name, value⟩ := kv
    simp only [setAll]
    by_cases hrest : ∃ kv ∈ rest, CanonicalMIMEHeaderKey kv.1 = K
    · exact ih _ hrest (fun x hx => hall x (List.mem_cons_of_mem _ hx))
    · have hno : ∀ kv ∈ rest, CanonicalMIMEHeaderKey kv.1 ≠ K :=
        fun x hx hk => hrest ⟨x, hx, hk⟩
      rw [lookup_setAll_other K rest _ hno]
      obtain ⟨x, hx, hk⟩ := hex
      rcases List.mem_cons.mp hx with hx | hx
      · subst hx
        have hv := hall (name, value) (List.mem_cons_self _ _) hk
        simp only at hk hv
        rw [← hk, ← hv]
        exact lookup_Set_same h name value
      · exact absurd hk (hno x hx)

/-! ## The map of request headers -/

theorem lookup_of_mem_nodup (m : StringMap) (kv : String × String)
    (hnd : (m.map (fun kv => kv.1)).Nodup) (hmem : kv ∈ m) : m.lookup kv.1 = some kv.2 := by
  induction m with
  | nil => simp at hmem
  | cons e rest ih =>
    simp only [List.map_cons, List.nodup_cons] at hnd
    obtain ⟨a, b⟩ := e
    rcases List.mem_cons.mp hmem with h | h
    · subst h
      simp [List.lookup]
    · have hne : kv.1 ≠ a := fun heq => hnd.1 (heq ▸ List.mem_map.mpr ⟨kv, h, rfl⟩)
      have hb : (kv.1 == a) = false := by simpa using hne
      simp only [List.lookup, hb]
      exact ih hnd.2 h

theorem mem_of_lookup (m : StringMap) (K v : String) (h : m.lookup K = some v) : (K, v) ∈ m := by
  induction m with
  | nil => simp [List.lookup] at h
  | cons e rest ih =>
    obtain ⟨a, b⟩ := e
    cases hk : (K == a) with
    | true =>
      simp only [List.lookup, hk, Option.some.injEq] at h
      have ha : K = a := beq_iff_eq.mp hk
      subst ha h
      exact List.mem_cons_self _ _
    | false =>
      simp only [List.lookup, hk] at h
      exact List.mem_cons_of_mem _ (ih h)

theorem lookup_none_of_not_mem (m : StringMap) (K : String)
    (h : K ∉ m.map (fun kv => kv.1)) : m.lookup K = none := by
  cases hl : m.lookup K with
  | none => rfl
  | some v => exact absurd (List.mem_map.mpr ⟨(K, v), mem_of_lookup m K v hl, rfl⟩) h

theorem assign_keys (m : StringMap) (key value : String) :
    (m.assign key value).map (fun kv => kv.1) =
      if key ∈ m.map (fun kv => kv.1) then m.map (fun kv => kv.1)
      else m.map (fun kv => kv.1) ++ [key] := by
  unfold StringMap.assign
  by_cases hany : m.any (fun kv => kv.1 == key) = true
  · have hmem : key ∈ m.map (fun kv => kv.1) := by
      simp only [List.any_eq_true, beq_iff_eq] at hany
      obtain ⟨kv, hkv, hk⟩ := hany
      exact List.mem_map.mpr ⟨kv, hkv, hk⟩
    rw [if_pos hany, if_pos hmem, List.map_map]
    apply List.map_congr_left
    intro kv _
    simp only [Function.comp]
    split
    · rename_i hk
      exact (beq_iff_eq.mp hk).symm
    · rfl
  · have hmem : key ∉ m.map (fun kv => kv.1) := by
      intro hin
      obtain ⟨kv, hkv, hk⟩ := List.mem_map.mp hin
      exact hany (List.any_eq_true.mpr ⟨kv, hkv, by simpa using hk⟩)
    rw [if_neg hany, if_neg hmem]
    simp

theorem assign_nodup (m : StringMap) (key value : String)
    (hnd : (m.map (fun kv => kv.1)).Nodup) : ((m.assign key value).map (fun kv => kv.1)).Nodup := by
  rw [assign_keys]
  split
  · exact hnd
  · rename_i hmem
    exact List.Nodup.append hnd (List.nodup_singleton key) (by simpa using hmem)

theorem mem_assign (m : StringMap) (key value : String) (kv : String × String)
    (h : kv ∈ m.assign key value) : kv ∈ m ∨ kv = (key, value) := by
  unfold StringMap.assign at h
  split at h
  · obtain ⟨x, hx, hkv⟩ := List.mem_map.mp h
    split at hkv
    · exact Or.inr hkv.symm
    · exact Or.inl (hkv ▸ hx)
  · rcases List.mem_append.mp h with h | h
    · exact Or.inl h
    · exact Or.inr (by simpa using h)

theorem lookup_assign (m : StringMap) (key value K : String) :
    (m.assign key value).lookup K = if K = key then some value else m.lookup K := by
  unfold StringMap.assign
  by_cases hany : m.any (fun kv => kv.1 == key) = true
  · rw [if_pos hany]
    by_cases hk : K = key
    · subst hk
      obtain ⟨x, hx⟩ := lookup_some_of_any K m hany
      rw [if_pos rfl]
      have e := lookup_map_value (fun kv => if kv.1 == K then (K, value) else kv) K value
        (fun kv => by
          show (if (kv.1 == K) = true then (K, value) else kv).1 = kv.1
          split
          · rename_i hb
            exact (beq_iff_eq.mp hb).symm
          · rfl)
        (fun kv hkv => by simp [hkv]) m
      rw [e, hx]
      rfl
    · rw [if_neg hk]
      refine lookup_map_other _ K (fun kv => ?_) (fun kv hkv => ?_) m
      · split
        · rename_i hb
          exact (beq_iff_eq.mp hb).symm
        · rfl
      · have hb : (kv.1 == key) = false := by
          rw [hkv]
          simpa using hk
        simp [hb]
  · rw [if_neg hany, lookup_append_single]
    have hnone := lookup_none_of_not_any key m (Bool.eq_false_iff.mpr hany)
    by_cases hk : K = key
    · subst hk
      simp [hnone]
    · cases m.lookup K with
      | some x => simp [hk]
      | none => simp [hk]

theorem foldl_assign_nodup (hs : StringMap) :
    ∀ m : StringMap, (m.map (fun kv => kv.1)).Nodup →
      ((hs.foldl (fun m kv => StringMap.assign m kv.1 kv.2) m).map (fun kv => kv.1)).Nodup := by
  induction hs with
  | nil => intro m h; exact h
  | cons kv rest ih => intro m h; exact ih _ (assign_nodup m kv.1 kv.2 h)

theorem mem_foldl_assign (hs : StringMap) :
    ∀ (m : StringMap) (kv : String × String),
      kv ∈ hs.foldl (fun m kv => StringMap.assign m kv.1 kv.2) m → kv ∈ m ∨ kv ∈ hs := by
  induction hs with
  | nil => intro m kv h; exact Or.inl h
  | cons e rest ih =>
    intro m kv h
    rcases ih _ kv h with h1 | h1
    · rcases mem_assign m e.1 e.2 kv h1 with h2 | h2
      · exact Or.inl h2
      · exact Or.inr (h2 ▸ List.mem_cons_self _ _)
    · exact Or.inr (List.mem_cons_of_mem _ h1)

theorem lookup_foldl_assign (hs : StringMap) (K : String) :
    ∀ m : StringMap, (hs.map (fun kv => kv.1)).Nodup →
      (hs.foldl (fun m kv => StringMap.assign m kv.1 kv.2) m).lookup K =
        match hs.lookup K with
        | some v => some v
        | none => m.lookup K := by
  induction hs with
  | nil => intro m _; rfl
  | cons e rest ih =>
    intro m hnd
    obtain ⟨a, b⟩ := e
    simp only [List.map_cons, List.nodup_cons] at hnd
    simp only [List.foldl_cons]
    rw [ih _ hnd.2, lookup_assign]
    cases hk : (K == a) with
    | true =>
      have ha : K = a := beq_iff_eq.mp hk
      subst ha
      rw [lookup_none_of_not_mem rest K hnd.1]
      simp [List.lookup]
    | false =>
      have ha : ¬K = a := by simpa using hk
      simp only [List.lookup, hk, if_neg ha]

/-- The keys of `req_headers`: the default content type and the keys of the caller. -/
theorem mem_requestHeaders (body : Option Payload) (headers : Option StringMap)
    (kv : String × String) (h : kv ∈ requestHeaders body headers) :
    kv.1 = "Content-Type" ∨ kv ∈ headers.getD [] := by
  have h0 : ∀ x ∈ (if body.isSome then
      StringMap.assign [] "Content-Type" "application/vnd.simplivity.v1+json" else []),
      x.1 = "Content-Type" := by
    intro x hx
    split at hx
    · rcases mem_assign [] _ _ x hx with h1 | h1
      · simp at h1
      · rw [h1]
    · simp at hx
  unfold requestHeaders at h
  cases headers with
  | none => exact Or.inl (h0 kv h)
  | some hs =>
    rcases mem_foldl_assign hs _ kv h with h1 | h1
    · exact Or.inl (h0 kv h1)
    · exact Or.inr h1

theorem requestHeaders_nodup (body : Option Payload) (headers : Option StringMap) :
    ((requestHeaders body headers).map (fun kv => kv.1)).Nodup := by
  have h0 : ((if body.isSome then
      StringMap.assign [] "Content-Type" "application/vnd.simplivity.v1+json" else []).map
      (fun kv => kv.1)).Nodup := by
    split
    · exact assign_nodup [] _ _ (by simp)
    · simp
  unfold requestHeaders
  cases headers with
  | none => exact h0
  | some hs => exact foldl_assign_nodup hs _ h0

/-- The entry of `req_headers` under the key Content-Type is what the caller's map holds
there, else the default when there is a body. -/
theorem requestHeaders_contentType (body : Option Payload) (headers : Option StringMap)
    (hmap : ((headers.getD []).map (fun kv => kv.1)).Nodup) :
    (requestHeaders body headers).lookup "Content-Type" = expectedContentType body headers := by
  have h0 : (if body.isSome then
      StringMap.assign [] "Content-Type" "application/vnd.simplivity.v1+json" else []).lookup
      "Content-Type" =
      if body.isSome then some "application/vnd.simplivity.v1+json" else none := by
    split
    · rw [lookup_assign]
      simp
    · rfl
  unfold requestHeaders expectedContentType
  cases headers with
  | none => simpa [List.lookup] using h0
  | some hs =>
    simp only [Option.getD_some] at hmap ⊢
    rw [lookup_foldl_assign hs _ _ hmap, h0]

/-- A loop of `Set` over a map in any order: when no key of the map is another spelling of
the field `K`, the field holds afterwards what the map holds under `K`, and what it held
before when the map has no such key. -/
theorem lookup_setAll_perm (K : String) (m visit : StringMap) (h : Header)
    (hK : CanonicalMIMEHeaderKey K = K) (hperm : visit.Perm m)
    (hnd : (m.map (fun kv => kv.1)).Nodup)
    (hspell : ∀ kv ∈ m, CanonicalMIMEHeaderKey kv.1 = K → kv.1 = K) :
    (setAll h visit).lookup K =
      match m.lookup K with
      | some v => some v
      | none => h.lookup K := by
  cases hl : m.lookup K with
  | some v =>
    apply lookup_setAll_value K v visit h
    · exact ⟨(K, v), hperm.mem_iff.mpr (mem_of_lookup m K v hl), hK⟩
    · intro kv hkv hc
      have hm := hperm.mem_iff.mp hkv
      have hk := hspell kv hm hc
      have := lookup_of_mem_nodup m kv hnd hm
      rw [hk, hl] at this
      exact (Option.some.inj this).symm
  | none =>
    apply lookup_setAll_other K visit h
    intro kv hkv hc
    have hm := hperm.mem_iff.mp hkv
    have hk := hspell kv hm hc
    have := lookup_of_mem_nodup m kv hnd hm
    rw [hk, hl] at this
    exact Option.noConfusion this

/-! ## What DoRequest sends -/

theorem NewRequest_header (env : Env) (c : Client) (method path query : String)
    (body : Option Payload) (req : Request)
    (h : c.NewRequest env method path query body = .ret (.ok req)) : req.Header = [] := by
  have hnew : ∀ (url : URL) (text : Option String),
      httpNewRequest env method url text = .ok req → req.Header = [] := by
    intro url text hreq
    unfold httpNewRequest at hreq
    split at hreq
    · exact Except.noConfusion hreq
    · rw [← Except.ok.inj hreq]
  unfold Client.NewRequest at h
  split at h
  · exact absurd (Run.ret.inj h) (fun e => Except.noConfusion e)
  · split at h
    · exact Run.noConfusion h
    · exact hnew _ _ (Run.ret.inj h)
  · split at h
    · exact Run.noConfusion h
    · exact hnew _ _ (Run.ret.inj h)

/-- A call of `SetAccessToken` sends one request at most. -/
theorem SetAccessToken_log (env : Env) (c : Client) :
    ∃ tok : List Request, tok.length ≤ 1 ∧ (c.SetAccessToken env).2.client = c.client ++ tok := by
  cases hurl : c.CreateResourceURL env "/oauth/token" "" with
  | error err => exact ⟨[], by simp, by simp [Client.SetAccessToken, hurl]⟩
  | ok endpoint =>
    cases hnew : env.newRequestError "POST" endpoint with
    | some err =>
      exact ⟨[], by simp, by simp [Client.SetAccessToken, hurl, httpNewRequest, hnew]⟩
    | none =>
      refine ⟨[c.tokenRequest endpoint], by simp, ?_⟩
      rw [SetAccessToken_request env c endpoint hurl hnew]
      have hc1 := Do_client env c (c.tokenRequest endpoint)
      rcases hd : c.Do env (c.tokenRequest endpoint) with ⟨⟨data, err, he⟩, c1⟩
      rw [hd] at hc1
      simp only at hc1
      subst hc1
      cases err with
      | some e => rfl
      | none =>
        cases he with
        | some e => rfl
        | none =>
          simp only
          cases auth.Unmarshal (data.getD (.text "")) {} with
          | error e => rfl
          | ok a => rfl

/-- The runs of `DoRequest`: a panic when the URL does not parse; nothing sent when the
request cannot be built; one send; or, after an invalid-token envelope, a call of
`SetAccessToken` and a second send with the headers set again. -/
theorem DoRequest_log (env : Env) (c : Client) (method path queryStr : String)
    (body : Option Payload) (headers : Option StringMap) :
    (∃ msg, c.DoRequest env method path queryStr body headers = .fault msg ∧
      c.NewRequest env method path queryStr body = .fault msg) ∨
    (∃ err, c.DoRequest env method path queryStr body headers = .ret ((none, some err), c)) ∨
    ∃ req first, c.NewRequest env method path queryStr body = .ret (.ok req) ∧
      first = c.SetHeaders req (env.rangeOrder c.client (requestHeaders body headers)) ∧
      ((∃ r, c.DoRequest env method path queryStr body headers = .ret (r, c.sent first)) ∨
       (∃ r e second, (c.Do env first).1 = (none, none, some e) ∧ e.Error = "invalid_token" ∧
         second = (c.refreshed env first).SetHeaders first
           (env.rangeOrder (c.refreshed env first).client (requestHeaders body headers)) ∧
         c.DoRequest env method path queryStr body headers =
           .ret (r, (c.refreshed env first).sent second))) := by
  have hout : ∀ x, c.NewRequest env method path queryStr body = x → x ≠ .outOfFuel := by
    intro x hx hx2
    subst hx
    unfold Client.NewRequest at hx2
    repeat' split at hx2
    all_goals exact Run.noConfusion hx2
  cases hreq : c.NewRequest env method path queryStr body with
  | fault msg => exact Or.inl ⟨msg, by simp only [Client.DoRequest, hreq], rfl⟩
  | outOfFuel => exact absurd rfl (hout _ hreq)
  | ret x =>
    cases x with
    | error err => exact Or.inr (Or.inl ⟨err, by simp only [Client.DoRequest, hreq]⟩)
    | ok req =>
      refine Or.inr (Or.inr ⟨req, _, rfl, rfl, ?_⟩)
      rcases hdo : c.Do env
        (c.SetHeaders req (env.rangeOrder c.client (requestHeaders body headers))) with
        ⟨⟨data, err, he⟩, c1⟩
      have hc1 := Do_client env c
        (c.SetHeaders req (env.rangeOrder c.client (requestHeaders body headers)))
      rw [hdo] at hc1
      simp only at hc1
      cases he with
      | none =>
        refine Or.inl ⟨(data, err), ?_⟩
        simp only [Client.DoRequest, hreq, hdo, hc1]
        rfl
      | some e =>
        obtain ⟨hd, herr, -⟩ := Do_httpError env c c1 _ data err e hdo
        subst hd herr
        by_cases htoken : e.Error = "invalid_token"
        · refine Or.inr ?_
          rcases hdo2 : (c1.SetAccessToken env).2.Do env
            ((c1.SetAccessToken env).2.SetHeaders
              (c.SetHeaders req (env.rangeOrder c.client (requestHeaders body headers)))
              (env.rangeOrder (c1.SetAccessToken env).2.client (requestHeaders body headers)))
            with ⟨⟨data2, err2, he2⟩, c3⟩
          have hc3 := Do_client env (c1.SetAccessToken env).2
            ((c1.SetAccessToken env).2.SetHeaders
              (c.SetHeaders req (env.rangeOrder c.client (requestHeaders body headers)))
              (env.rangeOrder (c1.SetAccessToken env).2.client (requestHeaders body headers)))
          rw [hdo2] at hc3
          simp only at hc3
          subst hc1
          cases he2 with
          | none =>
            refine ⟨(data2, err2), e, _, rfl, htoken, rfl, ?_⟩
            simp only [Client.DoRequest, hreq, hdo, htoken, if_true, hdo2, hc3]
            rfl
          | some e2 =>
            refine ⟨(data2, some (.errorf ("Error: Status code:" ++ e2.Status ++ " - " ++
              e2.Message))), e, _, rfl, htoken, rfl, ?_⟩
            simp only [Client.DoRequest, hreq, hdo, htoken, if_true, hdo2, hc3]
            rfl
        · refine Or.inl ⟨(none, some (.errorf ("Error: Status code:" ++ e.Status ++ " - " ++
            e.Message))), ?_⟩
          simp only [Client.DoRequest, hreq, hdo, htoken, if_false, hc1]
          rfl

/-- What holds of the request `SetHeaders` prepares, for every client and every request it
starts from, holds of every request a call of `DoRequest` sends. -/
theorem SentWith_of_log (env : Env) (c c2 : Client) (method path queryStr : String)
    (body : Option Payload) (headers : Option StringMap) (r : Option Bytes × Option GoError)
    (P : Client → Request → Prop)
    (hrun : c.DoRequest env method path queryStr body headers = .ret (r, c2))
    (hfirst : ∀ req, c.NewRequest env method path queryStr body = .ret (.ok req) →
      P c (c.SetHeaders req (env.rangeOrder c.client (requestHeaders body headers))))
    (hsecond : ∀ (cl : Client) (first : Request), P c first →
      P cl (cl.SetHeaders first (env.rangeOrder cl.client (requestHeaders body headers)))) :
    SentWith env c c2 P := by
  rcases DoRequest_log env c method path queryStr body headers with
    ⟨msg, hf, -⟩ | ⟨err, he⟩ | ⟨req, first, hreq, hfst, h⟩
  · rw [hf] at hrun
    exact Run.noConfusion hrun
  · rw [he] at hrun
    exact Or.inl (congrArg Prod.snd (Run.ret.inj hrun)).symm
  · subst hfst
    rcases h with ⟨r1, h1⟩ | ⟨r1, e, second, -, -, hsnd, h1⟩
    · rw [h1] at hrun
      exact Or.inr (Or.inl ⟨_, (congrArg Prod.snd (Run.ret.inj hrun)).symm, hfirst req hreq⟩)
    · rw [h1] at hrun
      subst hsnd
      exact Or.inr (Or.inr ⟨_, _, (congrArg Prod.snd (Run.ret.inj hrun)).symm, hfirst req hreq,
        hsecond _ _ (hfirst req hreq)⟩)

theorem SetHeaders_authorization (c : Client) (req : Request) (visit : StringMap)
    (hno : ∀ kv ∈ visit, CanonicalMIMEHeaderKey kv.1 ≠ "Authorization") :
    Header.Get (c.SetHeaders req visit).Header "Authorization" = "Bearer " ++ c.AccessToken := by
  have hK : CanonicalMIMEHeaderKey "Authorization" = "Authorization" := by decide
  unfold Header.Get Client.SetHeaders
  rw [hK, lookup_setAll_other "Authorization" visit _ hno]
  have := lookup_Set_same req.Header "Authorization" ("Bearer " ++ c.AccessToken)
  rw [hK] at this
  rw [this]
  rfl

/-- The fields `SetHeaders` leaves in a request, for a field other than Authorization of which
the map holds no other spelling: what the map holds, else what the request held. -/
theorem SetHeaders_field (c : Client) (req : Request) (m visit : StringMap) (K : String)
    (hK : CanonicalMIMEHeaderKey K = K) (hKA : K ≠ "Authorization") (hperm : visit.Perm m)
    (hnd : (m.map (fun kv => kv.1)).Nodup)
    (hspell : ∀ kv ∈ m, CanonicalMIMEHeaderKey kv.1 = K → kv.1 = K) :
    (c.SetHeaders req visit).Header.lookup K =
      match m.lookup K with
      | some v => some v
      | none => req.Header.lookup K := by
  unfold Client.SetHeaders
  simp only
  rw [lookup_setAll_perm K m visit _ hK hperm hnd hspell]
  rw [lookup_Set_other req.Header "Authorization" _ K
    (by rw [show CanonicalMIMEHeaderKey "Authorization" = "Authorization" by decide]
        exact fun e => hKA e.symm)]

/-- Every request `DoRequest` sends holds, in each of the fields `Ks`, what `req_headers`
holds under that key, and nothing when it has no such key. -/
theorem DoRequest_fields (env : Env) (hrange : env.Ranges) (c c2 : Client)
    (method path queryStr : String) (body : Option Payload) (headers : Option StringMap)
    (r : Option Bytes × Option GoError) (Ks : List String)
    (hK : ∀ K ∈ Ks, CanonicalMIMEHeaderKey K = K ∧ K ≠ "Authorization")
    (hspell : ∀ K ∈ Ks, ∀ kv ∈ requestHeaders body headers,
      CanonicalMIMEHeaderKey kv.1 = K → kv.1 = K)
    (hrun : c.DoRequest env method path queryStr body headers = .ret (r, c2)) :
    SentWith env c c2 (fun _ req =>
      ∀ K ∈ Ks, req.Header.lookup K = (requestHeaders body headers).lookup K) := by
  apply SentWith_of_log env c c2 method path queryStr body headers r _ hrun
  · intro req hreq K hmem
    rw [SetHeaders_field c req _ _ K (hK K hmem).1 (hK K hmem).2 (hrange _ _)
      (requestHeaders_nodup body headers) (hspell K hmem),
      NewRequest_header env c method path queryStr body req hreq]
    cases (requestHeaders body headers).lookup K <;> rfl
  · intro cl first hfirst K hmem
    rw [SetHeaders_field cl first _ _ K (hK K hmem).1 (hK K hmem).2 (hrange _ _)
      (requestHeaders_nodup body headers) (hspell K hmem), hfirst K hmem]
    cases (requestHeaders body headers).lookup K <;> rfl

theorem SentWith_mono (env : Env) (c c2 : Client) (P Q : Client → Request → Prop)
    (hPQ : ∀ cl req, P cl req → Q cl req) (h : SentWith env c c2 P) : SentWith env c c2 Q := by
  rcases h with h | ⟨first, h, hp⟩ | ⟨first, second, h, hp1, hp2⟩
  · exact Or.inl h
  · exact Or.inr (Or.inl ⟨first, h, hPQ _ _ hp⟩)
  · exact Or.inr (Or.inr ⟨first, second, h, hPQ _ _ hp1, hPQ _ _ hp2⟩)

/-- C21, as amended: for every caller-supplied headers map none of whose keys is a spelling of
Authorization, and whatever order the runtime visits the headers in, every request a call of
DoRequest sends (the first send and the retry) carries in Authorization the text "Bearer "
followed by the access token the client held when the headers of that send were set. -/
theorem DoRequest_authorization_is_bearer_token (env : Env) (hrange : env.Ranges)
    (c c2 : Client) (method path queryStr : String) (body : Option Payload)
    (headers : Option StringMap) (r : Option Bytes × Option GoError)
    (hno : ∀ kv ∈ headers.getD [], CanonicalMIMEHeaderKey kv.1 ≠ "Authorization")
    (hrun : c.DoRequest env method path queryStr body headers = .ret (r, c2)) :
    SentWith env c c2 (fun cl req =>
      Header.Get req.Header "Authorization" = "Bearer " ++ cl.AccessToken) := by
  have hvisit : ∀ history, ∀ kv ∈ env.rangeOrder history (requestHeaders body headers),
      CanonicalMIMEHeaderKey kv.1 ≠ "Authorization" := by
    intro history kv hkv
    rcases mem_requestHeaders body headers kv ((hrange _ _).mem_iff.mp hkv) with h | h
    · rw [h]
      decide
    · exact hno kv h
  apply SentWith_of_log env c c2 method path queryStr body headers r _ hrun
  · intro req _
    exact SetHeaders_authorization c req _ (hvisit _)
  · intro cl first _
    exact SetHeaders_authorization cl first _ (hvisit _)

/-- On the test server, with a caller who asks for JSON: the first send bears the stale token,
the retry the token fetched in between. -/
theorem DoRequest_authorization_is_bearer_token_witness :
    SentWith tokenServer staleClient
      { staleClient with
        client := [{ testRequest with
                     Header := [("Authorization", "Bearer stale"), ("Accept", "application/json")] },
                   tokenRequest,
                   { testRequest with
                     Header := [("Authorization", "Bearer 12345"), ("Accept", "application/json")] }],
        AccessToken := "12345" }
      (fun cl req => Header.Get req.Header "Authorization" = "Bearer " ++ cl.AccessToken) :=
  DoRequest_authorization_is_bearer_token tokenServer (fun _ _ => List.Perm.refl _)
    staleClient _ "GET" "/test/path" "" none (some [("Accept", "application/json")])
    (some testBody, none) (by decide) rfl

/-- C21, as stated, fails: a caller whose headers hold an Authorization entry has that entry
sent; the request does not bear the client's token. -/
theorem DoRequest_caller_authorization_wins :
    Client.DoRequest (fixedServer (.ok { StatusCode := 200, Body := .ok testBody })) staleClient
        "GET" "/test/path" "" none (some [("Authorization", "Basic dXNlcjpwYXNz")]) =
      .ret ((some testBody, none),
        { staleClient with
          client := [{ testRequest with Header := [("Authorization", "Basic dXNlcjpwYXNz")] }] }) ∧
    staleClient.AccessToken = "stale" :=
  ⟨rfl, rfl⟩

/-- C23, as amended: for every caller-supplied headers map in which no key is another spelling
of Content-Type, and whatever order the runtime visits the headers in, every request a call of
DoRequest sends carries as Content-Type the caller's Content-Type when the map has one,
otherwise "application/vnd.simplivity.v1+json" when a body is present, otherwise none.
Hence SetBackupParameters and UpdatePowerState submit with Content-Type
"application/vnd.simplivity.v1.11+json", and every call with the header map of the persistent
volumes (their GetAll, SetPolicyForMultiplePVs and CreateBackup) goes out with Content-Type
and Accept "application/vnd.simplivity.v1.16+json". -/
theorem DoRequest_content_type (env : Env) (hrange : env.Ranges) :
    (∀ (c c2 : Client) (method path queryStr : String) (body : Option Payload)
      (headers : Option StringMap) (r : Option Bytes × Option GoError),
      ((headers.getD []).map (fun kv => kv.1)).Nodup →
      (∀ kv ∈ headers.getD [],
        CanonicalMIMEHeaderKey kv.1 = "Content-Type" → kv.1 = "Content-Type") →
      c.DoRequest env method path queryStr body headers = .ret (r, c2) →
      SentWith env c c2 (fun _ req =>
        req.Header.lookup "Content-Type" = expectedContentType body headers)) ∧
    (∀ (c c2 : Client) (v : VirtualMachine) (req : Option SetBackupParametersRequest)
      (r : Reply), Client.requester env c (v.backupParametersRequest req) = .ret (r, c2) →
      SentWith env c c2 (fun _ q =>
        q.Header.lookup "Content-Type" = some "application/vnd.simplivity.v1.11+json")) ∧
    (∀ (c c2 : Client) (path : String) (r : Reply),
      Client.requester env c (powerRequest path) = .ret (r, c2) →
      SentWith env c c2 (fun _ q =>
        q.Header.lookup "Content-Type" = some "application/vnd.simplivity.v1.11+json")) ∧
    (∀ (c c2 : Client) (call : Call) (r : Reply), call.headers = some header →
      Client.requester env c call = .ret (r, c2) →
      SentWith env c c2 (fun _ q =>
        q.Header.lookup "Content-Type" = some "application/vnd.simplivity.v1.16+json" ∧
        q.Header.lookup "Accept" = some "application/vnd.simplivity.v1.16+json")) ∧
    (∀ decode params, ((PersistentVolumeResource decode).listRequest params).headers =
      some header) ∧
    (∀ policy pv_ids, (PersistentVolumeResource.setPolicyRequest policy pv_ids).headers =
      some header) ∧
    (∀ (p : PersistentVolume) req, (p.backupRequest req).headers = some header) := by
  have hCT : CanonicalMIMEHeaderKey "Content-Type" = "Content-Type" ∧
      "Content-Type" ≠ "Authorization" := by decide
  have hAc : CanonicalMIMEHeaderKey "Accept" = "Accept" ∧ "Accept" ≠ "Authorization" := by decide
  have h11 : ∀ (c c2 : Client) (method path queryStr text : String) (r : Reply),
      c.DoRequest env method path queryStr (some (.encodes text))
        (some [("Content-Type", "application/vnd.simplivity.v1.11+json")]) = .ret (r, c2) →
      SentWith env c c2 (fun _ q =>
        q.Header.lookup "Content-Type" = some "application/vnd.simplivity.v1.11+json") := by
    intro c c2 method path queryStr text r hrun
    have hm : requestHeaders (some (.encodes text))
        (some [("Content-Type", "application/vnd.simplivity.v1.11+json")]) =
        [("Content-Type", "application/vnd.simplivity.v1.11+json")] := rfl
    refine SentWith_mono env c c2 _ _ ?_
      (DoRequest_fields env hrange c c2 method path queryStr _ _ r ["Content-Type"]
        (by simpa using hCT) (by rw [hm]; decide) hrun)
    intro cl q hq
    rw [hq "Content-Type" (by simp), hm]
    rfl
  refine ⟨?_, ?_, ?_, ?_, fun _ _ => rfl, fun _ _ => rfl, fun _ _ => rfl⟩
  · intro c c2 method path queryStr body headers r hmap hspell hrun
    refine SentWith_mono env c c2 _ _ ?_
      (DoRequest_fields env hrange c c2 method path queryStr body headers r ["Content-Type"]
        (by simpa using hCT) ?_ hrun)
    · intro cl q hq
      rw [hq "Content-Type" (by simp), requestHeaders_contentType body headers hmap]
    · intro K hK kv hkv hc
      rw [List.mem_singleton] at hK
      subst hK
      rcases mem_requestHeaders body headers kv hkv with h | h
      · exact h
      · exact hspell kv h hc
  · intro c c2 v req r hrun
    exact h11 c c2 _ _ _ _ r hrun
  · intro c c2 path r hrun
    exact h11 c c2 _ _ _ _ r hrun
  · intro c c2 call r hh hrun
    obtain ⟨method, path, queryStr, body, headers⟩ := call
    simp only at hh
    subst hh
    have hm : requestHeaders body (some header) =
        [("Content-Type", "application/vnd.simplivity.v1.16+json"),
         ("Accept", "application/vnd.simplivity.v1.16+json")] ∨
        requestHeaders body (some header) =
        [("Accept", "application/vnd.simplivity.v1.16+json"),
         ("Content-Type", "application/vnd.simplivity.v1.16+json")] := by
      cases body with
      | none => exact Or.inr rfl
      | some b => exact Or.inl rfl
    refine SentWith_mono env c c2 _ _ ?_
      (DoRequest_fields env hrange c c2 method path queryStr body (some header) r
        ["Content-Type", "Accept"] ?_ ?_ hrun)
    · intro cl q hq
      rw [hq "Content-Type" (by simp), hq "Accept" (by simp)]
      rcases hm with h | h <;> rw [h] <;> exact ⟨rfl, rfl⟩
    · intro K hK
      simp only [List.mem_cons, List.mem_singleton, List.mem_nil_iff, or_false] at hK
      rcases hK with h | h <;> subst h
      · exact hCT
      · exact hAc
    · rcases hm with h | h <;> rw [h] <;> decide

/-- SetBackupParameters on a server that accepts: one request, with the content type of
version 1.11. -/
theorem DoRequest_content_type_witness :
    SentWith (fixedServer (.ok { StatusCode := 200, Body := .ok testBody })) staleClient
      { staleClient with
        client := [{ Method := "POST",
                     URL := { Text := "https://ovc.test/api/virtual_machines/1/backup_parameters",
                              RawQuery := "" },
                     Header := [("Authorization", "Bearer stale"),
                                ("Content-Type", "application/vnd.simplivity.v1.11+json")],
                     Body := some "null\n" }] }
      (fun _ q => q.Header.lookup "Content-Type" = some "application/vnd.simplivity.v1.11+json") :=
  (DoRequest_content_type (fixedServer (.ok { StatusCode := 200, Body := .ok testBody }))
    (fun _ _ => List.Perm.refl _)).2.1 staleClient _ testVM none (some testBody, none) rfl

/-- C23, as stated, fails: for a caller whose map spells the key content-type, the content
type sent with a body is the caller's when the runtime visits the default first, and the
default when it visits the default last. -/
theorem DoRequest_content_type_by_range_order :
    Client.DoRequest (fixedServer (.ok { StatusCode := 200, Body := .ok testBody })) staleClient
        "POST" "/test/path" "" (some (.encodes "null")) (some [("content-type", "text/plain")]) =
      .ret ((some testBody, none),
        { staleClient with
          client := [{ testRequest with
                       Method := "POST"
                       Header := [("Authorization", "Bearer stale"), ("Content-Type", "text/plain")]
                       Body := some "null\n" }] }) ∧
    (reversingServer (.ok { StatusCode := 200, Body := .ok testBody })).Ranges ∧
    Client.DoRequest (reversingServer (.ok { StatusCode := 200, Body := .ok testBody }))
        staleClient "POST" "/test/path" "" (some (.encodes "null"))
        (some [("content-type", "text/plain")]) =
      .ret ((some testBody, none),
        { staleClient with
          client := [{ testRequest with
                       Method := "POST"
                       Header := [("Authorization", "Bearer stale"),
                                  ("Content-Type", "application/vnd.simplivity.v1+json")]
                       Body := some "null\n" }] }) :=
  ⟨rfl, fun _ m => List.reverse_perm m, rfl⟩

/-- C24: a call of DoRequest panics before anything is sent, or returns having sent the
resource request at most twice and called SetAccessToken at most once: nothing is sent when
the request cannot be built; else the request is sent once; a second send, of the same request
with its headers set again, happens only after the first was answered with an error envelope
whose error field is "invalid_token", with one call of SetAccessToken (one request at most)
in between, and nothing is sent after the second send whatever its answer. -/
theorem DoRequest_sends_at_most_twice (env : Env) (c : Client) (method path queryStr : String)
    (body : Option Payload) (headers : Option StringMap) :
    (∃ msg, c.DoRequest env method path queryStr body headers = .fault msg ∧
      c.NewRequest env method path queryStr body = .fault msg) ∨
    ∃ r c2, c.DoRequest env method path queryStr body headers = .ret (r, c2) ∧
      (c2 = c ∨
       (∃ first, c2 = c.sent first) ∨
       (∃ first second e tok, (c.Do env first).1 = (none, none, some e) ∧
         e.Error = "invalid_token" ∧ tok.length ≤ 1 ∧
         (c.refreshed env first).client = c.client ++ [first] ++ tok ∧
         second.Method = first.Method ∧ second.URL = first.URL ∧ second.Body = first.Body ∧
         c2 = (c.refreshed env first).sent second ∧
         c2.client = c.client ++ [first] ++ tok ++ [second])) := by
  rcases DoRequest_log env c method path queryStr body headers with
    ⟨msg, hf, hn⟩ | ⟨err, he⟩ | ⟨req, first, -, -, h⟩
  · exact Or.inl ⟨msg, hf, hn⟩
  · exact Or.inr ⟨_, _, he, Or.inl rfl⟩
  · rcases h with ⟨r1, h1⟩ | ⟨r1, e, second, hdo, htoken, hsnd, h1⟩
    · exact Or.inr ⟨_, _, h1, Or.inr (Or.inl ⟨first, rfl⟩)⟩
    · obtain ⟨tok, hlen, htok⟩ := SetAccessToken_log env (c.sent first)
      have hlog : (c.refreshed env first).client = c.client ++ [first] ++ tok := htok
      refine Or.inr ⟨_, _, h1, Or.inr (Or.inr ⟨first, second, e, tok, hdo, htoken, hlen, hlog,
        ?_, ?_, ?_, rfl, ?_⟩)⟩
      · rw [hsnd]; rfl
      · rw [hsnd]; rfl
      · rw [hsnd]; rfl
      · show (c.refreshed env first).client ++ [second] = _
        rw [hlog]

/-! ## CreateResourceURL and NewRequest -/

/-- The text CreateResourceURL hands to `url.Parse`, by the first four characters of the
host, and what it does with the URL parsed: the raw query is replaced by the query given when
that is not empty, and left as parsed otherwise. -/
theorem CreateResourceURL_base_and_query (env : Env) (c : Client) (path query : String) (u : URL)
    (hparse : env.urlParse
      (if startsWith c.OVCIP "http" then c.OVCIP ++ path
       else "https://" ++ c.OVCIP ++ "/api" ++ path) = .ok u) :
    c.CreateResourceURL env path query =
      .ok { Text := u.Text, RawQuery := if query = "" then u.RawQuery else query } := by
  unfold Client.CreateResourceURL
  by_cases hp : startsWith c.OVCIP "http" = true
  · rw [if_pos hp] at hparse
    simp only [hp, Bool.not_true, Bool.false_eq_true, if_false, hparse]
    by_cases hq : query = ""
    · simp [hq]
    · simp [hq]
  · rw [if_neg hp] at hparse
    have hp2 : startsWith c.OVCIP "http" = false := by simpa using hp
    simp only [hp2, Bool.not_false, if_true, hparse]
    by_cases hq : query = ""
    · simp [hq]
    · simp [hq]

/-- A path that holds a question mark: with an empty query given, the raw query of the result
is the one `url.Parse` found in the path. -/
theorem CreateResourceURL_query_of_path :
    Client.CreateResourceURL splittingServer (clientFor "ovc.test") "/hosts?limit=1" "" =
      .ok { Text := "https://ovc.test/api/hosts?limit=1", RawQuery := "limit=1" } :=
  rfl

/-- C22, on the code: the host name httpbin.org carries no scheme, so the URL of its hosts is
"https://httpbin.org/api/hosts". CreateResourceURL tests the host for the four characters
"http" instead of a scheme, takes httpbin.org for a base URL and yields "httpbin.org/hosts",
which has no scheme either. For a host name that does not begin with "http", such as
ovc.test, it yields the URL with "https://" and "/api"; for a base URL with its scheme, that
base URL followed by the path. -/
theorem CreateResourceURL_host_beginning_with_http :
    getScheme "httpbin.org" = "" ∧
    Client.CreateResourceURL tokenServer (clientFor "httpbin.org") "/hosts" "" =
      .ok { Text := "httpbin.org/hosts", RawQuery := "" } ∧
    getScheme "httpbin.org/hosts" = "" ∧
    (getScheme "ovc.test" = "" ∧
      Client.CreateResourceURL tokenServer (clientFor "ovc.test") "/hosts" "" =
        .ok { Text := "https://ovc.test/api/hosts", RawQuery := "" }) ∧
    (getScheme "http://127.0.0.1:8080" = "http" ∧
      Client.CreateResourceURL tokenServer (clientFor "http://127.0.0.1:8080") "/hosts" "" =
        .ok { Text := "http://127.0.0.1:8080/hosts", RawQuery := "" }) :=
  ⟨by decide, rfl, by decide, ⟨by decide, rfl⟩, ⟨by decide, rfl⟩⟩

/-- C27, as stated, fails: for every host, path and query for which CreateResourceURL returns
an error, NewRequest with no body or with a body the encoder accepts goes on to
`resourceURL.String()` with a nil URL and panics, and so does DoRequest. -/
theorem NewRequest_faults_on_unparsable_URL (env : Env) (c : Client)
    (method path query : String) (body : Option Payload) (headers : Option StringMap)
    (err : GoError) (hurl : c.CreateResourceURL env path query = .error err)
    (hbody : ∀ e, body ≠ some (.unsupported e)) :
    c.NewRequest env method path query body = .fault nilDereference ∧
    c.DoRequest env method path query body headers = .fault nilDereference := by
  have hnew : c.NewRequest env method path query body = .fault nilDereference := by
    unfold Client.NewRequest
    cases body with
    | none => simp only [hurl]; rfl
    | some b =>
      cases b with
      | unsupported e => exact absurd rfl (hbody e)
      | encodes text => simp only [hurl]; rfl
  exact ⟨hnew, by simp only [Client.DoRequest, hnew]⟩

/-- A host name with a space in it: `url.Parse` fails, and a GET of the hosts panics. -/
theorem NewRequest_faults_on_unparsable_URL_witness :
    Client.CreateResourceURL strictServer (clientFor "ovc test") "/hosts" "" =
      .error (.urlParse "invalid character \" \" in host name") ∧
    Client.NewRequest strictServer (clientFor "ovc test") "GET" "/hosts" "" none =
      .fault nilDereference ∧
    Client.DoRequest strictServer (clientFor "ovc test") "GET" "/hosts" "" none none =
      .fault nilDereference :=
  ⟨rfl, NewRequest_faults_on_unparsable_URL strictServer (clientFor "ovc test") "GET" "/hosts" ""
    none none (.urlParse "invalid character \" \" in host name") rfl (fun _ h => by cases h)⟩

/-! ## Errors that are dropped, and absent tasks -/

/-- C25, as stated, fails: the token endpoint cannot be reached, so the call of SetAccessToken
after the invalid-token answer returns an error; DoRequest does not look at it, sends the
request again with the old token, and returns the body of the second answer with a nil
error. -/
theorem DoRequest_drops_refresh_error :
    (Client.SetAccessToken tokenlessServer (staleClient.sent (bearing "stale"))).1 =
      some (.transport "connection refused") ∧
    Client.DoRequest tokenlessServer staleClient "GET" "/test/path" "" none none =
      .ret ((some testBody, none),
        { staleClient with client := [bearing "stale", tokenRequest, bearing "stale"] }) :=
  ⟨rfl, rfl⟩

/-- C26, as stated, fails: a body that decodes without error and holds no task (the empty
object, an error envelope, the text null, a null task) leaves `taskResp.Task` nil, and
WaitForTask panics on `taskResp.Task.State`, at the first response for every client, and at a
fetched response that sets the task to null. -/
theorem WaitForTask_faults_without_task {σ : Type} (client : Requester σ) (fuel : Nat) (s : σ) :
    TaskResp.Unmarshal (.json (.obj [])) {} = .ok {} ∧
    TaskResource.WaitForTask client (fuel + 1) s (.json (.obj [])) = .fault nilDereference ∧
    TaskResource.WaitForTask client (fuel + 1) s invalidTokenBody = .fault nilDereference ∧
    TaskResource.WaitForTask client (fuel + 1) s (.json .null) = .fault nilDereference ∧
    TaskResource.WaitForTask client (fuel + 1) s nullTaskBody = .fault nilDereference ∧
    TaskResource.WaitForTask Scripted.DoRequest (fuel + 2) { pending := [replyOf nullTaskBody] }
      startedBody = .fault nilDereference :=
  ⟨rfl, rfl, rfl, rfl, rfl, rfl⟩

/-! ## Query strings: the order of the keys -/

theorem bytesLE_refl (a : List Nat) : bytesLE a a = true := by
  induction a with
  | nil => rfl
  | cons x xs ih => simp [bytesLE, ih]

theorem bytesLE_total : ∀ a b : List Nat, bytesLE a b = true ∨ bytesLE b a = true
  | [], _ => Or.inl rfl
  | _ :: _, [] => Or.inr rfl
  | x :: xs, y :: ys => by
    rcases Nat.lt_trichotomy x y with h | h | h
    · exact Or.inl (by simp [bytesLE, h])
    · subst h
      rcases bytesLE_total xs ys with h1 | h1
      · exact Or.inl (by simp [bytesLE, h1])
      · exact Or.inr (by simp [bytesLE, h1])
    · exact Or.inr (by simp [bytesLE, h])

theorem bytesLE_trans : ∀ a b c : List Nat,
    bytesLE a b = true → bytesLE b c = true → bytesLE a c = true
  | [], _, _ => fun _ _ => rfl
  | _ :: _, [], _ => fun h _ => by simp [bytesLE] at h
  | _ :: _, _ :: _, [] => fun _ h => by simp [bytesLE] at h
  | x :: xs, y :: ys, z :: zs => by
    intro h1 h2
    simp only [bytesLE, Bool.or_eq_true, decide_eq_true_eq, Bool.and_eq_true, beq_iff_eq]
      at h1 h2 ⊢
    rcases h1 with h1 | ⟨e1, h1⟩
    · rcases h2 with h2 | ⟨e2, h2⟩
      · exact Or.inl (Nat.lt_trans h1 h2)
      · exact Or.inl (e2 ▸ h1)
    · rcases h2 with h2 | ⟨e2, h2⟩
      · exact Or.inl (e1 ▸ h2)
      · exact Or.inr ⟨e1.trans e2, bytesLE_trans xs ys zs h1 h2⟩

theorem bytesLE_antisymm : ∀ a b : List Nat,
    bytesLE a b = true → bytesLE b a = true → a = b
  | [], [] => fun _ _ => rfl
  | [], _ :: _ => fun _ h => by simp [bytesLE] at h
  | _ :: _, [] => fun h _ => by simp [bytesLE] at h
  | x :: xs, y :: ys => by
    intro h1 h2
    simp only [bytesLE, Bool.or_eq_true, decide_eq_true_eq, Bool.and_eq_true, beq_iff_eq]
      at h1 h2
    rcases h1 with h1 | ⟨e1, h1⟩
    · rcases h2 with h2 | ⟨e2, -⟩
      · exact absurd h1 (Nat.lt_asymm h2)
      · exact absurd h1 (e2 ▸ Nat.lt_irrefl _)
    · rcases h2 with h2 | ⟨-, h2⟩
      · exact absurd h2 (e1 ▸ Nat.lt_irrefl _)
      · rw [e1, bytesLE_antisymm xs ys h1 h2]

theorem insertKey_sorted (key : String) (keys : List String)
    (h : keys.Pairwise keyLE) : (insertKey key keys).Pairwise keyLE := by
  induction keys with
  | nil => simp [insertKey]
  | cons k ks ih =>
    unfold insertKey
    rw [List.pairwise_cons] at h
    split
    · rename_i hle
      refine List.pairwise_cons.mpr ⟨?_, List.pairwise_cons.mpr h⟩
      intro x hx
      rcases List.mem_cons.mp hx with hx | hx
      · rw [hx]; exact hle
      · exact bytesLE_trans _ _ _ hle (h.1 x hx)
    · rename_i hle
      have hkl : keyLE k key := by
        rcases bytesLE_total (utf8 key) (utf8 k) with h1 | h1
        · exact absurd h1 hle
        · exact h1
      refine List.pairwise_cons.mpr ⟨?_, ih h.2⟩
      intro x hx
      rcases List.mem_cons.mp ((insertKey_perm key ks).mem_iff.mp hx) with hx | hx
      · rw [hx]; exact hkl
      · exact h.1 x hx

theorem sortStrings_sorted (keys : List String) : (sortStrings keys).Pairwise keyLE := by
  induction keys with
  | nil => exact List.Pairwise.nil
  | cons k ks ih => exact insertKey_sorted k (sortStrings ks) ih

/-- Sorting does away with the order the keys came in. -/
theorem sortStrings_of_perm (keys keys2 : List String) (h : keys.Perm keys2) :
    sortStrings keys = sortStrings keys2 := by
  haveI : IsAntisymm String keyLE :=
    ⟨fun a b h1 h2 => utf8_inj a b (bytesLE_antisymm _ _ h1 h2)⟩
  exact List.eq_of_perm_of_sorted
    (((sortStrings_perm keys).trans h).trans (sortStrings_perm keys2).symm)
    (sortStrings_sorted keys) (sortStrings_sorted keys2)

/-! ## Query strings: the order of the filters -/

theorem Add_keys (v : Values) (key value : String) :
    (v.Add key value).map (fun kv => kv.1) =
      if key ∈ v.map (fun kv => kv.1) then v.map (fun kv => kv.1)
      else v.map (fun kv => kv.1) ++ [key] := by
  unfold Values.Add
  by_cases hany : v.any (fun kv => kv.1 == key) = true
  · have hmem : key ∈ v.map (fun kv => kv.1) := by
      simp only [List.any_eq_true, beq_iff_eq] at hany
      obtain ⟨kv, hkv, hk⟩ := hany
      exact List.mem_map.mpr ⟨kv, hkv, hk⟩
    rw [if_pos hany, if_pos hmem, List.map_map]
    apply List.map_congr_left
    intro kv _
    simp only [Function.comp]
    split <;> rfl
  · have hmem : key ∉ v.map (fun kv => kv.1) := by
      intro hin
      obtain ⟨kv, hkv, hk⟩ := List.mem_map.mp hin
      exact hany (List.any_eq_true.mpr ⟨kv, hkv, by simpa using hk⟩)
    rw [if_neg hany, if_neg hmem]
    simp

theorem addAll_keys_nodup (filters : StringMap) :
    ∀ v : Values, (v.map (fun kv => kv.1)).Nodup →
      ((addAll v filters).map (fun kv => kv.1)).Nodup := by
  induction filters with
  | nil => intro v h; exact h
  | cons kv rest ih =>
    intro v h
    obtain ⟨key, value⟩ := kv
    apply ih
    rw [Add_keys]
    split
    · exact h
    · rename_i hmem
      exact List.Nodup.append h (List.nodup_singleton key) (by simpa using hmem)

theorem mem_addAll_keys (filters : StringMap) :
    ∀ (v : Values) (k : String), k ∈ (addAll v filters).map (fun kv => kv.1) ↔
      k ∈ v.map (fun kv => kv.1) ∨ k ∈ filters.map (fun kv => kv.1) := by
  induction filters with
  | nil => intro v k; simp [addAll]
  | cons kv rest ih =>
    intro v k
    obtain ⟨key, value⟩ := kv
    simp only [addAll]
    rw [ih, Add_keys]
    by_cases hmem : key ∈ v.map (fun kv => kv.1)
    · rw [if_pos hmem]
      simp only [List.map_cons, List.mem_cons]
      constructor
      · rintro (h | h)
        · exact Or.inl h
        · exact Or.inr (Or.inr h)
      · rintro (h | h | h)
        · exact Or.inl h
        · exact Or.inl (h ▸ hmem)
        · exact Or.inr h
    · rw [if_neg hmem]
      simp only [List.map_cons, List.mem_cons, List.mem_append, List.mem_singleton]
      tauto

theorem lookup_map_values (g : String × List String → String × List String)
    (f : List String → List String) (key : String)
    (hg1 : ∀ kv, (g kv).1 = kv.1) (hg2 : ∀ kv, kv.1 = key → (g kv).2 = f kv.2) (v : Values) :
    (v.map g).lookup key = (v.lookup key).map f := by
  induction v with
  | nil => rfl
  | cons kv rest ih =>
    have e : g kv = ((g kv).1, (g kv).2) := rfl
    have h2 := hg2 kv
    obtain ⟨a, b⟩ := kv
    rw [List.map_cons, e, hg1]
    cases hk : (key == a) with
    | true =>
      simp only [List.lookup, hk, Option.map_some']
      rw [h2 (by simpa using (beq_iff_eq.mp hk).symm)]
    | false =>
      simp only [List.lookup, hk]
      exact ih

theorem lookup_values_append (key k : String) (x : List String) (v : Values) :
    (v ++ [(k, x)]).lookup key =
      match v.lookup key with
      | some vs => some vs
      | none => if key = k then some x else none := by
  induction v with
  | nil =>
    by_cases hk : key = k
    · simp [List.lookup, hk]
    · have hb : (key == k) = false := by simpa using hk
      simp [List.lookup, hk, hb]
  | cons kv rest ih =>
    obtain ⟨a, b⟩ := kv
    cases hb : key == a
    · simp only [List.cons_append, List.lookup, hb]
      exact ih
    · simp [List.lookup, hb]

/-- The values of a key after `Add`: the new value comes after those the key had. -/
theorem values_Add (v : Values) (k x key : String) :
    (v.Add k x).values key = if key = k then v.values key ++ [x] else v.values key := by
  unfold Values.Add Values.values
  by_cases hany : v.any (fun kv => kv.1 == k) = true
  · rw [if_pos hany]
    by_cases hk : key = k
    · subst hk
      rw [if_pos rfl, lookup_map_values _ (fun vs => vs ++ [x]) key
        (fun kv => by split <;> rfl) (fun kv hkv => by simp [hkv])]
      have hmem : key ∈ v.map (fun kv => kv.1) := by
        simp only [List.any_eq_true, beq_iff_eq] at hany
        obtain ⟨kv, hkv, hk⟩ := hany
        exact List.mem_map.mpr ⟨kv, hkv, hk⟩
      cases hl : v.lookup key with
      | some vs => rfl
      | none =>
        exfalso
        clear hany
        induction v with
        | nil => simp at hmem
        | cons e rest ih =>
          obtain ⟨a, b⟩ := e
          cases hb : key == a with
          | true => simp [List.lookup, hb] at hl
          | false =>
            simp only [List.lookup, hb] at hl
            simp only [List.map_cons, List.mem_cons] at hmem
            rcases hmem with h | h
            · simp [h] at hb
            · exact ih h hl
    · rw [if_neg hk, lookup_map_values _ (fun vs => vs) key
        (fun kv => by split <;> rfl)
        (fun kv hkv => by
          have hb : (kv.1 == k) = false := by rw [hkv]; simpa using hk
          simp [hb])]
      cases v.lookup key <;> rfl
  · rw [if_neg hany, lookup_values_append]
    by_cases hk : key = k
    · subst hk
      have hnone : v.lookup key = none := by
        cases hl : v.lookup key with
        | none => rfl
        | some vs =>
          exfalso
          apply hany
          clear hany
          induction v with
          | nil => simp [List.lookup] at hl
          | cons e rest ih =>
            obtain ⟨a, b⟩ := e
            cases hb : key == a with
            | true => simp [beq_iff_eq.mp hb]
            | false =>
              simp only [List.lookup, hb] at hl
              simp only [List.any_cons, Bool.or_eq_true]
              exact Or.inr (ih hl)
      simp [hnone]
    · cases v.lookup key with
      | some vs => simp [hk]
      | none => simp [hk]

/-- The values of a key after the loop over the filters: those it had, then the values of the
filters by that key, in the order the loop came by them. -/
theorem values_addAll (filters : StringMap) (key : String) :
    ∀ v : Values, (addAll v filters).values key =
      v.values key ++ (filters.filter (fun kv => kv.1 == key)).map (fun kv => kv.2) := by
  induction filters with
  | nil => intro v; simp [addAll]
  | cons kv rest ih =>
    intro v
    obtain ⟨k, x⟩ := kv
    simp only [addAll]
    rw [ih, values_Add]
    by_cases hk : key = k
    · subst hk
      simp [List.filter]
    · have hb : (k == key) = false := by simpa using fun e : k = key => hk e.symm
      simp [List.filter, hk, hb]

/-- Among entries with distinct keys, those by a given key are the same in whatever order the
entries come. -/
theorem filter_key_of_perm (filters filters2 : StringMap) (key : String)
    (hmap : (filters.map (fun kv => kv.1)).Nodup) (hperm : filters2.Perm filters) :
    filters2.filter (fun kv => kv.1 == key) = filters.filter (fun kv => kv.1 == key) := by
  have hshort : ∀ l : StringMap, (l.map (fun kv => kv.1)).Nodup →
      (l.filter (fun kv => kv.1 == key)).length ≤ 1 := by
    intro l
    induction l with
    | nil => intro _; simp
    | cons e rest ih =>
      intro hnd
      simp only [List.map_cons, List.nodup_cons] at hnd
      by_cases he : e.1 = key
      · have hnone : rest.filter (fun kv => kv.1 == key) = [] := by
          rw [List.filter_eq_nil_iff]
          intro kv hkv hb
          exact hnd.1 (he ▸ (beq_iff_eq.mp hb) ▸ List.mem_map.mpr ⟨kv, hkv, rfl⟩)
        simp [List.filter, he, hnone]
      · have hb : (e.1 == key) = false := by simpa using he
        simp only [List.filter, hb]
        exact ih hnd.2
  have hp := hperm.filter (fun kv => kv.1 == key)
  have h1 := hshort filters hmap
  have hmap2 : (filters2.map (fun kv => kv.1)).Nodup :=
    (hperm.map (fun kv => kv.1)).nodup_iff.mpr hmap
  have h2 := hshort filters2 hmap2
  cases hf : filters.filter (fun kv => kv.1 == key) with
  | nil =>
    rw [hf] at hp
    exact hp.eq_nil
  | cons a as =>
    rw [hf] at hp h1
    have has : as = [] := by
      cases as with
      | nil => rfl
      | cons b bs => simp at h1
    subst has
    exact List.perm_singleton.mp hp

theorem values_eq_addAll (p : GetAllParams) :
    p.values = addAll ({ p with Filters := [] } : GetAllParams).values p.Filters := by
  unfold GetAllParams.values
  simp only [List.length_nil, gt_iff_lt, Nat.lt_irrefl, if_false]
  split
  · rfl
  · rename_i h
    have hnil : p.Filters = [] := by
      cases hf : p.Filters with
      | nil => rfl
      | cons a b => simp [hf] at h
    rw [hnil]
    rfl

theorem standard_values_nodup (p : GetAllParams) :
    ((({ p with Filters := [] } : GetAllParams).values).map (fun kv => kv.1)).Nodup := by
  have h : (({ p with Filters := [] } : GetAllParams).values).map (fun kv => kv.1) =
      standardNames := rfl
  rw [h]
  decide

theorem values_of_perm (p q : GetAllParams)
    (hstd : ({ q with Filters := [] } : GetAllParams) = { p with Filters := [] })
    (hmap : (p.Filters.map (fun kv => kv.1)).Nodup) (hsame : q.Filters.Perm p.Filters) :
    sortStrings (q.values.map (fun kv => kv.1)) = sortStrings (p.values.map (fun kv => kv.1)) ∧
    ∀ key, q.values.values key = p.values.values key := by
  rw [values_eq_addAll p, values_eq_addAll q, hstd]
  constructor
  · apply sortStrings_of_perm
    rw [List.perm_ext_iff_of_nodup (addAll_keys_nodup _ _ (standard_values_nodup p))
      (addAll_keys_nodup _ _ (standard_values_nodup p))]
    intro k
    rw [mem_addAll_keys, mem_addAll_keys, (hsame.map (fun kv => kv.1)).mem_iff]
  · intro key
    rw [values_addAll, values_addAll, filter_key_of_perm p.Filters q.Filters key hmap hsame]

theorem flat_keys_sorted (v : Values) :
    ((v.flat.map bytesOf).map (fun kv => kv.1)).Pairwise (fun a b => bytesLE a b = true) := by
  rw [List.pairwise_map, List.pairwise_map]
  unfold Values.flat
  rw [List.pairwise_flatMap]
  constructor
  · intro key _
    apply List.pairwise_of_forall_mem_list
    intro a ha b hb
    obtain ⟨x, -, hx⟩ := List.mem_map.mp ha
    obtain ⟨y, -, hy⟩ := List.mem_map.mp hb
    rw [← hx, ← hy]
    exact bytesLE_refl _
  · refine (sortStrings_sorted _).imp ?_
    intro k1 k2 hle a ha b hb
    obtain ⟨x, -, hx⟩ := List.mem_map.mp ha
    obtain ⟨y, -, hy⟩ := List.mem_map.mp hb
    rw [← hx, ← hy]
    exact hle

/-- C29: two GetAllParams that agree on Limit, Offset, Sort, Order, Fields, Case and
ShowOptionalFields and hold the same filters (a map: each key once), whatever the order in
which the filters are visited, give the same query string; and the keys of that string, as
it decodes, come in ascending order of Go's comparison of strings. -/
theorem QueryString_independent_of_filter_order (p q : GetAllParams)
    (hLimit : q.Limit = p.Limit) (hOffset : q.Offset = p.Offset) (hSort : q.Sort_ = p.Sort_)
    (hOrder : q.Order = p.Order) (hFields : q.Fields = p.Fields) (hCase : q.Case = p.Case)
    (hShow : q.ShowOptionalFields = p.ShowOptionalFields)
    (hmap : (p.Filters.map (fun kv => kv.1)).Nodup) (hsame : q.Filters.Perm p.Filters) :
    q.QueryString = p.QueryString ∧
    ((ParseQuery p.QueryString).1.map (fun kv => kv.1)).Pairwise
      (fun a b => bytesLE a b = true) := by
  have hstd : ({ q with Filters := [] } : GetAllParams) = { p with Filters := [] } := by
    cases p
    cases q
    simp_all
  obtain ⟨hkeys, hvalues⟩ := values_of_perm p q hstd hmap hsame
  constructor
  · unfold GetAllParams.QueryString Values.Encode Values.pieces
    rw [hkeys]
    congr 1
    apply List.flatMap_congr
    intro key _
    rw [hvalues key]
  · unfold GetAllParams.QueryString
    rw [ParseQuery_Encode]
    exact flat_keys_sorted _

/-- Two filters, visited in one order and in the other: the same string, keys ascending. -/
theorem QueryString_independent_of_filter_order_witness :
    (twoFilters true).QueryString = (twoFilters false).QueryString ∧
    ((ParseQuery (twoFilters false).QueryString).1.map (fun kv => kv.1)).Pairwise
      (fun a b => bytesLE a b = true) :=
  QueryString_independent_of_filter_order (twoFilters false) (twoFilters true)
    rfl rfl rfl rfl rfl rfl rfl (by decide) (List.Perm.swap _ _ _)

/-- The query string of the two filters. -/
theorem QueryString_twoFilters :
    (twoFilters true).QueryString =
      "case=&fields=&limit=20&name=testname&offset=0&order=&show_optional_fields=false" ++
        "&sort=name&state=ALIVE" := by
  decide

/-! ## The operations: what the outcome depends on -/

/-- The request `call`, answered at once with a failed task that names an object and followed
by `more` in the script, is submitted and polled with success. -/
theorem submitted_failedNaming (call : Call) (more : List Reply) :
    Submitted Scripted.DoRequest 1 { pending := replyOf failedNamingBody :: more } call
      failedNamingTask { pending := more, calls := [call] } :=
  ⟨some failedNamingBody, { pending := more, calls := [call] }, rfl, rfl⟩

/-- C28: take two runs of an operation in which the request is submitted and polled with
success, ending with the terminal Tasks `tA` and `tB` and the client in the same state. When
the two Tasks have the same non-empty list of affected resources, whatever their state,
percent_complete and error_code, the two runs of SetPolicy, SetBackupParameters,
UpdatePowerState, Clone, Move and CreateBackup (of a VM and of a persistent volume) return
the same result and leave the client in the same state: the same follow-up requests. -/
theorem operations_depend_on_affected_resources_only {σ : Type} (client : Requester σ)
    (fuelA fuelB : Nat) (sA sB s2 : σ) (tA tB : Task)
    (hsame : tA.AffectedResources = tB.AffectedResources)
    (hne : tA.AffectedResources ≠ []) :
    (∀ (v : VirtualMachine) (policy : Policy),
      Submitted client fuelA sA (v.setPolicyRequest policy) tA s2 →
      Submitted client fuelB sB (v.setPolicyRequest policy) tB s2 →
      v.SetPolicy client fuelA sA (some policy) = .ret (none, s2) ∧
      v.SetPolicy client fuelB sB (some policy) = .ret (none, s2)) ∧
    (∀ (v : VirtualMachine) (req : Option SetBackupParametersRequest),
      Submitted client fuelA sA (v.backupParametersRequest req) tA s2 →
      Submitted client fuelB sB (v.backupParametersRequest req) tB s2 →
      v.SetBackupParameters client fuelA sA req = .ret (none, s2) ∧
      v.SetBackupParameters client fuelB sB req = .ret (none, s2)) ∧
    (∀ (v : VirtualMachine) (state path : String), powerPath v state = some path →
      Submitted client fuelA sA (powerRequest path) tA s2 →
      Submitted client fuelB sB (powerRequest path) tB s2 →
      v.UpdatePowerState client fuelA sA state = .ret (none, s2) ∧
      v.UpdatePowerState client fuelB sB state = .ret (none, s2)) ∧
    (∀ (vms : Kind VirtualMachine) (v : VirtualMachine) (name : String) (consistent : Bool),
      Submitted client fuelA sA (v.cloneRequest name consistent) tA s2 →
      Submitted client fuelB sB (v.cloneRequest name consistent) tB s2 →
      v.Clone client vms fuelA sA name consistent = v.Clone client vms fuelB sB name consistent) ∧
    (∀ (vms : Kind VirtualMachine) (v : VirtualMachine) (name : String) (datastore : Datastore),
      Submitted client fuelA sA (v.moveRequest name datastore) tA s2 →
      Submitted client fuelB sB (v.moveRequest name datastore) tB s2 →
      v.Move client vms fuelA sA name (some datastore) =
        v.Move client vms fuelB sB name (some datastore)) ∧
    (∀ (backups : Kind Backup) (v : VirtualMachine) (req req1 : Option CreateBackupRequest)
        (dest : Option OmniStackCluster), withDestination req dest = some req1 →
      Submitted client fuelA sA (v.backupRequest req1) tA s2 →
      Submitted client fuelB sB (v.backupRequest req1) tB s2 →
      v.CreateBackup client backups fuelA sA req dest =
        v.CreateBackup client backups fuelB sB req dest) ∧
    (∀ (backups : Kind Backup) (p : PersistentVolume) (req req1 : Option CreateBackupRequest)
        (dest : Option OmniStackCluster), withDestination req dest = some req1 →
      Submitted client fuelA sA (p.backupRequest req1) tA s2 →
      Submitted client fuelB sB (p.backupRequest req1) tB s2 →
      p.CreateBackup client backups fuelA sA req dest =
        p.CreateBackup client backups fuelB sB req dest) := by
  have hlenA : ¬tA.AffectedResources.length < 1 := by
    cases h : tA.AffectedResources with
    | nil => exact absurd h hne
    | cons a as => simp
  have hlenB : ¬tB.AffectedResources.length < 1 := hsame ▸ hlenA
  have hcons : ∃ a as, tB.AffectedResources = a :: as := by
    cases h : tB.AffectedResources with
    | nil => exact absurd (hsame.trans h) hne
    | cons a as => exact ⟨a, as, rfl⟩
  refine ⟨?_, ?_, ?_, ?_, ?_, ?_, ?_⟩
  · intro v policy hA hB
    simp [VirtualMachine.SetPolicy, submitAndWait_of_submitted client _ _ s2 _ _ hA,
      submitAndWait_of_submitted client _ _ s2 _ _ hB, hlenA, hlenB]
  · intro v req hA hB
    simp [VirtualMachine.SetBackupParameters, submitAndWait_of_submitted client _ _ s2 _ _ hA,
      submitAndWait_of_submitted client _ _ s2 _ _ hB, hlenA, hlenB]
  · intro v state path hpath hA hB
    simp [VirtualMachine.UpdatePowerState, hpath,
      submitAndWait_of_submitted client _ _ s2 _ _ hA,
      submitAndWait_of_submitted client _ _ s2 _ _ hB, hlenA, hlenB]
  · intro vms v name consistent hA hB
    obtain ⟨a, as, hb⟩ := hcons
    cases a <;>
      simp only [VirtualMachine.Clone, submitAndWait_of_submitted client _ _ s2 _ _ hA,
        submitAndWait_of_submitted client _ _ s2 _ _ hB, hsame, hb]
  · intro vms v name datastore hA hB
    obtain ⟨a, as, hb⟩ := hcons
    cases a <;>
      simp only [VirtualMachine.Move, submitAndWait_of_submitted client _ _ s2 _ _ hA,
        submitAndWait_of_submitted client _ _ s2 _ _ hB, hsame, hb]
  · intro backups v req req1 dest hd hA hB
    obtain ⟨a, as, hb⟩ := hcons
    cases a <;>
      simp only [VirtualMachine.CreateBackup, hd,
        submitAndWait_of_submitted client _ _ s2 _ _ hA,
        submitAndWait_of_submitted client _ _ s2 _ _ hB, hsame, hb]
  · intro backups p req req1 dest hd hA hB
    obtain ⟨a, as, hb⟩ := hcons
    cases a <;>
      simp only [PersistentVolume.CreateBackup, hd,
        submitAndWait_of_submitted client _ _ s2 _ _ hA,
        submitAndWait_of_submitted client _ _ s2 _ _ hB, hsame, hb]

/-- A task that is complete and a task that failed, both naming the object 1: SetPolicy
returns no error either way, and Clone looks the object up and returns it either way. -/
theorem operations_depend_on_affected_resources_only_witness :
    (testVM.SetPolicy Scripted.DoRequest 1 { pending := [replyOf completeBody] }
        (some testPolicy) =
        .ret (none, { pending := [], calls := [testVM.setPolicyRequest testPolicy] }) ∧
      testVM.SetPolicy Scripted.DoRequest 1 { pending := [replyOf failedNamingBody] }
        (some testPolicy) =
        .ret (none, { pending := [], calls := [testVM.setPolicyRequest testPolicy] })) ∧
    testVM.Clone Scripted.DoRequest sampleVMs 1
        { pending := [replyOf completeBody, replyOf vmListBody] } "clone" false =
      testVM.Clone Scripted.DoRequest sampleVMs 1
        { pending := [replyOf failedNamingBody, replyOf vmListBody] } "clone" false :=
  ⟨(operations_depend_on_affected_resources_only Scripted.DoRequest 1 1
      { pending := [replyOf completeBody] } { pending := [replyOf failedNamingBody] }
      { pending := [], calls := [testVM.setPolicyRequest testPolicy] }
      completeTask failedNamingTask rfl (by decide)).1 testVM testPolicy
      (submitted_complete _ []) (submitted_failedNaming _ []),
   (operations_depend_on_affected_resources_only Scripted.DoRequest 1 1
      { pending := [replyOf completeBody, replyOf vmListBody] }
      { pending := [replyOf failedNamingBody, replyOf vmListBody] }
      { pending := [replyOf vmListBody], calls := [testVM.cloneRequest "clone" false] }
      completeTask failedNamingTask rfl (by decide)).2.2.2.1 sampleVMs testVM "clone" false
      (submitted_complete _ _) (submitted_failedNaming _ _)⟩

/-! ## UpdatePowerState -/

theorem ret_state {α σ : Type} (a b : α) (s s2 : σ)
    (h : (Run.ret (a, s) : Run (α × σ)) = .ret (b, s2)) : s = s2 :=
  congrArg Prod.snd (Run.ret.inj h)

theorem Scripted_calls (s : Scripted) (call : Call) :
    ∃ reply s1, Scripted.DoRequest s call = .ret (reply, s1) ∧ s1.calls = s.calls ++ [call] := by
  unfold Scripted.DoRequest
  cases s.pending with
  | nil => exact ⟨_, _, rfl, rfl⟩
  | cons reply rest => exact ⟨_, _, rfl, rfl⟩

/-- Polling on a scripted client only adds to the calls recorded. -/
theorem waitLoop_calls (fuel : Nat) :
    ∀ (s s2 : Scripted) (r : TaskResp) (resp : Bytes) (x : Option Task × Option GoError),
      TaskResource.waitLoop Scripted.DoRequest fuel s r resp = .ret (x, s2) →
      ∃ rest, s2.calls = s.calls ++ rest := by
  induction fuel with
  | zero =>
    intro s s2 r resp x h
    exact Run.noConfusion h
  | succ fuel ih =>
    intro s s2 r resp x h
    unfold TaskResource.waitLoop at h
    cases hu : TaskResp.Unmarshal resp r with
    | error err =>
      simp only [hu] at h
      exact ⟨[], by rw [← ret_state _ _ _ _ h]; simp⟩
    | ok r1 =>
      cases ht : r1.Task with
      | none =>
        simp only [hu, ht] at h
        exact Run.noConfusion h
      | some task =>
        simp only [hu, ht] at h
        by_cases hstate : (task.State != "IN_PROGRESS") = true
        · rw [if_pos hstate] at h
          exact ⟨[], by rw [← ret_state _ _ _ _ h]; simp⟩
        · rw [if_neg hstate] at h
          obtain ⟨reply, s1, hcall, hs1⟩ :=
            Scripted_calls s { method := "GET", path := "/tasks/" ++ task.Id }
          obtain ⟨data, err⟩ := reply
          simp only [TaskResource.CheckProgress, hcall] at h
          cases err with
          | some e =>
            simp only at h
            exact ⟨_, by rw [← ret_state _ _ _ _ h]; exact hs1⟩
          | none =>
            simp only at h
            obtain ⟨rest, hrest⟩ := ih s1 s2 r1 _ x h
            exact ⟨{ method := "GET", path := "/tasks/" ++ task.Id } :: rest, by
              rw [hrest, hs1]; simp⟩

/-- On a scripted client, an operation that returns has recorded the request it submitted
right after the calls made before. -/
theorem submitAndWait_calls (fuel : Nat) (s s2 : Scripted) (call : Call)
    (x : Option Task × Option GoError)
    (h : submitAndWait Scripted.DoRequest fuel s call = .ret (x, s2)) :
    ∃ rest, s2.calls = s.calls ++ call :: rest := by
  obtain ⟨reply, s1, hcall, hs1⟩ := Scripted_calls s call
  obtain ⟨data, err⟩ := reply
  unfold submitAndWait at h
  simp only [hcall] at h
  cases err with
  | some e =>
    simp only at h
    exact ⟨[], by rw [← ret_state _ _ _ _ h]; exact hs1⟩
  | none =>
    simp only at h
    obtain ⟨rest, hrest⟩ := waitLoop_calls fuel s1 s2 _ _ x h
    exact ⟨rest, by rw [hrest, hs1]; simp⟩

theorem UpdatePowerState_calls (fuel : Nat) (s s2 : Scripted) (v : VirtualMachine)
    (state path : String) (r : Option GoError) (hpath : powerPath v state = some path)
    (h : v.UpdatePowerState Scripted.DoRequest fuel s state = .ret (r, s2)) :
    ∃ rest, s2.calls = s.calls ++ powerRequest path :: rest := by
  unfold VirtualMachine.UpdatePowerState at h
  simp only [hpath] at h
  cases hsub : submitAndWait Scripted.DoRequest fuel s (powerRequest path) with
  | fault msg => rw [hsub] at h; exact Run.noConfusion h
  | outOfFuel => rw [hsub] at h; exact Run.noConfusion h
  | ret y =>
    obtain ⟨⟨task, err⟩, s3⟩ := y
    obtain ⟨rest, hrest⟩ := submitAndWait_calls fuel s s3 _ _ hsub
    rw [hsub] at h
    cases err with
    | some e =>
      simp only at h
      exact ⟨rest, by rw [← ret_state _ _ _ _ h]; exact hrest⟩
    | none =>
      cases task with
      | none => exact Run.noConfusion h
      | some t =>
        simp only at h
        split at h
        · exact ⟨rest, by rw [← ret_state _ _ _ _ h]; exact hrest⟩
        · exact ⟨rest, by rw [← ret_state _ _ _ _ h]; exact hrest⟩

/-- The first step of UpdatePowerState for a state it accepts: the outcome of the operation is
fixed by what the client answers to the POST to `path`, in each of the four cases of that
answer. -/
theorem UpdatePowerState_submits {σ : Type} (client : Requester σ) (fuel : Nat) (s : σ)
    (v : VirtualMachine) (state path : String) (call : Call)
    (hpath : powerPath v state = some path)
    (hcall : call = { method := "POST", path := path, body := some (.encodes "\"\""),
                      headers := some [("Content-Type",
                        "application/vnd.simplivity.v1.11+json")] }) :
    (∀ msg, client s call = .fault msg → v.UpdatePowerState client fuel s state = .fault msg) ∧
    (client s call = .outOfFuel → v.UpdatePowerState client fuel s state = .outOfFuel) ∧
    (∀ resp err s1, client s call = .ret ((resp, some err), s1) →
      v.UpdatePowerState client fuel s state = .ret (some err, s1)) ∧
    (∀ resp s1, client s call = .ret ((resp, none), s1) →
      v.UpdatePowerState client fuel s state =
        match TaskResource.WaitForTask client fuel s1 (resp.getD (.text "")) with
        | .fault msg => .fault msg
        | .outOfFuel => .outOfFuel
        | .ret ((_, some err), s2) => .ret (some err, s2)
        | .ret ((none, none), _) => .fault nilDereference
        | .ret ((some task, none), s2) =>
          if task.AffectedResources.length < 1 then
            .ret (some (.errorf
              ("Setting power state operation was not successful. Error code:" ++
                runeString task.ErrorCode)), s2)
          else .ret (none, s2)) := by
  have hreq : powerRequest path = call := by
    rw [hcall]
    rfl
  refine ⟨?_, ?_, ?_, ?_⟩
  · intro msg h
    simp only [VirtualMachine.UpdatePowerState, hpath, submitAndWait, hreq, h]
  · intro h
    simp only [VirtualMachine.UpdatePowerState, hpath, submitAndWait, hreq, h]
  · intro resp err s1 h
    simp only [VirtualMachine.UpdatePowerState, hpath, submitAndWait, hreq, h]
  · intro resp s1 h
    simp only [VirtualMachine.UpdatePowerState, hpath, submitAndWait, hreq, h]

/-- C30: for every state string other than "on" and "off" (the comparison is by bytes, so
"ON" is another string), UpdatePowerState returns the error "Pass a valid power state" and
leaves the client as it was: no request. For "on" the first thing it does is submit a POST to
/virtual_machines/id/power_on, and for "off" a POST to /virtual_machines/id/power_off,
whatever comes of it: a panic of the client on that request is the panic of the operation, an
error returned for that request is returned by the operation with the client as that request
left it, and after an answer without error the operation polls the task from the state that
request left. On a scripted client, whenever the operation returns, that POST is the first
call it has added to the record. And it does return, given any fuel above zero, when the
answer to the POST holds a task that is not in progress: with an error when the task names
no affected resource, with a nil error otherwise. -/
theorem UpdatePowerState_accepts_on_and_off (v : VirtualMachine) :
    (∀ {σ : Type} (client : Requester σ) (fuel : Nat) (s : σ) (state : String),
      state ≠ "on" → state ≠ "off" →
      v.UpdatePowerState client fuel s state =
        .ret (some (.errorf "Pass a valid power state"), s)) ∧
    (∀ {σ : Type} (client : Requester σ) (fuel : Nat) (s : σ) (state path : String)
        (call : Call),
      (state = "on" ∧ path = "/virtual_machines/" ++ v.Id ++ "/power_on") ∨
      (state = "off" ∧ path = "/virtual_machines/" ++ v.Id ++ "/power_off") →
      call = { method := "POST", path := path, body := some (.encodes "\"\""),
               headers := some [("Content-Type", "application/vnd.simplivity.v1.11+json")] } →
      (∀ msg, client s call = .fault msg →
        v.UpdatePowerState client fuel s state = .fault msg) ∧
      (client s call = .outOfFuel → v.UpdatePowerState client fuel s state = .outOfFuel) ∧
      (∀ resp err s1, client s call = .ret ((resp, some err), s1) →
        v.UpdatePowerState client fuel s state = .ret (some err, s1)) ∧
      (∀ resp s1, client s call = .ret ((resp, none), s1) →
        v.UpdatePowerState client fuel s state =
          match TaskResource.WaitForTask client fuel s1 (resp.getD (.text "")) with
          | .fault msg => .fault msg
          | .outOfFuel => .outOfFuel
          | .ret ((_, some err), s2) => .ret (some err, s2)
          | .ret ((none, none), _) => .fault nilDereference
          | .ret ((some task, none), s2) =>
            if task.AffectedResources.length < 1 then
              .ret (some (.errorf
                ("Setting power state operation was not successful. Error code:" ++
                  runeString task.ErrorCode)), s2)
            else .ret (none, s2))) ∧
    (∀ (fuel : Nat) (s s2 : Scripted) (r : Option GoError),
      v.UpdatePowerState Scripted.DoRequest fuel s "on" = .ret (r, s2) →
      ∃ call rest, s2.calls = s.calls ++ call :: rest ∧ call.method = "POST" ∧
        call.path = "/virtual_machines/" ++ v.Id ++ "/power_on") ∧
    (∀ (fuel : Nat) (s s2 : Scripted) (r : Option GoError),
      v.UpdatePowerState Scripted.DoRequest fuel s "off" = .ret (r, s2) →
      ∃ call rest, s2.calls = s.calls ++ call :: rest ∧ call.method = "POST" ∧
        call.path = "/virtual_machines/" ++ v.Id ++ "/power_off") ∧
    (∀ {σ : Type} (client : Requester σ) (fuel : Nat) (s s1 : σ) (state path : String)
        (call : Call) (resp : Option Bytes) (r1 : TaskResp) (task : Task),
      (state = "on" ∧ path = "/virtual_machines/" ++ v.Id ++ "/power_on") ∨
      (state = "off" ∧ path = "/virtual_machines/" ++ v.Id ++ "/power_off") →
      call = { method := "POST", path := path, body := some (.encodes "\"\""),
               headers := some [("Content-Type", "application/vnd.simplivity.v1.11+json")] } →
      client s call = .ret ((resp, none), s1) →
      TaskResp.Unmarshal (resp.getD (.text "")) {} = .ok r1 → r1.Task = some task →
      task.State ≠ "IN_PROGRESS" →
      v.UpdatePowerState client (fuel + 1) s state =
        if task.AffectedResources.length < 1 then
          .ret (some (.errorf
            ("Setting power state operation was not successful. Error code:" ++
              runeString task.ErrorCode)), s1)
        else .ret (none, s1)) := by
  refine ⟨?_, ?_, ?_, ?_, ?_⟩
  · intro σ client fuel s state hon hoff
    simp [VirtualMachine.UpdatePowerState, powerPath, hon, hoff]
  · intro σ client fuel s state path call h hcall
    rcases h with ⟨hs, hp⟩ | ⟨hs, hp⟩
    · subst hs hp
      exact UpdatePowerState_submits client fuel s v "on" _ call rfl hcall
    · subst hs hp
      exact UpdatePowerState_submits client fuel s v "off" _ call rfl hcall
  · intro fuel s s2 r h
    obtain ⟨rest, hrest⟩ := UpdatePowerState_calls fuel s s2 v "on" _ r rfl h
    exact ⟨_, rest, hrest, rfl, rfl⟩
  · intro fuel s s2 r h
    obtain ⟨rest, hrest⟩ := UpdatePowerState_calls fuel s s2 v "off" _ r rfl h
    exact ⟨_, rest, hrest, rfl, rfl⟩
  · intro σ client fuel s s1 state path call resp r1 task h hcall hsend hdec ht hstate
    have hwait : TaskResource.WaitForTask client (fuel + 1) s1 (resp.getD (.text "")) =
        .ret ((some task, none), s1) :=
      waitLoop_terminal client fuel s1 {} r1 _ task hdec ht hstate
    have hpath : powerPath v state = some path := by
      rcases h with ⟨hs, hp⟩ | ⟨hs, hp⟩ <;> subst hs hp <;> rfl
    rw [(UpdatePowerState_submits client (fuel + 1) s v state path call hpath hcall).2.2.2
      resp s1 hsend, hwait]

/-- The state "ON": the error, nothing called. The state "off" on a server that is gone: the
POST to power_off is made and its error returned. The state "on" on a server that answers
with the complete task: one call, the POST to power_on, and no error. -/
theorem UpdatePowerState_accepts_on_and_off_witness :
    testVM.UpdatePowerState Scripted.DoRequest 1 { pending := [replyOf completeBody] } "ON" =
      .ret (some (.errorf "Pass a valid power state"), { pending := [replyOf completeBody] }) ∧
    testVM.UpdatePowerState Scripted.DoRequest 0 { pending := [] } "off" =
      .ret (some (.transport "connection refused"),
        { pending := [],
          calls := [{ method := "POST", path := "/virtual_machines/1/power_off",
                      body := some (.encodes "\"\""),
                      headers := some [("Content-Type",
                        "application/vnd.simplivity.v1.11+json")] }] }) ∧
    testVM.UpdatePowerState Scripted.DoRequest 1 { pending := [replyOf completeBody] } "on" =
      .ret (none, { pending := [], calls := [powerRequest "/virtual_machines/1/power_on"] }) ∧
    (∃ call rest,
      ({ pending := [], calls := [powerRequest "/virtual_machines/1/power_on"] } :
        Scripted).calls = ([] : List Call) ++ call :: rest ∧
      call.method = "POST" ∧ call.path = "/virtual_machines/" ++ testVM.Id ++ "/power_on") :=
  ⟨(UpdatePowerState_accepts_on_and_off testVM).1 Scripted.DoRequest 1 _ "ON"
      (by decide) (by decide),
   ((UpdatePowerState_accepts_on_and_off testVM).2.1 Scripted.DoRequest 0 { pending := [] }
      "off" "/virtual_machines/1/power_off" _ (Or.inr ⟨rfl, rfl⟩) rfl).2.2.1 none
      (.transport "connection refused") _ rfl,
   rfl,
   (UpdatePowerState_accepts_on_and_off testVM).2.2.1 1 { pending := [replyOf completeBody] }
      { pending := [], calls := [powerRequest "/virtual_machines/1/power_on"] } none rfl⟩

end ovc
